import Mathlib

/-!
Flight-System: sensor lifecycle controllers and the chain buffer.

A shallow embedding of

* `src/modules/sensor_modules/adc_modules/ads1115_driver.cpp` (`ADS1115Driver`),
* `src/sensors/imu.cpp` (namespace `IMU`),
* `src/lib/Simple-Schedule/src/chain_buffer.h` (`ChainBuffer`),
* `src/lib/Math-Helper/src/objects/vector_math.h` (`Vector`),

followed by theorems about them.  Stateful code is explicit state passing: one
call of a C++ member function is one Lean function from the old state (and the
values the external collaborators return during that call) to the new state.
-/

namespace FlightSystem

/-! ## Definitions -/

/-- Width of the `uint8_t` counters. -/
def UINT8 : Nat := 2 ^ 8

/-- Width of the `uint32_t` counters. -/
def UINT32 : Nat := 2 ^ 32

/-- Modelled from the spec: the Interval Scheduler (`IntervalControl`, whose header
`utils/interval_control.h` is not among the sources).  Section 4.2 of the spec gives
its state as `periodMicros`, `lastRunMicros` and `blocked`. -/
structure IntervalControl where
  periodMicros : Nat
  lastRunMicros : Nat
  blocked : Bool
  deriving DecidableEq, Repr

namespace IntervalControl

/-- Modelled from the spec: `isTimeToRun(now)` "returns true and updates
`lastRunMicros` iff not blocked and `now - lastRunMicros ≥ periodMicros`; returns
false otherwise (no side effect on false)".  `now` is the value of the free-running
clock read by the call. -/
def isTimeToRun (ic : IntervalControl) (now : Nat) : Bool × IntervalControl :=
  if ic.blocked = false ∧ ic.periodMicros ≤ now - ic.lastRunMicros then
    (true, { ic with lastRunMicros := now })
  else
    (false, ic)

/-- Modelled from the spec: `setRate(periodMicros)` "changes cadence immediately
(does not retroactively fire)". -/
def setRate (ic : IntervalControl) (periodMicros : Nat) : IntervalControl :=
  { ic with periodMicros := periodMicros }

/-- Modelled from the spec: `block(bool)` "force-disables scheduling regardless of
elapsed time". -/
def block (ic : IntervalControl) (b : Bool) : IntervalControl :=
  { ic with blocked := b }

end IntervalControl

/-- Modelled from the spec: the Telemetry Buffer of fixed capacity `N` (the `Fifo`
class used by the ADC driver; its header is not among the sources).  `items` holds
the stored samples, newest first. -/
structure Fifo (T : Type) (N : Nat) where
  items : List T
  deriving DecidableEq, Repr

namespace Fifo

/-- Modelled from the spec: `placeFront(value, overwrite)`: the push of section 4.1,
which "never blocks and never fails (overwrites oldest when full)" when `overwrite`
is set; without `overwrite` a full buffer is left as it is. -/
def placeFront {T : Type} {N : Nat} (f : Fifo T N) (value : T) (overwrite : Bool) : Fifo T N :=
  if f.items.length < N then ⟨value :: f.items⟩
  else if overwrite then ⟨(value :: f.items).take N⟩
  else f

/-- Number of stored samples. -/
def length {T : Type} {N : Nat} (f : Fifo T N) : Nat := f.items.length

end Fifo

/-- The values of `eModuleStatus_t` that `ads1115_driver.cpp` names, and
`eModuleStatus_Other raw` for every further value the enumeration's storage can
hold (the enumeration's declaration is not among the sources). -/
inductive eModuleStatus_t where
  | eModuleStatus_NotStarted
  | eModuleStatus_Running
  | eModuleStatus_RestartAttempt
  | eModuleStatus_Failure
  | eModuleStatus_Other (raw : Nat)
  deriving DecidableEq, Repr

/-- The ADS1115 chip behind `adc_`, seen from the driver: a record of the calls the
driver has made to it. `beginCalls` counts `adc_.begin()`, `requests` lists the pins
passed to `adc_.requestADC` (latest first), and `mode`, `gain`, `dataRate` are the
last values passed to `setMode`, `setGain`, `setDataRate`. -/
structure ADS1115 where
  beginCalls : Nat
  requests : List Nat
  mode : Option Nat
  gain : Option Nat
  dataRate : Option Nat
  deriving DecidableEq, Repr

/-- What the external collaborators return during one call of
`ADS1115Driver::thread`: the code returned by `adc_.begin()`, the answer of
`adc_.isBusy()`, the raw value returned by `adc_.getValue()`, the clock value
`micros()` read by `_getData` or `init`, and the clock value read by
`_rateCalcInterval.isTimeToRun()`. -/
structure ADCTick where
  startCode : Int
  isBusy : Bool
  getValue : Int
  micros : Nat
  microsRateCalc : Nat
  deriving DecidableEq, Repr

/-- The data members of `ADS1115Driver` that `ads1115_driver.cpp` uses.  `V` is the
type of a voltage and `N` the capacity of the buffers (both fixed by the header,
which is not among the sources).  The two buffer arrays are indexed by the pin
number; the C++ arrays have the entries `0 .. 3`.  `startAttempts_` and
`currentPin_` are 8-bit and the counters 32-bit unsigned integers, as the variables
of the same names in `imu.cpp`; the functions below reduce them modulo `UINT8` and
`UINT32`. -/
structure ADS1115Driver (V : Type) (N : Nat) where
  adc_ : ADS1115
  block_ : Bool
  loopCounter_ : Nat
  loopRate_ : Nat
  adcCounter_ : Nat
  adcRate_ : Nat
  moduleStatus_ : eModuleStatus_t
  startAttempts_ : Nat
  currentPin_ : Nat
  lastMeasurement_ : Nat
  voltageFifo_ : Nat → Fifo V N
  voltageTimestampFifo_ : Nat → Fifo Nat N
  _rateCalcInterval : IntervalControl

namespace ADS1115Driver

open eModuleStatus_t

variable {V : Type} {N : Nat}

/-- `ADS1115Driver::_getData` (ads1115_driver.cpp lines 5-21). `toVoltage` is
`adc_.toVoltage`. -/
def _getData (toVoltage : Int → V) (e : ADCTick) (s : ADS1115Driver V N) :
    ADS1115Driver V N :=
  if e.isBusy then s
  else
    let s1 := { s with adcCounter_ := (s.adcCounter_ + 1) % UINT32 }
    let s2 := { s1 with
      voltageTimestampFifo_ := Function.update s1.voltageTimestampFifo_ s1.currentPin_
        ((s1.voltageTimestampFifo_ s1.currentPin_).placeFront e.micros true) }
    let s3 := { s2 with
      voltageFifo_ := Function.update s2.voltageFifo_ s2.currentPin_
        ((s2.voltageFifo_ s2.currentPin_).placeFront (toVoltage e.getValue) true) }
    let s4 := { s3 with currentPin_ := (s3.currentPin_ + 1) % UINT8 }
    let s5 := if 4 ≤ s4.currentPin_ then { s4 with currentPin_ := 0 } else s4
    { s5 with adc_ := { s5.adc_ with requests := s5.currentPin_ :: s5.adc_.requests } }

/-- `ADS1115Driver::init` (ads1115_driver.cpp lines 67-93). -/
def init (e : ADCTick) (s : ADS1115Driver V N) : ADS1115Driver V N :=
  let s0 := { s with adc_ := { s.adc_ with beginCalls := s.adc_.beginCalls + 1 } }
  let startCode := e.startCode
  let s1 :=
    if 0 < startCode then
      { s0 with
        adc_ := { s0.adc_ with
          mode := some 1, gain := some 1, dataRate := some 7,
          requests := 0 :: s0.adc_.requests }
        lastMeasurement_ := e.micros
        moduleStatus_ := eModuleStatus_Running }
    else
      { s0 with moduleStatus_ := eModuleStatus_RestartAttempt }
  let s2 := { s1 with startAttempts_ := (s1.startAttempts_ + 1) % UINT8 }
  if 5 ≤ s2.startAttempts_ ∧ s2.moduleStatus_ = eModuleStatus_RestartAttempt then
    { s2 with moduleStatus_ := eModuleStatus_Failure }
  else s2

/-- `ADS1115Driver::thread` (ads1115_driver.cpp lines 24-63). -/
def thread (toVoltage : Int → V) (e : ADCTick) (s : ADS1115Driver V N) :
    ADS1115Driver V N :=
  if s.block_ then s
  else
    let s1 := { s with loopCounter_ := (s.loopCounter_ + 1) % UINT32 }
    let s2 :=
      if s1.moduleStatus_ = eModuleStatus_Running then
        _getData toVoltage e s1
      else if s1.moduleStatus_ = eModuleStatus_NotStarted
          ∨ s1.moduleStatus_ = eModuleStatus_RestartAttempt then
        init e s1
      else if false then
        { s1 with moduleStatus_ := eModuleStatus_Running }
      else
        { s1 with moduleStatus_ := eModuleStatus_Failure, block_ := true, loopRate_ := 0 }
    let r := s2._rateCalcInterval.isTimeToRun e.microsRateCalc
    let s3 := { s2 with _rateCalcInterval := r.2 }
    if r.1 then
      { s3 with
        loopRate_ := s3.loopCounter_
        adcRate_ := s3.adcCounter_
        adcCounter_ := 0
        loopCounter_ := 0 }
    else s3

/-- The driver after one call of `thread` for each entry of `es`, in order. -/
def ticks (toVoltage : Int → V) (es : List ADCTick) (s : ADS1115Driver V N) :
    ADS1115Driver V N :=
  es.foldl (fun st e => thread toVoltage e st) s

/-- Every channel of the driver is in lockstep: the value buffer and the timestamp
buffer of a pin have the same length, and the value and the timestamp at the same
position are related by `P`. -/
def Lockstep (P : V → Nat → Prop) (s : ADS1115Driver V N) : Prop :=
  ∀ p : Nat, List.Forall₂ P (s.voltageFifo_ p).items (s.voltageTimestampFifo_ p).items

/-- The relation between the status and the number of start attempts that the
lifecycle keeps: no attempt before the first start, 1 to 4 attempts while retrying,
1 to 5 attempts once running, exactly 5 attempts after the failure. -/
def LifecycleInv (s : ADS1115Driver V N) : Prop :=
  (s.moduleStatus_ = eModuleStatus_NotStarted ∧ s.startAttempts_ = 0)
    ∨ (s.moduleStatus_ = eModuleStatus_RestartAttempt
        ∧ 1 ≤ s.startAttempts_ ∧ s.startAttempts_ ≤ 4)
    ∨ (s.moduleStatus_ = eModuleStatus_Running
        ∧ 1 ≤ s.startAttempts_ ∧ s.startAttempts_ ≤ 5)
    ∨ (s.moduleStatus_ = eModuleStatus_Failure ∧ s.startAttempts_ = 5)

/-- A driver in the state the scenarios start from: status `NotStarted`, no start
attempt made, scheduling not blocked, counters at zero, pin 0 selected and every
buffer empty. `ic` is the rate calculation interval. -/
def fresh (V : Type) (N : Nat) (ic : IntervalControl) : ADS1115Driver V N :=
  { adc_ := ⟨0, [], none, none, none⟩
    block_ := false
    loopCounter_ := 0
    loopRate_ := 0
    adcCounter_ := 0
    adcRate_ := 0
    moduleStatus_ := eModuleStatus_NotStarted
    startAttempts_ := 0
    currentPin_ := 0
    lastMeasurement_ := 0
    voltageFifo_ := fun _ => ⟨[]⟩
    voltageTimestampFifo_ := fun _ => ⟨[]⟩
    _rateCalcInterval := ic }

end ADS1115Driver

/-- `Vector<T>` of `vector_math.h`: three components of the scalar type `T`. -/
structure Vector (T : Type) where
  x : T
  y : T
  z : T
  deriving DecidableEq, Repr

namespace Vector

variable {T : Type}

/-- `Vector::operator ==` (vector_math.h lines 237-239), over the scalar's own `==`
(which need not be reflexive: a floating point NaN differs from itself). -/
def eq [BEq T] (a b : Vector T) : Bool :=
  a.x == b.x && a.y == b.y && a.z == b.z

/-- `Vector::operator !=` (vector_math.h lines 248-250). -/
def ne [BEq T] (a b : Vector T) : Bool :=
  !(a.x == b.x && a.y == b.y && a.z == b.z)

/-- `Vector::magnitude` (vector_math.h lines 58-68). `sqrt` is the square root of
`math.h`; the test `m == m` is the scalar's own `==`. -/
def magnitude [Zero T] [Add T] [Mul T] [BEq T] (sqrt : T → T) (v : Vector T) : T :=
  let m := v.x * v.x + v.y * v.y + v.z * v.z
  let m := sqrt m
  if m == m then m else 0

/-- `Vector::normalize` (vector_math.h lines 84-100): the vector after the call, and
the divisors of the divisions the call performs, in the order it performs them. -/
def normalize [Zero T] [Add T] [Mul T] [Div T] [BEq T] (sqrt : T → T) (v : Vector T) :
    Vector T × List T :=
  let mag := magnitude sqrt v
  if mag != 0 then
    (⟨v.x / mag, v.y / mag, v.z / mag⟩, [mag, mag, mag])
  else
    (⟨0, 0, 0⟩, [])

/-- `Vector::operator * (const auto &c)` (vector_math.h lines 160-162): scaling. -/
def scale [Mul T] (a : Vector T) (c : T) : Vector T :=
  ⟨a.x * c, a.y * c, a.z * c⟩

/-- `Vector::operator * (const Vector<T> &b)` (vector_math.h lines 204-206), the
component wise multiplication; it is the overload chosen for a `Vector` operand. -/
def mul [Mul T] (a b : Vector T) : Vector T :=
  ⟨a.x * b.x, a.y * b.y, a.z * b.z⟩

/-- `Vector::operator ^` (vector_math.h lines 226-228), the dot product. -/
def dot [Add T] [Mul T] (a b : Vector T) : T :=
  a.x * b.x + a.y * b.y + a.z * b.z

/-- `Vector::operator - (void)` (vector_math.h lines 150-152): the negation. -/
def neg [Neg T] (a : Vector T) : Vector T :=
  ⟨-a.x, -a.y, -a.z⟩

/-- `Vector::cross` (vector_math.h lines 273-279). -/
def cross [Sub T] [Mul T] (a b : Vector T) : Vector T :=
  ⟨a.y * b.z - a.z * b.y, a.z * b.x - a.x * b.z, a.x * b.y - a.y * b.x⟩

/-- `Vector::getProjectionOn` (vector_math.h lines 304-310): `b.normalize()` followed
by `b*(*this*b)`, both products being `operator * (const Vector<T> &)`. -/
def getProjectionOn [Zero T] [Add T] [Mul T] [Div T] [BEq T] (sqrt : T → T)
    (a b : Vector T) : Vector T :=
  let b1 := (normalize sqrt b).1
  b1.mul (a.mul b1)

end Vector

/-! ### The scalar type `float`

`Vector<T>` has `T = float` by default (vector_math.h line 22).  The values of `float`
are those of IEEE 754 binary32, and `+`, `*`, `/` and `sqrt` give the exact result
rounded to the nearest value, ties to the even mantissa. -/

/-- The values of the C++ type `float` (IEEE 754 binary32): NaN, the two infinities,
and the finite values `± m * 2^e`.  A finite value is kept in the form of its
encoding: `2^23 ≤ m < 2^24` and `-149 ≤ e ≤ 104` for a normal number, `m < 2^23` and
`e = -149` for a subnormal number and for zero. -/
inductive F32 where
  | nan
  | inf (neg : Bool)
  | fin (neg : Bool) (m : Nat) (e : Int)
  deriving DecidableEq, Repr

namespace F32

/-- The number of halvings that bring `n` below 2, with `fuel` turns at most. -/
def log2Fuel : Nat → Nat → Nat
  | 0, _ => 0
  | f + 1, n => if n < 2 then 0 else log2Fuel f (n / 2) + 1

/-- The integer part of the binary logarithm of `n` (0 for `n = 0`). -/
def log2 (n : Nat) : Nat := log2Fuel n n

/-- Whether `N / D` is at least `2^d`. -/
def geTwoPow (N D : Nat) (d : Int) : Bool :=
  if 0 ≤ d then decide (D * 2 ^ d.toNat ≤ N) else decide (D ≤ N * 2 ^ (-d).toNat)

/-- The integer part of the binary logarithm of `N / D`, for `N` and `D` above 0. -/
def floorLog2 (N D : Nat) : Int :=
  let d : Int := (log2 N : Int) - (log2 D : Int)
  if geTwoPow N D d then d else d - 1

/-- The integer nearest to `N / D`, the even one of the two when `N / D` is half way
between them. -/
def nearest (N D : Nat) : Nat :=
  let q := N / D
  let r := N % D
  if 2 * r < D then q else if D < 2 * r then q + 1 else if q % 2 = 0 then q else q + 1

/-- The value `± mant * 2^t` for a rounded mantissa `mant ≤ 2^24`: the mantissa `2^24`
is that of the next exponent, and a value of `2^128` or more is an infinity. -/
def pack (neg : Bool) (mant : Nat) (t : Int) : F32 :=
  let m := if mant = 2 ^ 24 then 2 ^ 23 else mant
  let e := if mant = 2 ^ 24 then t + 1 else t
  if 104 < e then inf neg else fin neg m e

/-- The `float` nearest to `± (N / D) * 2^x` (round to nearest, ties to even): 24
bits of mantissa, and fewer below `2^-126`, where the exponent stays at `-149`. -/
def round (neg : Bool) (N D : Nat) (x : Int) : F32 :=
  if N = 0 then fin neg 0 (-149)
  else
    let t := max (floorLog2 N D + x) (-126) - 23
    let s := x - t
    let N1 := if 0 ≤ s then N * 2 ^ s.toNat else N
    let D1 := if 0 ≤ s then D else D * 2 ^ (-s).toNat
    pack neg (nearest N1 D1) t

/-- The bits of the integer square root of `m` from bit `k - 1` down to bit 0, added
to `acc`. -/
def isqrtAux (m : Nat) : Nat → Nat → Nat
  | 0, acc => acc
  | k + 1, acc =>
    let c := acc + 2 ^ k
    if c * c ≤ m then isqrtAux m k c else isqrtAux m k acc

/-- The integer part of the square root of `m`. -/
def isqrt (m : Nat) : Nat := isqrtAux m (log2 m / 2 + 1) 0

/-- The `float` nearest to the square root of `m * 2^e`, for `m` above 0.  The
square root of a `float` is never half way between two `float` values. -/
def sqrtFin (m : Nat) (e : Int) : F32 :=
  let m1 := if e % 2 = 0 then m else 2 * m
  let e1 := if e % 2 = 0 then e else e - 1
  let L := log2 m1 / 2
  let X := m1 * 2 ^ (2 * (23 - L))
  let n := isqrt X
  let mant := if n * n + n < X then n + 1 else n
  pack false mant (e1 / 2 + (L : Int) - 23)

/-- The operator `*` of `float`. -/
def mul : F32 → F32 → F32
  | nan, _ => nan
  | _, nan => nan
  | inf s, inf t => inf (s != t)
  | inf s, fin t n _ => if n = 0 then nan else inf (s != t)
  | fin s m _, inf t => if m = 0 then nan else inf (s != t)
  | fin s m e, fin t n f => round (s != t) (m * n) 1 (e + f)

/-- The operator `+` of `float`. -/
def add : F32 → F32 → F32
  | nan, _ => nan
  | _, nan => nan
  | inf s, inf t => if s = t then inf s else nan
  | inf s, fin _ _ _ => inf s
  | fin _ _ _, inf t => inf t
  | fin s m e, fin t n f =>
    let g := min e f
    let a := m * 2 ^ (e - g).toNat
    let b := n * 2 ^ (f - g).toNat
    if s = t then round s (a + b) 1 g
    else if a = b then fin false 0 (-149)
    else if b < a then round s (a - b) 1 g
    else round t (b - a) 1 g

/-- The operator `/` of `float`. -/
def div : F32 → F32 → F32
  | nan, _ => nan
  | _, nan => nan
  | inf _, inf _ => nan
  | inf s, fin t _ _ => inf (s != t)
  | fin s _ _, inf t => fin (s != t) 0 (-149)
  | fin s m e, fin t n f =>
    if n = 0 then (if m = 0 then nan else inf (s != t)) else round (s != t) m n (e - f)

/-- The function `sqrt` of `math.h` on a `float`. -/
def sqrt : F32 → F32
  | nan => nan
  | inf s => if s then nan else inf false
  | fin s m e => if m = 0 then fin s 0 (-149) else if s then nan else sqrtFin m e

/-- The operator `==` of `float`: NaN differs from every value, itself included, and
the two zeros are equal. -/
def beq : F32 → F32 → Bool
  | nan, _ => false
  | _, nan => false
  | inf s, inf t => s == t
  | fin s m e, fin t n f => decide (m = n) && ((s == t && decide (e = f)) || decide (m = 0))
  | _, _ => false

/-- The conversion of a non-negative integer to `float`. -/
def ofNat (n : Nat) : F32 := round false n 1 0

instance : Zero F32 := ⟨fin false 0 (-149)⟩

instance : Add F32 := ⟨add⟩

instance : Mul F32 := ⟨mul⟩

instance : Div F32 := ⟨div⟩

instance : BEq F32 := ⟨beq⟩

end F32

/-- Modelled from the spec: the Telemetry Buffer of fixed capacity `S` (the
`CircularBuffer` class template used by the IMU; its header is not among the
sources).  `items` holds the stored samples from the head (the latest `unshift`)
to the tail (the oldest sample). -/
structure CircularBuffer (T : Type) (S : Nat) where
  items : List T
  deriving DecidableEq, Repr

namespace CircularBuffer

variable {T : Type} {S : Nat}

/-- Modelled from the spec: `unshift(value)`, the push at the head, which "never
blocks and never fails (overwrites oldest when full)". -/
def unshift (b : CircularBuffer T S) (value : T) : CircularBuffer T S :=
  ⟨(value :: b.items).take S⟩

/-- Modelled from the spec: `pop()` "removes and returns the oldest unread sample or
signals empty": the returned value is `none` on an empty buffer, which is left
empty. -/
def pop (b : CircularBuffer T S) : Option T × CircularBuffer T S :=
  (b.items.getLast?, ⟨b.items.dropLast⟩)

/-- Modelled from the spec: `isEmpty()`. -/
def isEmpty (b : CircularBuffer T S) : Bool := b.items.isEmpty

/-- Number of stored samples (`size()`). -/
def size (b : CircularBuffer T S) : Nat := b.items.length

end CircularBuffer

/-- The values of `DeviceStatus` that `imu.cpp` names, and `DEVICE_OTHER raw` for
every further value the enumeration's storage can hold (the enumeration's
declaration, `utils/device_status.h`, is not among the sources). -/
inductive DeviceStatus where
  | DEVICE_NOT_STARTED
  | DEVICE_RUNNING
  | DEVICE_RESTARTATTEMPT
  | DEVICE_CALIBRATING
  | DEVICE_FAILURE
  | DEVICE_OTHER (raw : Nat)
  deriving DecidableEq, Repr

/-- The MPU9250 chip behind `IMU::imu`, seen from `imu.cpp`: a record of the calls
made to it.  `beginCalls` counts `imu.begin()`, `readSensorCalls` counts
`imu.readSensor()`, `calibrateMagCalls` counts `imu.calibrateMag()`, and
`configured` tells whether the configuration calls of lines 157-170 (ranges, data
ready interrupt, sample rate divider, filter bandwidth, magnetometer calibration,
`attachInterrupt`) have been made. -/
structure MPU9250 where
  beginCalls : Nat
  readSensorCalls : Nat
  calibrateMagCalls : Nat
  configured : Bool
  deriving DecidableEq, Repr

/-- What the external collaborators return during one call of `IMU::deviceThread`:
the clock value read by `imuInterval.isTimeToRun()`, the code returned by
`imu.begin()`, the nine readings the getters of `imu` return after
`imu.readSensor()`, the clock value `micros()` read in the body, and the clock value
read by `rateCalcInterval.isTimeToRun()`. -/
structure IMUTick (T : Type) where
  microsInterval : Nat
  startCode : Int
  getGyroX_rads : T
  getGyroY_rads : T
  getGyroZ_rads : T
  getAccelX_mss : T
  getAccelY_mss : T
  getAccelZ_mss : T
  getMagX_uT : T
  getMagY_uT : T
  getMagZ_uT : T
  micros : Nat
  microsRateCalc : Nat
  deriving DecidableEq, Repr

/-- The variables of `namespace IMU` (imu.cpp lines 10-37) over the scalar type `T`
of the readings. -/
structure IMU (T : Type) where
  gyroFifo : CircularBuffer (Vector T) 100
  accelFifo : CircularBuffer (Vector T) 100
  magFifo : CircularBuffer (Vector T) 100
  gyroTimestampFifo : CircularBuffer Nat 100
  accelTimestampFifo : CircularBuffer Nat 100
  magTimestampFifo : CircularBuffer Nat 100
  lastGyro : Vector T
  lastAccel : Vector T
  lastMag : Vector T
  imuInterval : IntervalControl
  rateCalcInterval : IntervalControl
  imu : MPU9250
  imuStatus : DeviceStatus
  startAttempts : Nat
  loopRate : Nat
  loopCounter : Nat
  gyroRate : Nat
  gyroCounter : Nat
  lastMeasurement : Nat
  newDataInterrupt : Bool
  deriving DecidableEq, Repr

namespace IMU

open DeviceStatus

variable {T : Type}

/-- `IMU::interruptRoutine` (imu.cpp lines 44-46). -/
def interruptRoutine (s : IMU T) : IMU T :=
  { s with newDataInterrupt := true }

/-- The `DEVICE_RUNNING` branch of `IMU::deviceThread` (imu.cpp lines 58-145). -/
def readData [BEq T] [Neg T] (e : IMUTick T) (s : IMU T) : IMU T :=
  if s.newDataInterrupt then
    let s0 := { s with
      newDataInterrupt := false
      imu := { s.imu with readSensorCalls := s.imu.readSensorCalls + 1 } }
    let timestamp := e.micros
    let bufVec : Vector T := ⟨-e.getGyroX_rads, -e.getGyroY_rads, e.getGyroZ_rads⟩
    let s1 :=
      if s0.lastGyro.ne bufVec then
        { s0 with
          gyroFifo := s0.gyroFifo.unshift bufVec
          gyroTimestampFifo := s0.gyroTimestampFifo.unshift timestamp
          lastGyro := bufVec
          gyroCounter := (s0.gyroCounter + 1) % UINT32 }
      else s0
    let bufVec : Vector T := ⟨e.getAccelX_mss, e.getAccelY_mss, -e.getAccelZ_mss⟩
    let s2 :=
      if s1.lastAccel.ne bufVec then
        { s1 with
          accelFifo := s1.accelFifo.unshift bufVec
          accelTimestampFifo := s1.accelTimestampFifo.unshift timestamp
          lastAccel := bufVec }
      else s1
    let bufVec : Vector T := ⟨-e.getMagX_uT, -e.getMagY_uT, e.getMagZ_uT⟩
    if s2.lastMag.ne bufVec then
      { s2 with
        magFifo := s2.magFifo.unshift bufVec
        magTimestampFifo := s2.magTimestampFifo.unshift timestamp
        lastMag := bufVec }
    else s2
  else s

/-- The `DEVICE_NOT_STARTED` / `DEVICE_RESTARTATTEMPT` branch of `IMU::deviceThread`
(imu.cpp lines 147-184).  `IMU_RATE_LIMIT` is the macro of that name. -/
def start (IMU_RATE_LIMIT : Nat) (e : IMUTick T) (s : IMU T) : IMU T :=
  let s0 := { s with imu := { s.imu with beginCalls := s.imu.beginCalls + 1 } }
  let startCode := e.startCode
  let s1 :=
    if 0 < startCode then
      { s0 with
        imuInterval := s0.imuInterval.setRate IMU_RATE_LIMIT
        imu := { s0.imu with configured := true }
        lastMeasurement := e.micros
        imuStatus := DEVICE_RUNNING }
    else
      { s0 with imuStatus := DEVICE_RESTARTATTEMPT }
  let s2 := { s1 with startAttempts := (s1.startAttempts + 1) % UINT8 }
  if 5 ≤ s2.startAttempts ∧ s2.imuStatus = DEVICE_RESTARTATTEMPT then
    { s2 with imuStatus := DEVICE_FAILURE }
  else s2

/-- `IMU::deviceThread` (imu.cpp lines 49-215). -/
def deviceThread [BEq T] [Neg T] (IMU_RATE_LIMIT : Nat) (e : IMUTick T) (s : IMU T) :
    IMU T :=
  let g := s.imuInterval.isTimeToRun e.microsInterval
  let s0 := { s with imuInterval := g.2 }
  if g.1 = false then s0
  else
    let s1 := { s0 with loopCounter := (s0.loopCounter + 1) % UINT32 }
    let s2 :=
      if s1.imuStatus = DEVICE_RUNNING then
        readData e s1
      else if s1.imuStatus = DEVICE_NOT_STARTED ∨ s1.imuStatus = DEVICE_RESTARTATTEMPT then
        start IMU_RATE_LIMIT e s1
      else if s1.imuStatus = DEVICE_CALIBRATING then
        { s1 with
          imu := { s1.imu with calibrateMagCalls := s1.imu.calibrateMagCalls + 1 }
          imuStatus := DEVICE_RUNNING }
      else
        { s1 with
          imuStatus := DEVICE_FAILURE
          imuInterval := s1.imuInterval.block true
          loopRate := 0 }
    let r := s2.rateCalcInterval.isTimeToRun e.microsRateCalc
    let s3 := { s2 with rateCalcInterval := r.2 }
    if r.1 then
      { s3 with
        loopRate := s3.loopCounter
        gyroRate := s3.gyroCounter
        gyroCounter := 0
        loopCounter := 0 }
    else s3

/-- The branch of `IMU::deviceThread` on the status (imu.cpp lines 56-204), applied
to the state in which `loopCounter` is already counted. -/
def body [BEq T] [Neg T] (IMU_RATE_LIMIT : Nat) (e : IMUTick T) (s1 : IMU T) : IMU T :=
  if s1.imuStatus = DEVICE_RUNNING then
    readData e s1
  else if s1.imuStatus = DEVICE_NOT_STARTED ∨ s1.imuStatus = DEVICE_RESTARTATTEMPT then
    start IMU_RATE_LIMIT e s1
  else if s1.imuStatus = DEVICE_CALIBRATING then
    { s1 with
      imu := { s1.imu with calibrateMagCalls := s1.imu.calibrateMagCalls + 1 }
      imuStatus := DEVICE_RUNNING }
  else
    { s1 with
      imuStatus := DEVICE_FAILURE
      imuInterval := s1.imuInterval.block true
      loopRate := 0 }

/-- The rate accounting at the end of `IMU::deviceThread` (imu.cpp lines 208-213);
`now` is the clock value read by `rateCalcInterval.isTimeToRun()`. -/
def rateCalc (now : Nat) (s2 : IMU T) : IMU T :=
  let r := s2.rateCalcInterval.isTimeToRun now
  let s3 := { s2 with rateCalcInterval := r.2 }
  if r.1 then
    { s3 with
      loopRate := s3.loopCounter
      gyroRate := s3.gyroCounter
      gyroCounter := 0
      loopCounter := 0 }
  else s3

/-- `IMU::getGyro` (imu.cpp lines 232-237): the returned flag, the values written
through `gyro` and `timestamp` (`none` where nothing defined is written), and the
new state. -/
def getGyro (s : IMU T) : Bool × Option (Vector T) × Option Nat × IMU T :=
  if s.gyroFifo.isEmpty then (false, none, none, s)
  else
    let g := s.gyroFifo.pop
    let t := s.gyroTimestampFifo.pop
    (true, g.1, t.1, { s with gyroFifo := g.2, gyroTimestampFifo := t.2 })

/-- `IMU::getAccel` (imu.cpp lines 240-245). -/
def getAccel (s : IMU T) : Bool × Option (Vector T) × Option Nat × IMU T :=
  if s.accelFifo.isEmpty then (false, none, none, s)
  else
    let a := s.accelFifo.pop
    let t := s.accelTimestampFifo.pop
    (true, a.1, t.1, { s with accelFifo := a.2, accelTimestampFifo := t.2 })

/-- `IMU::getMag` (imu.cpp lines 248-253). -/
def getMag (s : IMU T) : Bool × Option (Vector T) × Option Nat × IMU T :=
  if s.magFifo.isEmpty then (false, none, none, s)
  else
    let m := s.magFifo.pop
    let t := s.magTimestampFifo.pop
    (true, m.1, t.1, { s with magFifo := m.2, magTimestampFifo := t.2 })

/-- Whether `imuInterval.isTimeToRun()` lets the tick `e` run in state `s`. -/
def runs (e : IMUTick T) (s : IMU T) : Bool :=
  (s.imuInterval.isTimeToRun e.microsInterval).1

/-- The state after one call of `deviceThread` for each entry of `es`, in order. -/
def ticks [BEq T] [Neg T] (IMU_RATE_LIMIT : Nat) (es : List (IMUTick T)) (s : IMU T) :
    IMU T :=
  es.foldl (fun st e => deviceThread IMU_RATE_LIMIT e st) s

/-- Whether `imuInterval` lets every tick of `es` run, when they are made in order
from state `s`. -/
def everyTickRuns [BEq T] [Neg T] (IMU_RATE_LIMIT : Nat) :
    List (IMUTick T) → IMU T → Bool
  | [], _ => true
  | e :: es, s => runs e s && everyTickRuns IMU_RATE_LIMIT es (deviceThread IMU_RATE_LIMIT e s)

/-- The steps that change the variables of `namespace IMU`: a call of `deviceThread`
(with what the collaborators return during it), the data ready interrupt, and the
calls of `getGyro`, `getAccel` and `getMag`. -/
inductive Event (T : Type) where
  | tick (e : IMUTick T)
  | interrupt
  | getGyro
  | getAccel
  | getMag
  deriving DecidableEq, Repr

/-- The state after one step. -/
def step [BEq T] [Neg T] (IMU_RATE_LIMIT : Nat) (ev : Event T) (s : IMU T) : IMU T :=
  match ev with
  | .tick e => deviceThread IMU_RATE_LIMIT e s
  | .interrupt => interruptRoutine s
  | .getGyro => (getGyro s).2.2.2
  | .getAccel => (getAccel s).2.2.2
  | .getMag => (getMag s).2.2.2

/-- The state after the steps of `evs`, in order. -/
def run [BEq T] [Neg T] (IMU_RATE_LIMIT : Nat) (evs : List (Event T)) (s : IMU T) : IMU T :=
  evs.foldl (fun st ev => step IMU_RATE_LIMIT ev st) s

/-- The gyro reading that `deviceThread` builds during the tick `e` (line 65). -/
def gyroOf [Neg T] (e : IMUTick T) : Vector T :=
  ⟨-e.getGyroX_rads, -e.getGyroY_rads, e.getGyroZ_rads⟩

/-- The accelerometer reading that `deviceThread` builds during the tick `e`
(line 73). -/
def accelOf [Neg T] (e : IMUTick T) : Vector T :=
  ⟨e.getAccelX_mss, e.getAccelY_mss, -e.getAccelZ_mss⟩

/-- The magnetometer reading that `deviceThread` builds during the tick `e`
(line 80). -/
def magOf [Neg T] (e : IMUTick T) : Vector T :=
  ⟨-e.getMagX_uT, -e.getMagY_uT, e.getMagZ_uT⟩

/-- Whether the tick `e`, made in state `s`, stores a gyro reading: the tick runs
(line 50), the status is `DEVICE_RUNNING` (line 56), data is pending (line 58) and
the reading differs from `lastGyro` (line 66). -/
def storesGyro [BEq T] [Neg T] (e : IMUTick T) (s : IMU T) : Bool :=
  runs e s && decide (s.imuStatus = DEVICE_RUNNING) && s.newDataInterrupt
    && s.lastGyro.ne (gyroOf e)

/-- Whether the tick `e`, made in state `s`, stores an accelerometer reading (lines
50, 56, 58, 74). -/
def storesAccel [BEq T] [Neg T] (e : IMUTick T) (s : IMU T) : Bool :=
  runs e s && decide (s.imuStatus = DEVICE_RUNNING) && s.newDataInterrupt
    && s.lastAccel.ne (accelOf e)

/-- Whether the tick `e`, made in state `s`, stores a magnetometer reading (lines
50, 56, 58, 81). -/
def storesMag [BEq T] [Neg T] (e : IMUTick T) (s : IMU T) : Bool :=
  runs e s && decide (s.imuStatus = DEVICE_RUNNING) && s.newDataInterrupt
    && s.lastMag.ne (magOf e)

/-- The readings of one channel that the steps `evs`, made in order from state `s`,
store, from the first to the last; `cond` tells whether a tick stores a reading of
the channel and `reading` is the reading the tick builds. -/
def stored [BEq T] [Neg T] (IMU_RATE_LIMIT : Nat) (cond : IMUTick T → IMU T → Bool)
    (reading : IMUTick T → Vector T) : List (Event T) → IMU T → List (Vector T)
  | [], _ => []
  | .tick e :: evs, s =>
    (if cond e s then [reading e] else [])
      ++ stored IMU_RATE_LIMIT cond reading evs (deviceThread IMU_RATE_LIMIT e s)
  | ev :: evs, s => stored IMU_RATE_LIMIT cond reading evs (step IMU_RATE_LIMIT ev s)

/-- The three channels are in lockstep: in each channel the value buffer and the
timestamp buffer have the same length, and the value and the timestamp at the same
position are related by `Pg`, `Pa`, `Pm` respectively. -/
def Lockstep (Pg Pa Pm : Vector T → Nat → Prop) (s : IMU T) : Prop :=
  List.Forall₂ Pg s.gyroFifo.items s.gyroTimestampFifo.items
    ∧ List.Forall₂ Pa s.accelFifo.items s.accelTimestampFifo.items
    ∧ List.Forall₂ Pm s.magFifo.items s.magTimestampFifo.items

/-- The variables of `namespace IMU` as their initialisers leave them (imu.cpp lines
10-37), with `ic` and `rc` for the two interval controls. -/
def fresh (T : Type) [Zero T] (ic rc : IntervalControl) : IMU T :=
  { gyroFifo := ⟨[]⟩
    accelFifo := ⟨[]⟩
    magFifo := ⟨[]⟩
    gyroTimestampFifo := ⟨[]⟩
    accelTimestampFifo := ⟨[]⟩
    magTimestampFifo := ⟨[]⟩
    lastGyro := ⟨0, 0, 0⟩
    lastAccel := ⟨0, 0, 0⟩
    lastMag := ⟨0, 0, 0⟩
    imuInterval := ic
    rateCalcInterval := rc
    imu := ⟨0, 0, 0, false⟩
    imuStatus := DEVICE_NOT_STARTED
    startAttempts := 0
    loopRate := 0
    loopCounter := 0
    gyroRate := 0
    gyroCounter := 0
    lastMeasurement := 0
    newDataInterrupt := false }

end IMU

/-! ### The chain buffer (`chain_buffer.h`)

Nodes live in a free store. A pointer is `none` (`nullptr`) or `some a`, the address
`a` of a cell of the store; `new` takes a cell that was never used before, `delete`
marks the cell as deleted.  Dereferencing `nullptr`, a deleted cell or a cell that was
never allocated, and deleting a deleted cell, is undefined behaviour: the operation
stops with a `Fault`.  Comparing and copying pointers never faults. -/

/-- The ways an operation on the free store goes wrong. `diverges` stands for a loop
that never ends. -/
inductive Fault where
  | nullDeref
  | useAfterFree
  | wildPointer
  | doubleFree
  | diverges
  deriving DecidableEq, Repr

deriving instance DecidableEq for Except

/-- `ChainObject<T>` (chain_buffer.h lines 21-29). -/
structure ChainObject (T : Type) where
  item : T
  nextObject : Option Nat := none
  lastObject : Option Nat := none
  deriving DecidableEq, Repr

/-- The free store: the cell at address `a` is `cells[a]`, which is `some node` while
the node is alive and `none` once it is deleted. -/
structure Heap (T : Type) where
  cells : List (Option (ChainObject T))
  deriving DecidableEq, Repr

namespace Heap

variable {T : Type}

/-- The store in which nothing was allocated yet. -/
def empty : Heap T := ⟨[]⟩

/-- `new ChainObject<T>` followed by the initialisation of the node: the store with
one more cell, and the address of that cell. -/
def alloc (h : Heap T) (o : ChainObject T) : Heap T × Nat :=
  (⟨h.cells ++ [some o]⟩, h.cells.length)

/-- The node a pointer points to (`*p`, `p->...` as an rvalue). -/
def read (h : Heap T) (p : Option Nat) : Except Fault (ChainObject T) :=
  match p with
  | none => .error .nullDeref
  | some a =>
    match h.cells[a]? with
    | none => .error .wildPointer
    | some none => .error .useAfterFree
    | some (some o) => .ok o

/-- The store after an assignment through a pointer (`p->... = ...`): the node at
`p` becomes `o`. -/
def write (h : Heap T) (p : Option Nat) (o : ChainObject T) : Except Fault (Heap T) :=
  match p with
  | none => .error .nullDeref
  | some a =>
    match h.cells[a]? with
    | none => .error .wildPointer
    | some none => .error .useAfterFree
    | some (some _) => .ok ⟨h.cells.set a (some o)⟩

/-- The store after `delete p`. -/
def delete (h : Heap T) (p : Option Nat) : Except Fault (Heap T) :=
  match p with
  | none => .ok h
  | some a =>
    match h.cells[a]? with
    | none => .error .wildPointer
    | some none => .error .doubleFree
    | some (some _) => .ok ⟨h.cells.set a none⟩

/-- Whether the cell at address `a` holds a node that is alive. -/
def live (h : Heap T) (a : Nat) : Bool :=
  match h.cells[a]? with
  | some (some _) => true
  | _ => false

end Heap

/-- The data members of `ChainBuffer<T>` (chain_buffer.h lines 292-295). -/
structure ChainBuffer where
  _chainStart : Option Nat := none
  _chainEnd : Option Nat := none
  _numObjects : Nat := 0
  deriving DecidableEq, Repr

namespace ChainBuffer

variable {T : Type}

/-- `ChainBuffer::addItem` (chain_buffer.h lines 54-69): the new store, the new list
object and the returned pointer. -/
def addItem (item : T) (h : Heap T) (b : ChainBuffer) :
    Except Fault (Heap T × ChainBuffer × Option Nat) := do
  let (h1, a) := h.alloc { item := item }
  let newObject : Option Nat := some a
  if b._chainStart ≠ none then
    let e ← h1.read b._chainEnd
    let h2 ← h1.write b._chainEnd { e with nextObject := newObject }
    let n ← h2.read newObject
    let h3 ← h2.write newObject { n with lastObject := b._chainEnd }
    pure (h3, { b with _chainEnd := newObject, _numObjects := (b._numObjects + 1) % UINT32 },
      newObject)
  else
    pure (h1, { b with _chainStart := newObject, _chainEnd := newObject,
                       _numObjects := (b._numObjects + 1) % UINT32 }, newObject)

/-- `ChainBuffer::_removeObject` (chain_buffer.h lines 245-262). -/
def _removeObject (object : Option Nat) (h : Heap T) (b : ChainBuffer) :
    Except Fault (Heap T × ChainBuffer × Bool) := do
  if object = none then
    pure (h, b, false)
  else
    let (h1, b1) ← (
      if object = b._chainStart then do
        let o ← h.read object
        let b1 := { b with _chainStart := o.nextObject }
        if b1._chainStart ≠ none then
          let s ← h.read b1._chainStart
          let h1 ← h.write b1._chainStart { s with lastObject := none }
          pure (h1, b1)
        else
          pure (h, b1)
      else if object = b._chainEnd then do
        let o ← h.read object
        let b1 := { b with _chainEnd := o.lastObject }
        if b1._chainEnd ≠ none then
          let e ← h.read b1._chainEnd
          let h1 ← h.write b1._chainEnd { e with nextObject := none }
          pure (h1, b1)
        else
          pure (h, b1)
      else do
        let o ← h.read object
        let n ← h.read o.nextObject
        let h1 ← h.write o.nextObject { n with lastObject := o.lastObject }
        let o' ← h1.read object
        let l ← h1.read o'.lastObject
        let h2 ← h1.write o'.lastObject { l with nextObject := o'.nextObject }
        pure (h2, b)
      : Except Fault (Heap T × ChainBuffer))
    let h2 ← h1.delete object
    pure (h2, { b1 with _numObjects := (b1._numObjects + UINT32 - 1) % UINT32 }, true)

/-- The loop of `ChainBuffer::_searchForItem` (chain_buffer.h lines 269-272), from
the pointer `pointer` and the index `index`; `fuel` bounds the number of nodes it
visits. -/
def _searchForItemLoop [BEq T] (item : T) (h : Heap T) :
    Nat → Option Nat → Nat → Except Fault (Option Nat × Nat)
  | _, none, index => .ok (none, index)
  | 0, some _, _ => .error .diverges
  | fuel + 1, some a, index => do
    let o ← h.read (some a)
    if o.item == item then
      pure (some a, index)
    else
      _searchForItemLoop item h fuel o.nextObject ((index + 1) % UINT32)

/-- `ChainBuffer::_searchForItem(const T&, uint32_t&)` (chain_buffer.h lines
264-276): the returned pointer and the value left in `index`.  The loop reads nodes
only, so it visits more nodes than the store has cells only when it runs in a cycle,
and then it never ends. -/
def _searchForItem [BEq T] (item : T) (h : Heap T) (b : ChainBuffer) :
    Except Fault (Option Nat × Nat) :=
  _searchForItemLoop item h h.cells.length b._chainStart 0

/-- `ChainBuffer::removeItem(const T&)` (chain_buffer.h lines 82-85). -/
def removeItem [BEq T] (item : T) (h : Heap T) (b : ChainBuffer) :
    Except Fault (Heap T × ChainBuffer × Bool) := do
  let (object, _) ← _searchForItem item h b
  _removeObject object h b

/-- `ChainBuffer::removeItemEnd` (chain_buffer.h lines 105-112). -/
def removeItemEnd (h : Heap T) (b : ChainBuffer) : Except Fault (Heap T × ChainBuffer) := do
  let object := b._chainEnd
  if object = none then
    pure (h, b)
  else
    let o ← h.read object
    let b1 := { b with _chainEnd := o.lastObject }
    let h1 ← (
      if b1._chainEnd ≠ none then do
        let e ← h.read b1._chainEnd
        h.write b1._chainEnd { e with nextObject := none }
      else pure h : Except Fault (Heap T))
    let h2 ← h1.delete object
    pure (h2, { b1 with _numObjects := (b1._numObjects + UINT32 - 1) % UINT32 })

/-- `ChainBuffer::removeItemStart` (chain_buffer.h lines 120-127). -/
def removeItemStart (h : Heap T) (b : ChainBuffer) : Except Fault (Heap T × ChainBuffer) := do
  let object := b._chainStart
  if object = none then
    pure (h, b)
  else
    let o ← h.read object
    let b1 := { b with _chainStart := o.nextObject }
    let h1 ← (
      if b1._chainStart ≠ none then do
        let s ← h.read b1._chainStart
        h.write b1._chainStart { s with lastObject := none }
      else pure h : Except Fault (Heap T))
    let h2 ← h1.delete object
    pure (h2, { b1 with _numObjects := (b1._numObjects + UINT32 - 1) % UINT32 })

/-- The loop of `ChainBuffer::clear` (chain_buffer.h lines 137-141) from the pointer
`pointer`; `fuel` bounds the number of nodes it deletes. -/
def clearLoop (h : Heap T) : Nat → Option Nat → Except Fault (Heap T)
  | _, none => .ok h
  | 0, some _ => .error .diverges
  | fuel + 1, some a => do
    let o ← h.read (some a)
    let buf := o.nextObject
    let h1 ← h.delete (some a)
    clearLoop h1 fuel buf

/-- `ChainBuffer::clear` (chain_buffer.h lines 135-143).  Every turn of the loop
deletes a node that is alive, so the loop makes at most as many turns as the store
has cells. -/
def clear (h : Heap T) (b : ChainBuffer) : Except Fault (Heap T × ChainBuffer) := do
  let h1 ← clearLoop h (h.cells.length + 1) b._chainStart
  pure (h1, { b with _numObjects := 0 })

/-- The loop of `ChainBuffer::operator[]` (chain_buffer.h lines 158-160) from the
pointer `pointer`, with `n` turns left before `i` reaches `place`. -/
def indexLoop (h : Heap T) : Nat → Option Nat → Except Fault (Option Nat)
  | _, none => .ok none
  | 0, some a => .ok (some a)
  | n + 1, some a => do
    let o ← h.read (some a)
    indexLoop h n o.nextObject

/-- `ChainBuffer::operator[]` (chain_buffer.h lines 154-164): `none` for the null
pointer, `some a` for the pointer to the item of the node at address `a`. -/
def index (place : Nat) (h : Heap T) (b : ChainBuffer) : Except Fault (Option Nat) :=
  indexLoop h place b._chainStart

/-- `ChainBuffer::length` (chain_buffer.h lines 190-192). -/
def length (b : ChainBuffer) : Nat := b._numObjects

/-- The conversion of a `uint32_t` value to `int32_t`, as in the `return index;` of
`searchForItem`, whose return type is `int32_t`. -/
def toInt32 (n : Nat) : Int :=
  if n % UINT32 < 2 ^ 31 then (n % UINT32 : Nat) else (n % UINT32 : Nat) - (UINT32 : Int)

/-- `ChainBuffer::searchForItem` (chain_buffer.h lines 202-212): the returned index
and the value left in `success`. -/
def searchForItem [BEq T] (item : T) (h : Heap T) (b : ChainBuffer) :
    Except Fault (Int × Bool) := do
  let (pointer, index) ← _searchForItem item h b
  if pointer = none then
    pure (0, false)
  else
    pure (toInt32 index, true)

end ChainBuffer

/-- The public operations of `ChainBuffer<T>` that change the list. -/
inductive ChainOp (T : Type) where
  | addItem (item : T)
  | removeItem (item : T)
  | removeItemEnd
  | removeItemStart
  | clear
  deriving DecidableEq, Repr

namespace ChainBuffer

variable {T : Type}

/-- The store and the list object after one public operation. -/
def apply [BEq T] (op : ChainOp T) (h : Heap T) (b : ChainBuffer) :
    Except Fault (Heap T × ChainBuffer) :=
  match op with
  | .addItem item => do
    let (h1, b1, _) ← addItem item h b
    pure (h1, b1)
  | .removeItem item => do
    let (h1, b1, _) ← removeItem item h b
    pure (h1, b1)
  | .removeItemEnd => removeItemEnd h b
  | .removeItemStart => removeItemStart h b
  | .clear => clear h b

/-- The store and the list object after the operations `ops`, in order, on a list
freshly constructed in an empty store. -/
def build [BEq T] (ops : List (ChainOp T)) : Except Fault (Heap T × ChainBuffer) :=
  ops.foldlM (fun st op => apply op st.1 st.2) (Heap.empty, {})

/-- The store and the list object after the operations `ops`, in order, on a list
freshly constructed in the store `h0`, which may hold the nodes of other lists. -/
def buildIn [BEq T] (h0 : Heap T) (ops : List (ChainOp T)) :
    Except Fault (Heap T × ChainBuffer) :=
  ops.foldlM (fun st op => apply op st.1 st.2) (h0, {})

/-- One turn of the loop of `ChainBuffer::operator =` (chain_buffer.h line 177):
`addItem(*original[i])`. -/
def assignStep (original : ChainBuffer) (st : Heap T × ChainBuffer) (i : Nat) :
    Except Fault (Heap T × ChainBuffer) := do
  let p ← index i st.1 original
  let o ← st.1.read p
  let (h1, b1, _) ← addItem o.item st.1 st.2
  pure (h1, b1)

/-- `ChainBuffer::operator =` (chain_buffer.h lines 172-182) for a list `original`
that is another object than `this`: the store and `this` after the assignment.
`original` is only read, so `original.length()` is the same in every turn and the
loop runs for `i = 0, ..., original.length() - 1`. -/
def assign (h : Heap T) (this original : ChainBuffer) :
    Except Fault (Heap T × ChainBuffer) := do
  let st ← clear h this
  (List.range original.length).foldlM (assignStep original) st

/-- The loop of `ChainBuffer::operator =` (chain_buffer.h lines 176-178) when
`original` is the list itself (`L = L`): the bound `original.length()` is the current
`_numObjects` of the list, read again before every turn.  `fuel` bounds the number of
turns. -/
def assignSelfLoop : Nat → Nat → Heap T × ChainBuffer → Except Fault (Heap T × ChainBuffer)
  | 0, i, st => if i < st.2.length then .error .diverges else .ok st
  | fuel + 1, i, st =>
    if i < st.2.length then do
      let st1 ← assignStep st.2 st i
      assignSelfLoop fuel ((i + 1) % UINT32) st1
    else .ok st

/-- `ChainBuffer::operator =` (chain_buffer.h lines 172-182) for `original` being the
list itself (`L = L`).  Every turn of the loop adds 1 to `i` and to `_numObjects`
(both modulo `2^32`), so the loop makes at most `2^32` turns. -/
def assignSelf (h : Heap T) (this : ChainBuffer) : Except Fault (Heap T × ChainBuffer) := do
  let st ← clear h this
  assignSelfLoop UINT32 0 st

/-- The nodes `nodes` (address and item of each node, from the first to the last) are
alive in the store and linked to each other in this order; `prev` is what the
`lastObject` of the first node holds. -/
def IsChain (h : Heap T) : Option Nat → List (Nat × T) → Prop
  | _, [] => True
  | prev, (a, x) :: rest =>
    h.cells[a]? = some (some ⟨x, rest.head?.map Prod.fst, prev⟩) ∧ IsChain h (some a) rest

/-- The list object `b` is well formed in the store `h` and holds the nodes `nodes`:
the head has no predecessor, the tail has no successor, the nodes are alive and
linked from `_chainStart` to `_chainEnd`, no node occurs twice, and `_numObjects` is
their number (as a `uint32_t`). -/
def WellFormed (h : Heap T) (b : ChainBuffer) (nodes : List (Nat × T)) : Prop :=
  IsChain h none nodes
    ∧ b._chainStart = nodes.head?.map Prod.fst
    ∧ b._chainEnd = nodes.getLast?.map Prod.fst
    ∧ b._numObjects = nodes.length % UINT32
    ∧ (nodes.map Prod.fst).Nodup

/-- The address of the last node of `nodes`, or `prev` when there is no node. -/
def lastAddr : Option Nat → List (Nat × T) → Option Nat
  | prev, [] => prev
  | _, (a, _) :: rest => lastAddr (some a) rest

/-- The list object `b` holds the nodes `nodes` in the store `h`, as far as the
operations that walk from `_chainStart` can tell: the nodes are alive and linked in
this order from `_chainStart`, no node occurs twice, `_numObjects` is their number
(as a `uint32_t`), and `_chainEnd` points to the last node when there is one.  It is
`WellFormed` without the condition on `_chainEnd` of a list that holds nothing. -/
def Holds (h : Heap T) (b : ChainBuffer) (nodes : List (Nat × T)) : Prop :=
  IsChain h none nodes
    ∧ b._chainStart = nodes.head?.map Prod.fst
    ∧ (nodes ≠ [] → b._chainEnd = nodes.getLast?.map Prod.fst)
    ∧ b._numObjects = nodes.length % UINT32
    ∧ (nodes.map Prod.fst).Nodup

end ChainBuffer

/-! ### Guidance (`guidance.h`) and the flight mode (`flight_modes.h`) -/

/-- `enum FLIGHT_MODE` (flight_modes.h lines 10-25). -/
inductive FLIGHT_MODE where
  | DISARMED
  | ARMED
  | FAILSAFE
  | RATE_CONTROL
  | ATTITUDE_CONTROL
  | VELOCITY_CONTROL
  | POSITION_CONTROL
  deriving DecidableEq, Repr

/-- The data members of `Guidance` (guidance.h lines 110-114). `K` is `KineticData`;
`_flightMode` is a pointer: `none` for the null pointer, `some a` for the address `a`
of a `FLIGHT_MODE` object. -/
structure Guidance (K : Type) where
  _path : List K
  _kineticSetpoint : K
  _flightMode : Option Nat
  deriving DecidableEq, Repr

namespace Guidance

variable {K : Type}

/-- Modelled from the spec: `Guidance::guidanceInit(FLIGHT_MODE* flightModePointer)`,
declared on line 106 and defined in a file that is not among the sources; guidance
"only observes/sets [the mode] through the supplied reference", so the call keeps the
supplied pointer in `_flightMode`. -/
def guidanceInit (flightModePointer : Option Nat) (g : Guidance K) : Guidance K :=
  { g with _flightMode := flightModePointer }

/-- `Guidance::setFlightMode` (guidance.h line 91): `*_flightMode = flightMode`.
`mem` gives the `FLIGHT_MODE` object at every address; the result is the `Guidance`
object and the memory after the call. -/
def setFlightMode (flightMode : FLIGHT_MODE) (g : Guidance K) (mem : Nat → FLIGHT_MODE) :
    Except Fault (Guidance K × (Nat → FLIGHT_MODE)) :=
  match g._flightMode with
  | none => .error .nullDeref
  | some a => .ok (g, Function.update mem a flightMode)

/-- `Guidance::getFlightMode` (guidance.h line 100): `return *_flightMode`. -/
def getFlightMode (g : Guidance K) (mem : Nat → FLIGHT_MODE) : Except Fault FLIGHT_MODE :=
  match g._flightMode with
  | none => .error .nullDeref
  | some a => .ok (mem a)

end Guidance

/-! ### Sample inputs -/

/-- A fresh ADC driver over integer voltages with buffers of capacity 10 and a rate
calculation interval of one second. -/
def ADS1115Driver.sample : ADS1115Driver Int 10 :=
  ADS1115Driver.fresh Int 10 ⟨1000000, 0, false⟩

/-- A tick during which `adc_.begin()` returns 0 and the bus is free. -/
def ADCTick.failing : ADCTick := ⟨0, false, 0, 0, 0⟩

/-- A tick during which `adc_.begin()` returns 1, the bus is free, the chip holds the
raw value `raw` and the clock reads `now`. -/
def ADCTick.good (raw : Int) (now : Nat) : ADCTick := ⟨1, false, raw, now, now⟩

/-- A tick during which the bus is busy and the clock reads `now`. -/
def ADCTick.busy (now : Nat) : ADCTick := ⟨1, true, 0, now, now⟩

/-- The fresh ADC driver after a successful start and two acquisitions: status
`Running`, `adcCounter_ = 2`. -/
def ADS1115Driver.sampleRunning : ADS1115Driver Int 10 :=
  ADS1115Driver.ticks (fun v => v) [ADCTick.good 0 10, ADCTick.good 5 20, ADCTick.good 6 30]
    ADS1115Driver.sample

/-- The fresh ADC driver after five failed starts: status `Failure`, not blocked. -/
def ADS1115Driver.sampleFailed : ADS1115Driver Int 10 :=
  ADS1115Driver.ticks (fun v => v) (List.replicate 5 ADCTick.failing) ADS1115Driver.sample

/-- The variables of `namespace IMU` after their initialisation, over integer
readings, with an `imuInterval` that lets every tick run. -/
def IMU.sample : IMU Int :=
  IMU.fresh Int ⟨0, 0, false⟩ ⟨1000000, 0, false⟩

/-- A tick during which `imu.begin()` returns 0. -/
def IMUTick.failing : IMUTick Int := ⟨0, 0, 0, 0, 0, 0, 0, 0, 0, 0, 0, 0, 0⟩

/-- A tick during which `imu.begin()` returns 1, every axis of every sensor reads
`v` and the clock reads `now`. -/
def IMUTick.good (v : Int) (now : Nat) : IMUTick Int :=
  ⟨now, 1, v, v, v, v, v, v, v, v, v, now, now⟩

/-- A run of the IMU: a successful start, two interrupts each followed by a tick that
reads new data, and one call of `getGyro`. -/
def IMU.sampleRun : List (IMU.Event Int) :=
  [.tick (IMUTick.good 1 10), .interrupt, .tick (IMUTick.good 2 2000), .interrupt,
    .tick (IMUTick.good 3 4000), .getGyro]

/-- The fresh IMU after five failed starts: status `DEVICE_FAILURE`, `imuInterval`
not blocked. -/
def IMU.sampleFailed : IMU Int :=
  IMU.ticks 1000 (List.replicate 5 IMUTick.failing) IMU.sample

/-- The store after `addItem(4)`, `addItem(5)`, `addItem(5)` on a fresh list in an
empty store. -/
def ChainBuffer.sampleHeap : Heap Nat :=
  ⟨[some ⟨4, some 1, none⟩, some ⟨5, some 2, some 0⟩, some ⟨5, none, some 1⟩]⟩

/-- The list object after `addItem(4)`, `addItem(5)`, `addItem(5)` on a fresh list in
an empty store. -/
def ChainBuffer.sampleList : ChainBuffer := ⟨some 0, some 2, 3⟩

/-- The fresh IMU after a successful start and a data ready interrupt: status
`DEVICE_RUNNING`, data pending, no sample stored yet. -/
def IMU.samplePending : IMU Int :=
  IMU.run 1000 [.tick (IMUTick.good 1 10), .interrupt] IMU.sample

/-! ## Theorems -/

namespace ADS1115Driver

open eModuleStatus_t

variable {V : Type} {N : Nat}

/-- A blocked driver ignores the tick. -/
theorem thread_of_blocked (toVoltage : Int → V) (e : ADCTick) (s : ADS1115Driver V N)
    (hb : s.block_ = true) : thread toVoltage e s = s := by
  simp [thread, hb]

/-- The effect of one unblocked tick in status `NotStarted` or `RestartAttempt` on
the lifecycle fields. -/
theorem thread_start_step (toVoltage : Int → V) (e : ADCTick) (s : ADS1115Driver V N)
    (hb : s.block_ = false)
    (hst : s.moduleStatus_ = eModuleStatus_NotStarted
      ∨ s.moduleStatus_ = eModuleStatus_RestartAttempt) :
    (thread toVoltage e s).moduleStatus_ =
        (if 0 < e.startCode then eModuleStatus_Running
         else if 5 ≤ (s.startAttempts_ + 1) % UINT8 then eModuleStatus_Failure
         else eModuleStatus_RestartAttempt)
      ∧ (thread toVoltage e s).startAttempts_ = (s.startAttempts_ + 1) % UINT8
      ∧ (thread toVoltage e s).block_ = false
      ∧ (thread toVoltage e s).adc_.beginCalls = s.adc_.beginCalls + 1
      ∧ (thread toVoltage e s).voltageFifo_ = s.voltageFifo_
      ∧ (thread toVoltage e s).voltageTimestampFifo_ = s.voltageTimestampFifo_
      ∧ (thread toVoltage e s).currentPin_ = s.currentPin_ := by
  have hnr : s.moduleStatus_ ≠ eModuleStatus_Running := by
    rcases hst with h | h <;> simp [h]
  by_cases hc : 0 < e.startCode
  · by_cases hr : (s._rateCalcInterval.isTimeToRun e.microsRateCalc).1 = true <;>
      simp [thread, init, hb, hst, hnr, hc, hr]
  · by_cases h5 : 5 ≤ (s.startAttempts_ + 1) % UINT8 <;>
      by_cases hr : (s._rateCalcInterval.isTimeToRun e.microsRateCalc).1 = true <;>
      simp [thread, init, hb, hst, hnr, hc, h5, hr]

/-- The effect of one unblocked tick in a status other than `Running`, `NotStarted`
and `RestartAttempt`: the `else` branch of `thread`. -/
theorem thread_failure_step (toVoltage : Int → V) (e : ADCTick) (s : ADS1115Driver V N)
    (hb : s.block_ = false)
    (h1 : s.moduleStatus_ ≠ eModuleStatus_Running)
    (h2 : s.moduleStatus_ ≠ eModuleStatus_NotStarted)
    (h3 : s.moduleStatus_ ≠ eModuleStatus_RestartAttempt) :
    (thread toVoltage e s).moduleStatus_ = eModuleStatus_Failure
      ∧ (thread toVoltage e s).block_ = true
      ∧ (thread toVoltage e s).startAttempts_ = s.startAttempts_
      ∧ (thread toVoltage e s).adc_ = s.adc_
      ∧ (thread toVoltage e s).voltageFifo_ = s.voltageFifo_
      ∧ (thread toVoltage e s).voltageTimestampFifo_ = s.voltageTimestampFifo_
      ∧ (thread toVoltage e s).currentPin_ = s.currentPin_
      ∧ (thread toVoltage e s).lastMeasurement_ = s.lastMeasurement_
      ∧ (thread toVoltage e s).adcCounter_ =
          (if (s._rateCalcInterval.isTimeToRun e.microsRateCalc).1 = true then 0
           else s.adcCounter_) := by
  by_cases hr : (s._rateCalcInterval.isTimeToRun e.microsRateCalc).1 = true <;>
    simp [thread, hb, h1, h2, h3, hr]

/-- The effect of one tick in status `Running` during which the bus is busy. -/
theorem thread_busy_step (toVoltage : Int → V) (e : ADCTick) (s : ADS1115Driver V N)
    (hst : s.moduleStatus_ = eModuleStatus_Running) (hbusy : e.isBusy = true) :
    (thread toVoltage e s).moduleStatus_ = s.moduleStatus_
      ∧ (thread toVoltage e s).startAttempts_ = s.startAttempts_
      ∧ (thread toVoltage e s).currentPin_ = s.currentPin_
      ∧ (thread toVoltage e s).voltageFifo_ = s.voltageFifo_
      ∧ (thread toVoltage e s).voltageTimestampFifo_ = s.voltageTimestampFifo_
      ∧ (thread toVoltage e s).adc_ = s.adc_
      ∧ (thread toVoltage e s).adcCounter_ =
          (if s.block_ = false ∧ (s._rateCalcInterval.isTimeToRun e.microsRateCalc).1 = true
           then 0 else s.adcCounter_) := by
  by_cases hb : s.block_ = true
  · simp [thread, hb]
  · by_cases hr : (s._rateCalcInterval.isTimeToRun e.microsRateCalc).1 = true <;>
      simp [thread, _getData, hb, hst, hbusy, hr]

/-- One tick in status `Failure`, blocked or not. -/
theorem thread_in_failure (toVoltage : Int → V) (e : ADCTick) (s : ADS1115Driver V N)
    (hst : s.moduleStatus_ = eModuleStatus_Failure) :
    (thread toVoltage e s).moduleStatus_ = eModuleStatus_Failure
      ∧ (thread toVoltage e s).startAttempts_ = s.startAttempts_
      ∧ (thread toVoltage e s).adc_ = s.adc_
      ∧ (thread toVoltage e s).voltageFifo_ = s.voltageFifo_
      ∧ (thread toVoltage e s).voltageTimestampFifo_ = s.voltageTimestampFifo_ := by
  by_cases hb : s.block_ = true
  · rw [thread_of_blocked toVoltage e s hb]
    exact ⟨hst, rfl, rfl, rfl, rfl⟩
  · obtain ⟨a, _, b, c, d, f, _⟩ := thread_failure_step toVoltage e s (by simpa using hb)
      (by rw [hst]; decide) (by rw [hst]; decide) (by rw [hst]; decide)
    exact ⟨a, b, c, d, f⟩

/-- Any number of ticks in status `Failure`. -/
theorem ticks_in_failure (toVoltage : Int → V) (es : List ADCTick) :
    ∀ s : ADS1115Driver V N, s.moduleStatus_ = eModuleStatus_Failure →
      (ticks toVoltage es s).moduleStatus_ = eModuleStatus_Failure
        ∧ (ticks toVoltage es s).startAttempts_ = s.startAttempts_
        ∧ (ticks toVoltage es s).adc_ = s.adc_
        ∧ (ticks toVoltage es s).voltageFifo_ = s.voltageFifo_
        ∧ (ticks toVoltage es s).voltageTimestampFifo_ = s.voltageTimestampFifo_ := by
  induction es with
  | nil => intro s hst; exact ⟨hst, rfl, rfl, rfl, rfl⟩
  | cons e es ih =>
    intro s hst
    obtain ⟨a, b, c, d, f⟩ := thread_in_failure toVoltage e s hst
    obtain ⟨a2, b2, c2, d2, f2⟩ := ih (thread toVoltage e s) a
    have hfold : ticks toVoltage (e :: es) s = ticks toVoltage es (thread toVoltage e s) := rfl
    rw [hfold]
    exact ⟨a2, b2.trans b, c2.trans c, d2.trans d, f2.trans f⟩

/-- Running the ticks of `es ++ [e]` is running those of `es` and then `e`. -/
theorem ticks_append_singleton (toVoltage : Int → V) (es : List ADCTick) (e : ADCTick)
    (s : ADS1115Driver V N) :
    ticks toVoltage (es ++ [e]) s = thread toVoltage e (ticks toVoltage es s) := by
  simp [ticks, List.foldl_append]

/-- While fewer than five attempts have been made, ticks whose start code is not
positive keep the driver unblocked and retrying, and count one attempt each. -/
theorem ticks_failing (toVoltage : Int → V) (es : List ADCTick) :
    ∀ s : ADS1115Driver V N, s.block_ = false →
      (s.moduleStatus_ = eModuleStatus_NotStarted
        ∨ s.moduleStatus_ = eModuleStatus_RestartAttempt) →
      (∀ e ∈ es, e.startCode ≤ 0) → s.startAttempts_ + es.length < 5 →
      (ticks toVoltage es s).block_ = false
        ∧ (ticks toVoltage es s).startAttempts_ = s.startAttempts_ + es.length
        ∧ ((ticks toVoltage es s).moduleStatus_ = eModuleStatus_NotStarted
          ∨ (ticks toVoltage es s).moduleStatus_ = eModuleStatus_RestartAttempt)
        ∧ (es ≠ [] → (ticks toVoltage es s).moduleStatus_ = eModuleStatus_RestartAttempt)
        ∧ (ticks toVoltage es s).adc_.beginCalls = s.adc_.beginCalls + es.length := by
  induction es with
  | nil => intro s hb hst _ _; simp [ticks, hb, hst]
  | cons e es ih =>
    intro s hb hst hfail hlen
    simp only [List.length_cons] at hlen
    obtain ⟨hs, ha, hb1, hc, _⟩ := thread_start_step toVoltage e s hb hst
    have he : ¬ 0 < e.startCode := not_lt.mpr (hfail e (List.mem_cons_self _ _))
    have hmod : (s.startAttempts_ + 1) % UINT8 = s.startAttempts_ + 1 :=
      Nat.mod_eq_of_lt (by simp only [UINT8]; omega)
    have h5 : ¬ 5 ≤ (s.startAttempts_ + 1) % UINT8 := by rw [hmod]; omega
    rw [if_neg he, if_neg h5] at hs
    rw [hmod] at ha
    obtain ⟨r1, r2, r3, r4, r5⟩ := ih (thread toVoltage e s) hb1 (Or.inr hs)
      (fun x hx => hfail x (List.mem_cons_of_mem _ hx)) (by rw [ha]; omega)
    have hfold : ticks toVoltage (e :: es) s = ticks toVoltage es (thread toVoltage e s) := rfl
    rw [hfold]
    refine ⟨r1, by rw [r2, ha, List.length_cons]; omega, r3, fun _ => ?_,
      by rw [r5, hc, List.length_cons]; omega⟩
    by_cases hes : es = []
    · subst hes; exact hs
    · exact r4 hes

end ADS1115Driver

namespace IMU

open DeviceStatus

variable {T : Type}

/-- A tick runs only when `imuInterval` is not blocked. -/
theorem not_blocked_of_runs (e : IMUTick T) (s : IMU T) (hr : runs e s = true) :
    s.imuInterval.blocked = false := by
  unfold runs IntervalControl.isTimeToRun at hr
  split at hr
  · rename_i h; exact h.1
  · simp at hr

/-- The interval control after a call of `isTimeToRun` is blocked exactly when it
was before. -/
theorem isTimeToRun_blocked (ic : IntervalControl) (now : Nat) :
    (ic.isTimeToRun now).2.blocked = ic.blocked := by
  unfold IntervalControl.isTimeToRun
  split <;> rfl

variable [BEq T] [Neg T]

/-- A tick that `imuInterval` does not let run changes nothing. -/
theorem deviceThread_of_not_runs (L : Nat) (e : IMUTick T) (s : IMU T)
    (hr : runs e s = false) : deviceThread L e s = s := by
  unfold runs at hr
  have h2 : (s.imuInterval.isTimeToRun e.microsInterval).2 = s.imuInterval := by
    unfold IntervalControl.isTimeToRun at hr ⊢
    split <;> simp_all
  simp [deviceThread, hr, h2]

/-- The effect of one tick that runs in status `DEVICE_NOT_STARTED` or
`DEVICE_RESTARTATTEMPT` on the lifecycle variables. -/
theorem deviceThread_start_step (L : Nat) (e : IMUTick T) (s : IMU T)
    (hr : runs e s = true)
    (hst : s.imuStatus = DEVICE_NOT_STARTED ∨ s.imuStatus = DEVICE_RESTARTATTEMPT) :
    (deviceThread L e s).imuStatus =
        (if 0 < e.startCode then DEVICE_RUNNING
         else if 5 ≤ (s.startAttempts + 1) % UINT8 then DEVICE_FAILURE
         else DEVICE_RESTARTATTEMPT)
      ∧ (deviceThread L e s).startAttempts = (s.startAttempts + 1) % UINT8
      ∧ (deviceThread L e s).imuInterval.blocked = false
      ∧ (deviceThread L e s).imu.beginCalls = s.imu.beginCalls + 1
      ∧ (deviceThread L e s).gyroFifo = s.gyroFifo
      ∧ (deviceThread L e s).gyroTimestampFifo = s.gyroTimestampFifo := by
  have hnr : s.imuStatus ≠ DEVICE_RUNNING := by
    rcases hst with h | h <;> simp [h]
  have hb := not_blocked_of_runs e s hr
  have hb2 := isTimeToRun_blocked s.imuInterval e.microsInterval
  rw [hb] at hb2
  unfold runs at hr
  by_cases hc : 0 < e.startCode
  · by_cases hq : (s.rateCalcInterval.isTimeToRun e.microsRateCalc).1 = true <;>
      simp [deviceThread, start, IntervalControl.setRate, hst, hnr, hc, hr, hq, hb2]
  · by_cases h5 : 5 ≤ (s.startAttempts + 1) % UINT8 <;>
      by_cases hq : (s.rateCalcInterval.isTimeToRun e.microsRateCalc).1 = true <;>
      simp [deviceThread, start, hst, hnr, hc, h5, hr, hq, hb2]

/-- The effect of one tick that runs in a status that `deviceThread` has no branch
for: the final `else` branch. -/
theorem deviceThread_failure_step (L : Nat) (e : IMUTick T) (s : IMU T)
    (hr : runs e s = true)
    (h1 : s.imuStatus ≠ DEVICE_RUNNING) (h2 : s.imuStatus ≠ DEVICE_NOT_STARTED)
    (h3 : s.imuStatus ≠ DEVICE_RESTARTATTEMPT) (h4 : s.imuStatus ≠ DEVICE_CALIBRATING) :
    (deviceThread L e s).imuStatus = DEVICE_FAILURE
      ∧ (deviceThread L e s).imuInterval.blocked = true
      ∧ (deviceThread L e s).startAttempts = s.startAttempts
      ∧ (deviceThread L e s).imu = s.imu := by
  unfold runs at hr
  by_cases hq : (s.rateCalcInterval.isTimeToRun e.microsRateCalc).1 = true <;>
    simp [deviceThread, IntervalControl.block, h1, h2, h3, h4, hr, hq]

/-- Running the ticks of `es ++ [e]` is running those of `es` and then `e`. -/
theorem deviceTicks_append_singleton (L : Nat) (es : List (IMUTick T)) (e : IMUTick T)
    (s : IMU T) : ticks L (es ++ [e]) s = deviceThread L e (ticks L es s) := by
  simp [ticks, List.foldl_append]

/-- When every tick of `es ++ [e]` runs, every tick of `es` runs and `e` runs in the
state they lead to. -/
theorem everyTickRuns_append_singleton (L : Nat) (es : List (IMUTick T)) (e : IMUTick T) :
    ∀ s : IMU T, everyTickRuns L (es ++ [e]) s = true →
      everyTickRuns L es s = true ∧ runs e (ticks L es s) = true := by
  induction es with
  | nil => intro s h; simpa [everyTickRuns, ticks] using h
  | cons x xs ih =>
    intro s h
    simp only [List.cons_append, everyTickRuns, Bool.and_eq_true] at h ⊢
    obtain ⟨h1, h2⟩ := ih _ h.2
    exact ⟨⟨h.1, h1⟩, h2⟩

/-- While fewer than five attempts have been made, ticks that run and whose start
code is not positive keep the device retrying, and count one attempt each. -/
theorem deviceTicks_failing (L : Nat) (es : List (IMUTick T)) :
    ∀ s : IMU T,
      (s.imuStatus = DEVICE_NOT_STARTED ∨ s.imuStatus = DEVICE_RESTARTATTEMPT) →
      everyTickRuns L es s = true →
      (∀ e ∈ es, e.startCode ≤ 0) → s.startAttempts + es.length < 5 →
      (ticks L es s).startAttempts = s.startAttempts + es.length
        ∧ ((ticks L es s).imuStatus = DEVICE_NOT_STARTED
          ∨ (ticks L es s).imuStatus = DEVICE_RESTARTATTEMPT)
        ∧ (es ≠ [] → (ticks L es s).imuStatus = DEVICE_RESTARTATTEMPT)
        ∧ (ticks L es s).imu.beginCalls = s.imu.beginCalls + es.length := by
  induction es with
  | nil => intro s hst _ _ _; simp [ticks, hst]
  | cons e es ih =>
    intro s hst hrun hfail hlen
    simp only [List.length_cons] at hlen
    simp only [everyTickRuns, Bool.and_eq_true] at hrun
    obtain ⟨hs, ha, _, hc, _⟩ := deviceThread_start_step L e s hrun.1 hst
    have he : ¬ 0 < e.startCode := not_lt.mpr (hfail e (List.mem_cons_self _ _))
    have hmod : (s.startAttempts + 1) % UINT8 = s.startAttempts + 1 :=
      Nat.mod_eq_of_lt (by simp only [UINT8]; omega)
    have h5 : ¬ 5 ≤ (s.startAttempts + 1) % UINT8 := by rw [hmod]; omega
    rw [if_neg he, if_neg h5] at hs
    rw [hmod] at ha
    obtain ⟨r2, r3, r4, r5⟩ := ih (deviceThread L e s) (Or.inr hs) hrun.2
      (fun x hx => hfail x (List.mem_cons_of_mem _ hx)) (by rw [ha]; omega)
    have hfold : ticks L (e :: es) s = ticks L es (deviceThread L e s) := rfl
    rw [hfold]
    refine ⟨by rw [r2, ha, List.length_cons]; omega, r3, fun _ => ?_,
      by rw [r5, hc, List.length_cons]; omega⟩
    by_cases hes : es = []
    · subst hes; exact hs
    · exact r4 hes

end IMU

/-! ### Lockstep of value and timestamp buffers -/

/-- Pushing a related pair at the heads of two `CircularBuffer`s of one capacity
keeps them related position by position. -/
theorem CircularBuffer.unshift_forall₂ {A B : Type} {S : Nat} {P : A → B → Prop}
    (a : CircularBuffer A S) (b : CircularBuffer B S) (x : A) (y : B)
    (h : List.Forall₂ P a.items b.items) (hxy : P x y) :
    List.Forall₂ P (a.unshift x).items (b.unshift y).items :=
  List.forall₂_take S (List.Forall₂.cons hxy h)

/-- Popping the tails of two related `CircularBuffer`s keeps them related. -/
theorem CircularBuffer.pop_forall₂ {A B : Type} {S : Nat} {P : A → B → Prop}
    (a : CircularBuffer A S) (b : CircularBuffer B S)
    (h : List.Forall₂ P a.items b.items) :
    List.Forall₂ P a.pop.2.items b.pop.2.items := by
  simp only [CircularBuffer.pop, List.dropLast_eq_take, h.length_eq]
  exact List.forall₂_take _ h

/-- Pushing a related pair at the fronts of two `Fifo`s of one capacity keeps them
related position by position. -/
theorem Fifo.placeFront_forall₂ {A B : Type} {N : Nat} {P : A → B → Prop}
    (a : Fifo A N) (b : Fifo B N) (x : A) (y : B)
    (h : List.Forall₂ P a.items b.items) (hxy : P x y) :
    List.Forall₂ P (a.placeFront x true).items (b.placeFront y true).items := by
  unfold Fifo.placeFront
  rw [h.length_eq]
  by_cases hl : b.items.length < N
  · simp only [hl, if_true]
    exact List.Forall₂.cons hxy h
  · simp only [hl, if_false, if_true]
    exact List.forall₂_take N (List.Forall₂.cons hxy h)

namespace ADS1115Driver

variable {V : Type} {N : Nat}

/-- The buffers after one tick: only an unblocked tick in status `Running` with a
free bus changes them, by one push into each buffer of the current pin. -/
theorem thread_fifos (toVoltage : Int → V) (e : ADCTick) (s : ADS1115Driver V N) :
    (thread toVoltage e s).voltageFifo_ =
        (if s.block_ = false ∧ s.moduleStatus_ = eModuleStatus_t.eModuleStatus_Running
            ∧ e.isBusy = false then
          Function.update s.voltageFifo_ s.currentPin_
            ((s.voltageFifo_ s.currentPin_).placeFront (toVoltage e.getValue) true)
         else s.voltageFifo_)
      ∧ (thread toVoltage e s).voltageTimestampFifo_ =
        (if s.block_ = false ∧ s.moduleStatus_ = eModuleStatus_t.eModuleStatus_Running
            ∧ e.isBusy = false then
          Function.update s.voltageTimestampFifo_ s.currentPin_
            ((s.voltageTimestampFifo_ s.currentPin_).placeFront e.micros true)
         else s.voltageTimestampFifo_) := by
  by_cases hb : s.block_ = true
  · simp [thread_of_blocked toVoltage e s hb, hb]
  by_cases hst : s.moduleStatus_ = eModuleStatus_t.eModuleStatus_Running
  · by_cases hbusy : e.isBusy = true
    · obtain ⟨_, _, _, h4, h5, _⟩ := thread_busy_step toVoltage e s hst hbusy
      simp [h4, h5, hbusy]
    · by_cases h4 : 4 ≤ (s.currentPin_ + 1) % UINT8 <;>
        by_cases hr : (s._rateCalcInterval.isTimeToRun e.microsRateCalc).1 = true <;>
        simp [thread, _getData, hb, hst, hbusy, h4, hr]
  · by_cases h2 : s.moduleStatus_ = eModuleStatus_t.eModuleStatus_NotStarted
        ∨ s.moduleStatus_ = eModuleStatus_t.eModuleStatus_RestartAttempt
    · obtain ⟨_, _, _, _, h5, h6, _⟩ := thread_start_step toVoltage e s (by simpa using hb) h2
      simp [h5, h6, hst]
    · obtain ⟨_, _, _, _, h5, h6, _⟩ := thread_failure_step toVoltage e s (by simpa using hb)
        hst (fun h => h2 (Or.inl h)) (fun h => h2 (Or.inr h))
      simp [h5, h6, hst]

/-- One tick keeps the channels of the ADC driver in lockstep, when the pair it may
push is related. -/
theorem thread_lockstep (toVoltage : Int → V) (P : V → Nat → Prop) (e : ADCTick)
    (s : ADS1115Driver V N) (h : Lockstep P s) (he : P (toVoltage e.getValue) e.micros) :
    Lockstep P (thread toVoltage e s) := by
  intro p
  obtain ⟨h1, h2⟩ := thread_fifos toVoltage e s
  rw [h1, h2]
  split
  · by_cases hpc : p = s.currentPin_
    · rw [hpc]
      simpa using Fifo.placeFront_forall₂ _ _ _ _ (h s.currentPin_) he
    · simpa [Function.update_noteq hpc] using h p
  · exact h p

/-- Any number of ticks keeps the channels of the ADC driver in lockstep, when the
pair each tick may push is related. -/
theorem ticks_lockstep (toVoltage : Int → V) (P : V → Nat → Prop) (es : List ADCTick) :
    ∀ s : ADS1115Driver V N, Lockstep P s →
      (∀ e ∈ es, P (toVoltage e.getValue) e.micros) → Lockstep P (ticks toVoltage es s) := by
  induction es with
  | nil => intro s h _; exact h
  | cons e es ih =>
    intro s h he
    exact ih (thread toVoltage e s)
      (thread_lockstep toVoltage P e s h (he e (List.mem_cons_self _ _)))
      (fun x hx => he x (List.mem_cons_of_mem _ hx))

end ADS1115Driver

namespace IMU

open DeviceStatus

variable {T : Type}

/-- The rate accounting at the end of `deviceThread` does not touch the channels. -/
theorem lockstep_rateCalc (Pg Pa Pm : Vector T → Nat → Prop) (now : Nat) (s : IMU T)
    (h : Lockstep Pg Pa Pm s) :
    Lockstep Pg Pa Pm
      (if (s.rateCalcInterval.isTimeToRun now).1 = true then
        { s with
          rateCalcInterval := (s.rateCalcInterval.isTimeToRun now).2
          loopRate := s.loopCounter
          gyroRate := s.gyroCounter
          gyroCounter := 0
          loopCounter := 0 }
       else { s with rateCalcInterval := (s.rateCalcInterval.isTimeToRun now).2 }) := by
  split <;> exact h

/-- The start branch of `deviceThread` does not touch the channels. -/
theorem start_lockstep (L : Nat) (Pg Pa Pm : Vector T → Nat → Prop) (e : IMUTick T)
    (s : IMU T) (h : Lockstep Pg Pa Pm s) : Lockstep Pg Pa Pm (start L e s) := by
  unfold start
  by_cases hc : 0 < e.startCode
  · simp only [hc, if_true]
    split <;> exact h
  · simp only [hc, if_false]
    split <;> exact h

variable [BEq T] [Neg T]

/-- Reading the sensor keeps the three channels in lockstep, when the pairs it may
push are related. -/
theorem readData_lockstep (Pg Pa Pm : Vector T → Nat → Prop) (e : IMUTick T) (s : IMU T)
    (h : Lockstep Pg Pa Pm s) (hg : Pg (gyroOf e) e.micros) (ha : Pa (accelOf e) e.micros)
    (hm : Pm (magOf e) e.micros) : Lockstep Pg Pa Pm (readData e s) := by
  obtain ⟨h1, h2, h3⟩ := h
  have g1 := CircularBuffer.unshift_forall₂ _ _ _ _ h1 hg
  have g2 := CircularBuffer.unshift_forall₂ _ _ _ _ h2 ha
  have g3 := CircularBuffer.unshift_forall₂ _ _ _ _ h3 hm
  unfold gyroOf at g1
  unfold accelOf at g2
  unfold magOf at g3
  unfold readData Lockstep
  by_cases hn : s.newDataInterrupt = true
  · simp only [hn, if_true]
    split_ifs <;> exact ⟨by first | exact g1 | exact h1, by first | exact g2 | exact h2,
      by first | exact g3 | exact h3⟩
  · simp only [hn]
    exact ⟨h1, h2, h3⟩

/-- One call of `deviceThread` keeps the three channels in lockstep, when the pairs
it may push are related. -/
theorem deviceThread_lockstep (L : Nat) (Pg Pa Pm : Vector T → Nat → Prop) (e : IMUTick T)
    (s : IMU T) (h : Lockstep Pg Pa Pm s) (hg : Pg (gyroOf e) e.micros)
    (ha : Pa (accelOf e) e.micros) (hm : Pm (magOf e) e.micros) :
    Lockstep Pg Pa Pm (deviceThread L e s) := by
  by_cases hr : runs e s = true
  swap
  · rw [deviceThread_of_not_runs L e s (by simpa using hr)]; exact h
  unfold runs at hr
  have h1 : Lockstep Pg Pa Pm
      { s with imuInterval := (s.imuInterval.isTimeToRun e.microsInterval).2,
               loopCounter := (s.loopCounter + 1) % UINT32 } := h
  have key : ∀ s2 : IMU T, Lockstep Pg Pa Pm s2 →
      Lockstep Pg Pa Pm
        (if (s2.rateCalcInterval.isTimeToRun e.microsRateCalc).1 = true then
          { s2 with
            rateCalcInterval := (s2.rateCalcInterval.isTimeToRun e.microsRateCalc).2
            loopRate := s2.loopCounter
            gyroRate := s2.gyroCounter
            gyroCounter := 0
            loopCounter := 0 }
         else { s2 with
            rateCalcInterval := (s2.rateCalcInterval.isTimeToRun e.microsRateCalc).2 }) :=
    fun s2 h2 => lockstep_rateCalc Pg Pa Pm e.microsRateCalc s2 h2
  simp only [deviceThread, hr]
  by_cases hst : s.imuStatus = DEVICE_RUNNING
  · simp only [hst, if_true]
    exact key _ (readData_lockstep Pg Pa Pm e _ h1 hg ha hm)
  · by_cases h2 : s.imuStatus = DEVICE_NOT_STARTED ∨ s.imuStatus = DEVICE_RESTARTATTEMPT
    · simp only [hst, h2, if_true, if_false]
      exact key _ (start_lockstep L Pg Pa Pm e _ h1)
    · by_cases h3 : s.imuStatus = DEVICE_CALIBRATING
      · simp only [hst, h2, h3, if_true, if_false]
        refine key _ ?_
        exact h
      · simp only [hst, h2, h3, if_false]
        split_ifs <;> exact h

/-- One step keeps the three channels in lockstep, when the pairs a tick may push
are related. -/
theorem step_lockstep (L : Nat) (Pg Pa Pm : Vector T → Nat → Prop) (ev : Event T)
    (s : IMU T) (h : Lockstep Pg Pa Pm s)
    (hev : ∀ e, ev = Event.tick e →
      Pg (gyroOf e) e.micros ∧ Pa (accelOf e) e.micros ∧ Pm (magOf e) e.micros) :
    Lockstep Pg Pa Pm (step L ev s) := by
  cases ev with
  | tick e =>
    obtain ⟨hg, ha, hm⟩ := hev e rfl
    exact deviceThread_lockstep L Pg Pa Pm e s h hg ha hm
  | interrupt => exact h
  | getGyro =>
    simp only [step, getGyro]
    split
    · exact h
    · exact ⟨CircularBuffer.pop_forall₂ _ _ h.1, h.2.1, h.2.2⟩
  | getAccel =>
    simp only [step, getAccel]
    split
    · exact h
    · exact ⟨h.1, CircularBuffer.pop_forall₂ _ _ h.2.1, h.2.2⟩
  | getMag =>
    simp only [step, getMag]
    split
    · exact h
    · exact ⟨h.1, h.2.1, CircularBuffer.pop_forall₂ _ _ h.2.2⟩

/-- Any sequence of steps keeps the three channels in lockstep, when the pairs each
of its ticks may push are related. -/
theorem run_lockstep (L : Nat) (Pg Pa Pm : Vector T → Nat → Prop) (evs : List (Event T)) :
    ∀ s : IMU T, Lockstep Pg Pa Pm s →
      (∀ e, Event.tick e ∈ evs →
        Pg (gyroOf e) e.micros ∧ Pa (accelOf e) e.micros ∧ Pm (magOf e) e.micros) →
      Lockstep Pg Pa Pm (run L evs s) := by
  induction evs with
  | nil => intro s h _; exact h
  | cons ev evs ih =>
    intro s h hev
    exact ih (step L ev s)
      (step_lockstep L Pg Pa Pm ev s h (fun e he => hev e (by rw [he]; exact List.mem_cons_self _ _)))
      (fun e he => hev e (List.mem_cons_of_mem _ he))

end IMU

/-! ### Device lifecycle (claims C1 to C6) -/

open eModuleStatus_t DeviceStatus in
/-- C1 as stated fails: from the fresh ADC driver, five ticks whose `adc_.begin()`
returns 0 lead to status `Failure` with `block_` still false. -/
theorem c1_block_not_set_after_five_ticks :
    (ADS1115Driver.fresh Int 10 ⟨1000000, 0, false⟩).moduleStatus_ = eModuleStatus_NotStarted
      ∧ (ADS1115Driver.fresh Int 10 ⟨1000000, 0, false⟩).startAttempts_ = 0
      ∧ (ADS1115Driver.fresh Int 10 ⟨1000000, 0, false⟩).block_ = false
      ∧ (ADCTick.mk 0 false 0 0 0).startCode ≤ 0
      ∧ (ADS1115Driver.ticks (fun v => v)
          [ADCTick.mk 0 false 0 0 0, ADCTick.mk 0 false 0 0 0, ADCTick.mk 0 false 0 0 0,
            ADCTick.mk 0 false 0 0 0, ADCTick.mk 0 false 0 0 0]
          (ADS1115Driver.fresh Int 10 ⟨1000000, 0, false⟩)).moduleStatus_ = eModuleStatus_Failure
      ∧ (ADS1115Driver.ticks (fun v => v)
          [ADCTick.mk 0 false 0 0 0, ADCTick.mk 0 false 0 0 0, ADCTick.mk 0 false 0 0 0,
            ADCTick.mk 0 false 0 0 0, ADCTick.mk 0 false 0 0 0]
          (ADS1115Driver.fresh Int 10 ⟨1000000, 0, false⟩)).block_ = false := by
  decide

open eModuleStatus_t DeviceStatus in
/-- C1 (amended): from status `NotStarted` with `startAttempts = 0` and scheduling
not blocked, when every call of the device init returns a non-positive code, after
exactly 5 ticks the status is `Failure`, 5 attempts are counted and scheduling is
not blocked yet; the 6th tick keeps `Failure` and blocks scheduling (`block_` for
`ADS1115Driver::thread`, `imuInterval` for `IMU::deviceThread` when its interval lets
every tick run). -/
theorem lifecycle_init_always_failing {V T : Type} {N : Nat} [BEq T] [Neg T]
    (toVoltage : Int → V) (s : ADS1115Driver V N) (es : List ADCTick) (e6 : ADCTick)
    (L : Nat) (m : IMU T) (is : List (IMUTick T)) (i6 : IMUTick T)
    (hst : s.moduleStatus_ = eModuleStatus_NotStarted) (h0 : s.startAttempts_ = 0)
    (hb : s.block_ = false) (hlen : es.length = 5) (hfail : ∀ e ∈ es, e.startCode ≤ 0)
    (hmst : m.imuStatus = DEVICE_NOT_STARTED) (hm0 : m.startAttempts = 0)
    (hmlen : is.length = 5) (hmfail : ∀ e ∈ is, e.startCode ≤ 0)
    (hmrun : IMU.everyTickRuns L (is ++ [i6]) m = true) :
    ((ADS1115Driver.ticks toVoltage es s).moduleStatus_ = eModuleStatus_Failure
      ∧ (ADS1115Driver.ticks toVoltage es s).startAttempts_ = 5
      ∧ (ADS1115Driver.ticks toVoltage es s).block_ = false
      ∧ (ADS1115Driver.ticks toVoltage (es ++ [e6]) s).moduleStatus_ = eModuleStatus_Failure
      ∧ (ADS1115Driver.ticks toVoltage (es ++ [e6]) s).block_ = true)
    ∧ ((IMU.ticks L is m).imuStatus = DEVICE_FAILURE
      ∧ (IMU.ticks L is m).startAttempts = 5
      ∧ (IMU.ticks L is m).imuInterval.blocked = false
      ∧ (IMU.ticks L (is ++ [i6]) m).imuStatus = DEVICE_FAILURE
      ∧ (IMU.ticks L (is ++ [i6]) m).imuInterval.blocked = true) := by
  constructor
  · obtain ⟨es4, e5, rfl⟩ : ∃ es4 e5, es = es4 ++ [e5] := by
      rcases List.eq_nil_or_concat es with h | ⟨l, a, h⟩
      · subst h; simp at hlen
      · exact ⟨l, a, by simpa using h⟩
    have hlen4 : es4.length = 4 := by simpa using hlen
    obtain ⟨p1, p2, p3, _, _⟩ := ADS1115Driver.ticks_failing toVoltage es4 s hb (Or.inl hst)
      (fun e he => hfail e (List.mem_append_left _ he)) (by rw [h0, hlen4]; decide)
    have he5 : ¬ 0 < e5.startCode := not_lt.mpr (hfail e5 (by simp))
    obtain ⟨q1, q2, q3, _⟩ :=
      ADS1115Driver.thread_start_step toVoltage e5 (ADS1115Driver.ticks toVoltage es4 s) p1 p3
    rw [p2, h0, hlen4] at q1 q2
    rw [if_neg he5] at q1
    have q1f : (ADS1115Driver.thread toVoltage e5
        (ADS1115Driver.ticks toVoltage es4 s)).moduleStatus_ = eModuleStatus_Failure := by
      rw [q1]; decide
    have q2f : (ADS1115Driver.thread toVoltage e5
        (ADS1115Driver.ticks toVoltage es4 s)).startAttempts_ = 5 := by
      rw [q2]; decide
    obtain ⟨f1, f2, _⟩ := ADS1115Driver.thread_failure_step toVoltage e6
      (ADS1115Driver.thread toVoltage e5 (ADS1115Driver.ticks toVoltage es4 s)) q3
      (by rw [q1f]; decide) (by rw [q1f]; decide) (by rw [q1f]; decide)
    rw [ADS1115Driver.ticks_append_singleton toVoltage (es4 ++ [e5]) e6,
      ADS1115Driver.ticks_append_singleton toVoltage es4 e5]
    exact ⟨q1f, q2f, q3, f1, f2⟩
  · obtain ⟨is4, i5, rfl⟩ : ∃ is4 i5, is = is4 ++ [i5] := by
      rcases List.eq_nil_or_concat is with h | ⟨l, a, h⟩
      · subst h; simp at hmlen
      · exact ⟨l, a, by simpa using h⟩
    have hlen4 : is4.length = 4 := by simpa using hmlen
    obtain ⟨hrun5, hr6⟩ := IMU.everyTickRuns_append_singleton L (is4 ++ [i5]) i6 m hmrun
    obtain ⟨hrun4, hr5⟩ := IMU.everyTickRuns_append_singleton L is4 i5 m hrun5
    obtain ⟨p2, p3, _, _⟩ := IMU.deviceTicks_failing L is4 m (Or.inl hmst) hrun4
      (fun e he => hmfail e (List.mem_append_left _ he)) (by rw [hm0, hlen4]; decide)
    have he5 : ¬ 0 < i5.startCode := not_lt.mpr (hmfail i5 (by simp))
    obtain ⟨q1, q2, q3, _⟩ := IMU.deviceThread_start_step L i5 (IMU.ticks L is4 m) hr5 p3
    rw [p2, hm0, hlen4] at q1 q2
    rw [if_neg he5] at q1
    have q1f : (IMU.deviceThread L i5 (IMU.ticks L is4 m)).imuStatus = DEVICE_FAILURE := by
      rw [q1]; decide
    have q2f : (IMU.deviceThread L i5 (IMU.ticks L is4 m)).startAttempts = 5 := by
      rw [q2]; decide
    rw [IMU.deviceTicks_append_singleton L is4 i5] at hr6
    obtain ⟨f1, f2, _⟩ := IMU.deviceThread_failure_step L i6
      (IMU.deviceThread L i5 (IMU.ticks L is4 m)) hr6
      (by rw [q1f]; decide) (by rw [q1f]; decide) (by rw [q1f]; decide) (by rw [q1f]; decide)
    rw [IMU.deviceTicks_append_singleton L (is4 ++ [i5]) i6, IMU.deviceTicks_append_singleton L is4 i5]
    exact ⟨q1f, q2f, q3, f1, f2⟩

open eModuleStatus_t DeviceStatus in
/-- Witness of C1 (amended) on the fresh ADC driver and the fresh IMU. -/
theorem lifecycle_init_always_failing_witness :
    ((ADS1115Driver.ticks (fun v => v) (List.replicate 5 ADCTick.failing)
          ADS1115Driver.sample).moduleStatus_ = eModuleStatus_Failure
      ∧ (ADS1115Driver.ticks (fun v => v) (List.replicate 5 ADCTick.failing)
          ADS1115Driver.sample).startAttempts_ = 5
      ∧ (ADS1115Driver.ticks (fun v => v) (List.replicate 5 ADCTick.failing)
          ADS1115Driver.sample).block_ = false
      ∧ (ADS1115Driver.ticks (fun v => v) (List.replicate 5 ADCTick.failing ++ [ADCTick.failing])
          ADS1115Driver.sample).moduleStatus_ = eModuleStatus_Failure
      ∧ (ADS1115Driver.ticks (fun v => v) (List.replicate 5 ADCTick.failing ++ [ADCTick.failing])
          ADS1115Driver.sample).block_ = true)
    ∧ ((IMU.ticks 1000 (List.replicate 5 IMUTick.failing) IMU.sample).imuStatus = DEVICE_FAILURE
      ∧ (IMU.ticks 1000 (List.replicate 5 IMUTick.failing) IMU.sample).startAttempts = 5
      ∧ (IMU.ticks 1000 (List.replicate 5 IMUTick.failing) IMU.sample).imuInterval.blocked = false
      ∧ (IMU.ticks 1000 (List.replicate 5 IMUTick.failing ++ [IMUTick.failing])
          IMU.sample).imuStatus = DEVICE_FAILURE
      ∧ (IMU.ticks 1000 (List.replicate 5 IMUTick.failing ++ [IMUTick.failing])
          IMU.sample).imuInterval.blocked = true) :=
  lifecycle_init_always_failing (fun v => v) ADS1115Driver.sample
    (List.replicate 5 ADCTick.failing) ADCTick.failing 1000 IMU.sample
    (List.replicate 5 IMUTick.failing) IMUTick.failing
    (by decide) (by decide) (by decide) (by decide) (by decide)
    (by decide) (by decide) (by decide) (by decide) (by decide)

open eModuleStatus_t in
/-- C2: from status `NotStarted` with `startAttempts = 0` (the fresh, unblocked
driver), when the device init returns a non-positive code on the first two ticks of
`ADS1115Driver::thread` and a positive code on the third, the status is
`RestartAttempt` after ticks 1 and 2, and after the 3rd tick the status is `Running`
and `startAttempts` equals 3. -/
theorem lifecycle_init_third_attempt {V : Type} {N : Nat} (toVoltage : Int → V)
    (s : ADS1115Driver V N) (e1 e2 e3 : ADCTick)
    (hst : s.moduleStatus_ = eModuleStatus_NotStarted) (h0 : s.startAttempts_ = 0)
    (hb : s.block_ = false)
    (h1 : e1.startCode ≤ 0) (h2 : e2.startCode ≤ 0) (h3 : 0 < e3.startCode) :
    (ADS1115Driver.ticks toVoltage [e1] s).moduleStatus_ = eModuleStatus_RestartAttempt
      ∧ (ADS1115Driver.ticks toVoltage [e1, e2] s).moduleStatus_ = eModuleStatus_RestartAttempt
      ∧ (ADS1115Driver.ticks toVoltage [e1, e2, e3] s).moduleStatus_ = eModuleStatus_Running
      ∧ (ADS1115Driver.ticks toVoltage [e1, e2, e3] s).startAttempts_ = 3 := by
  obtain ⟨_, _, _, a4, _⟩ := ADS1115Driver.ticks_failing toVoltage [e1] s hb (Or.inl hst)
    (by simpa using h1) (by rw [h0]; simp)
  obtain ⟨b1, b2, b3, b4, _⟩ := ADS1115Driver.ticks_failing toVoltage [e1, e2] s hb (Or.inl hst)
    (by simpa using ⟨h1, h2⟩) (by rw [h0]; simp)
  obtain ⟨c1, c2, _⟩ := ADS1115Driver.thread_start_step toVoltage e3
    (ADS1115Driver.ticks toVoltage [e1, e2] s) b1 b3
  rw [if_pos h3] at c1
  rw [b2, h0] at c2
  have hfold : ADS1115Driver.ticks toVoltage [e1, e2, e3] s
      = ADS1115Driver.thread toVoltage e3 (ADS1115Driver.ticks toVoltage [e1, e2] s) := rfl
  rw [hfold]
  exact ⟨a4 (by simp), b4 (by simp), c1, by rw [c2]; simp [UINT8]⟩

open eModuleStatus_t in
/-- Witness of C2 on the fresh ADC driver. -/
theorem lifecycle_init_third_attempt_witness :
    (ADS1115Driver.ticks (fun v => v) [ADCTick.failing] ADS1115Driver.sample).moduleStatus_
        = eModuleStatus_RestartAttempt
      ∧ (ADS1115Driver.ticks (fun v => v) [ADCTick.failing, ADCTick.failing]
          ADS1115Driver.sample).moduleStatus_ = eModuleStatus_RestartAttempt
      ∧ (ADS1115Driver.ticks (fun v => v) [ADCTick.failing, ADCTick.failing, ADCTick.good 7 30]
          ADS1115Driver.sample).moduleStatus_ = eModuleStatus_Running
      ∧ (ADS1115Driver.ticks (fun v => v) [ADCTick.failing, ADCTick.failing, ADCTick.good 7 30]
          ADS1115Driver.sample).startAttempts_ = 3 :=
  lifecycle_init_third_attempt (fun v => v) ADS1115Driver.sample ADCTick.failing
    ADCTick.failing (ADCTick.good 7 30) (by decide) (by decide) (by decide)
    (by decide) (by decide) (by decide)

open eModuleStatus_t in
/-- C3 as stated fails: the fresh ADC driver is brought to status `Running` with
`adcCounter_ = 2` by a successful start and two acquisitions; the following tick,
during which the ADC reports busy and the rate calculation interval fires, resets
`adcCounter_` to 0. -/
theorem c3_busy_tick_resets_adcCounter :
    (ADS1115Driver.ticks (fun v => v) [ADCTick.good 0 10, ADCTick.good 5 20, ADCTick.good 6 30]
        ADS1115Driver.sample).moduleStatus_ = eModuleStatus_Running
      ∧ (ADS1115Driver.ticks (fun v => v) [ADCTick.good 0 10, ADCTick.good 5 20, ADCTick.good 6 30]
        ADS1115Driver.sample).adcCounter_ = 2
      ∧ (ADCTick.busy 1000000).isBusy = true
      ∧ (ADS1115Driver.thread (fun v => v) (ADCTick.busy 1000000)
          (ADS1115Driver.ticks (fun v => v)
            [ADCTick.good 0 10, ADCTick.good 5 20, ADCTick.good 6 30]
            ADS1115Driver.sample)).adcCounter_ = 0 := by
  decide

open eModuleStatus_t in
/-- C3 (amended): for every `ADS1115Driver` state with status `Running`, a tick of
`thread()` during which the ADC reports busy leaves the status, `startAttempts_`,
`currentPin_` and every voltage and timestamp buffer unchanged and makes no call to
the chip (no new conversion request); `adcCounter_` is not incremented: it is
unchanged, unless the driver is unblocked and the rate calculation interval fires on
that tick, which resets it to 0. -/
theorem busy_tick_is_noop {V : Type} {N : Nat} (toVoltage : Int → V) (e : ADCTick)
    (s : ADS1115Driver V N)
    (hst : s.moduleStatus_ = eModuleStatus_Running) (hbusy : e.isBusy = true) :
    (ADS1115Driver.thread toVoltage e s).moduleStatus_ = s.moduleStatus_
      ∧ (ADS1115Driver.thread toVoltage e s).startAttempts_ = s.startAttempts_
      ∧ (ADS1115Driver.thread toVoltage e s).currentPin_ = s.currentPin_
      ∧ (ADS1115Driver.thread toVoltage e s).voltageFifo_ = s.voltageFifo_
      ∧ (ADS1115Driver.thread toVoltage e s).voltageTimestampFifo_ = s.voltageTimestampFifo_
      ∧ (ADS1115Driver.thread toVoltage e s).adc_ = s.adc_
      ∧ (ADS1115Driver.thread toVoltage e s).adcCounter_ =
          (if s.block_ = false ∧ (s._rateCalcInterval.isTimeToRun e.microsRateCalc).1 = true
           then 0 else s.adcCounter_) :=
  ADS1115Driver.thread_busy_step toVoltage e s hst hbusy

/-- Witness of C3 (amended): a busy tick on the running sample driver. -/
theorem busy_tick_is_noop_witness :
    (ADS1115Driver.thread (fun v => v) (ADCTick.busy 500)
        ADS1115Driver.sampleRunning).moduleStatus_ = ADS1115Driver.sampleRunning.moduleStatus_
      ∧ (ADS1115Driver.thread (fun v => v) (ADCTick.busy 500)
        ADS1115Driver.sampleRunning).startAttempts_ = ADS1115Driver.sampleRunning.startAttempts_
      ∧ (ADS1115Driver.thread (fun v => v) (ADCTick.busy 500)
        ADS1115Driver.sampleRunning).currentPin_ = ADS1115Driver.sampleRunning.currentPin_
      ∧ (ADS1115Driver.thread (fun v => v) (ADCTick.busy 500)
        ADS1115Driver.sampleRunning).voltageFifo_ = ADS1115Driver.sampleRunning.voltageFifo_
      ∧ (ADS1115Driver.thread (fun v => v) (ADCTick.busy 500)
        ADS1115Driver.sampleRunning).voltageTimestampFifo_
          = ADS1115Driver.sampleRunning.voltageTimestampFifo_
      ∧ (ADS1115Driver.thread (fun v => v) (ADCTick.busy 500)
        ADS1115Driver.sampleRunning).adc_ = ADS1115Driver.sampleRunning.adc_
      ∧ (ADS1115Driver.thread (fun v => v) (ADCTick.busy 500)
        ADS1115Driver.sampleRunning).adcCounter_ =
          (if ADS1115Driver.sampleRunning.block_ = false
              ∧ (ADS1115Driver.sampleRunning._rateCalcInterval.isTimeToRun
                  (ADCTick.busy 500).microsRateCalc).1 = true
           then 0 else ADS1115Driver.sampleRunning.adcCounter_) :=
  busy_tick_is_noop (fun v => v) (ADCTick.busy 500) ADS1115Driver.sampleRunning
    (by decide) (by decide)

open eModuleStatus_t in
/-- C5: for every `ADS1115Driver` state with status `Failure`, after any number of
further ticks of `thread()`, with any init codes, busy flags and clock values, the
status is still `Failure`, `startAttempts_` is unchanged, no call has been made to
the chip (`adc_.begin()` is never called again, no conversion is requested) and no
sample or timestamp has been pushed into any buffer. -/
theorem failure_is_terminal {V : Type} {N : Nat} (toVoltage : Int → V) (es : List ADCTick)
    (s : ADS1115Driver V N) (hst : s.moduleStatus_ = eModuleStatus_Failure) :
    (ADS1115Driver.ticks toVoltage es s).moduleStatus_ = eModuleStatus_Failure
      ∧ (ADS1115Driver.ticks toVoltage es s).startAttempts_ = s.startAttempts_
      ∧ (ADS1115Driver.ticks toVoltage es s).adc_.beginCalls = s.adc_.beginCalls
      ∧ (ADS1115Driver.ticks toVoltage es s).adc_.requests = s.adc_.requests
      ∧ (ADS1115Driver.ticks toVoltage es s).voltageFifo_ = s.voltageFifo_
      ∧ (ADS1115Driver.ticks toVoltage es s).voltageTimestampFifo_ = s.voltageTimestampFifo_ := by
  obtain ⟨a, b, c, d, f⟩ := ADS1115Driver.ticks_in_failure toVoltage es s hst
  exact ⟨a, b, by rw [c], by rw [c], d, f⟩

open eModuleStatus_t in
/-- Witness of C5: the failed sample driver, ticked with a good start code, a busy
bus and a failing start code. -/
theorem failure_is_terminal_witness :
    (ADS1115Driver.ticks (fun v => v) [ADCTick.good 3 2000000, ADCTick.busy 2000001,
        ADCTick.failing] ADS1115Driver.sampleFailed).moduleStatus_ = eModuleStatus_Failure
      ∧ (ADS1115Driver.ticks (fun v => v) [ADCTick.good 3 2000000, ADCTick.busy 2000001,
        ADCTick.failing] ADS1115Driver.sampleFailed).startAttempts_
          = ADS1115Driver.sampleFailed.startAttempts_
      ∧ (ADS1115Driver.ticks (fun v => v) [ADCTick.good 3 2000000, ADCTick.busy 2000001,
        ADCTick.failing] ADS1115Driver.sampleFailed).adc_.beginCalls
          = ADS1115Driver.sampleFailed.adc_.beginCalls
      ∧ (ADS1115Driver.ticks (fun v => v) [ADCTick.good 3 2000000, ADCTick.busy 2000001,
        ADCTick.failing] ADS1115Driver.sampleFailed).adc_.requests
          = ADS1115Driver.sampleFailed.adc_.requests
      ∧ (ADS1115Driver.ticks (fun v => v) [ADCTick.good 3 2000000, ADCTick.busy 2000001,
        ADCTick.failing] ADS1115Driver.sampleFailed).voltageFifo_
          = ADS1115Driver.sampleFailed.voltageFifo_
      ∧ (ADS1115Driver.ticks (fun v => v) [ADCTick.good 3 2000000, ADCTick.busy 2000001,
        ADCTick.failing] ADS1115Driver.sampleFailed).voltageTimestampFifo_
          = ADS1115Driver.sampleFailed.voltageTimestampFifo_ :=
  failure_is_terminal (fun v => v) [ADCTick.good 3 2000000, ADCTick.busy 2000001,
    ADCTick.failing] ADS1115Driver.sampleFailed (by decide)

open eModuleStatus_t in
/-- C6: for every unblocked `ADS1115Driver` state whose status is any value other
than `Running`, `NotStarted` and `RestartAttempt` (`Failure` or an unrecognized
value), one tick of `thread()` sets the status to `Failure` and blocks scheduling,
without calling init (no call is made to the chip) and without acquiring data (no
buffer and no pin change, `adcCounter_` is not incremented). -/
theorem fail_closed_default {V : Type} {N : Nat} (toVoltage : Int → V) (e : ADCTick)
    (s : ADS1115Driver V N) (hb : s.block_ = false)
    (h1 : s.moduleStatus_ ≠ eModuleStatus_Running)
    (h2 : s.moduleStatus_ ≠ eModuleStatus_NotStarted)
    (h3 : s.moduleStatus_ ≠ eModuleStatus_RestartAttempt) :
    (ADS1115Driver.thread toVoltage e s).moduleStatus_ = eModuleStatus_Failure
      ∧ (ADS1115Driver.thread toVoltage e s).block_ = true
      ∧ (ADS1115Driver.thread toVoltage e s).adc_ = s.adc_
      ∧ (ADS1115Driver.thread toVoltage e s).startAttempts_ = s.startAttempts_
      ∧ (ADS1115Driver.thread toVoltage e s).voltageFifo_ = s.voltageFifo_
      ∧ (ADS1115Driver.thread toVoltage e s).voltageTimestampFifo_ = s.voltageTimestampFifo_
      ∧ (ADS1115Driver.thread toVoltage e s).currentPin_ = s.currentPin_
      ∧ (ADS1115Driver.thread toVoltage e s).adcCounter_ ≤ s.adcCounter_ := by
  obtain ⟨a, b, c, d, f, g, h, _, k⟩ := ADS1115Driver.thread_failure_step toVoltage e s hb h1 h2 h3
  refine ⟨a, b, d, c, f, g, h, ?_⟩
  rw [k]
  split <;> simp

open eModuleStatus_t in
/-- Witness of C6: a tick of the sample driver put into an unrecognized status. -/
theorem fail_closed_default_witness :
    (ADS1115Driver.thread (fun v => v) (ADCTick.good 3 40)
        { ADS1115Driver.sampleRunning with moduleStatus_ := eModuleStatus_Other 9 }).moduleStatus_
        = eModuleStatus_Failure
      ∧ (ADS1115Driver.thread (fun v => v) (ADCTick.good 3 40)
        { ADS1115Driver.sampleRunning with moduleStatus_ := eModuleStatus_Other 9 }).block_ = true :=
  have h := fail_closed_default (fun v => v) (ADCTick.good 3 40)
    { ADS1115Driver.sampleRunning with moduleStatus_ := eModuleStatus_Other 9 }
    (by decide) (by decide) (by decide) (by decide)
  ⟨h.1, h.2.1⟩

/-! ### Buffers and the chain list (claims C7 to C10) -/

/-- C7: starting from empty buffers, after every sequence of `IMU::deviceThread`
ticks, data ready interrupts and `IMU::getGyro` / `getAccel` / `getMag` calls,
`gyroFifo` and `gyroTimestampFifo` have equal length (likewise accel and mag), and
after every sequence of `ADS1115Driver::thread` ticks `voltageFifo_[p]` and
`voltageTimestampFifo_[p]` have equal length for every pin `p`; the k-th stored value
and the k-th stored timestamp were pushed in the same tick. -/
theorem buffers_in_lockstep {V T : Type} {N : Nat} [BEq T] [Neg T]
    (L : Nat) (evs : List (IMU.Event T)) (m : IMU T)
    (toVoltage : Int → V) (es : List ADCTick) (s : ADS1115Driver V N)
    (hm : m.gyroFifo.items = [] ∧ m.gyroTimestampFifo.items = []
      ∧ m.accelFifo.items = [] ∧ m.accelTimestampFifo.items = []
      ∧ m.magFifo.items = [] ∧ m.magTimestampFifo.items = [])
    (hs : ∀ p, (s.voltageFifo_ p).items = [] ∧ (s.voltageTimestampFifo_ p).items = []) :
    ((IMU.run L evs m).gyroFifo.items.length = (IMU.run L evs m).gyroTimestampFifo.items.length
      ∧ (∀ v t, (v, t) ∈ List.zip (IMU.run L evs m).gyroFifo.items
            (IMU.run L evs m).gyroTimestampFifo.items →
          ∃ e, IMU.Event.tick e ∈ evs ∧ v = IMU.gyroOf e ∧ t = e.micros)
      ∧ (IMU.run L evs m).accelFifo.items.length
          = (IMU.run L evs m).accelTimestampFifo.items.length
      ∧ (∀ v t, (v, t) ∈ List.zip (IMU.run L evs m).accelFifo.items
            (IMU.run L evs m).accelTimestampFifo.items →
          ∃ e, IMU.Event.tick e ∈ evs ∧ v = IMU.accelOf e ∧ t = e.micros)
      ∧ (IMU.run L evs m).magFifo.items.length = (IMU.run L evs m).magTimestampFifo.items.length
      ∧ (∀ v t, (v, t) ∈ List.zip (IMU.run L evs m).magFifo.items
            (IMU.run L evs m).magTimestampFifo.items →
          ∃ e, IMU.Event.tick e ∈ evs ∧ v = IMU.magOf e ∧ t = e.micros))
    ∧ (∀ p,
        ((ADS1115Driver.ticks toVoltage es s).voltageFifo_ p).items.length
          = ((ADS1115Driver.ticks toVoltage es s).voltageTimestampFifo_ p).items.length
        ∧ (∀ v t, (v, t) ∈ List.zip ((ADS1115Driver.ticks toVoltage es s).voltageFifo_ p).items
              ((ADS1115Driver.ticks toVoltage es s).voltageTimestampFifo_ p).items →
            ∃ e, e ∈ es ∧ v = toVoltage e.getValue ∧ t = e.micros)) := by
  constructor
  · obtain ⟨m1, m2, m3, m4, m5, m6⟩ := hm
    have h0 : IMU.Lockstep
        (fun v t => ∃ e, IMU.Event.tick e ∈ evs ∧ v = IMU.gyroOf e ∧ t = e.micros)
        (fun v t => ∃ e, IMU.Event.tick e ∈ evs ∧ v = IMU.accelOf e ∧ t = e.micros)
        (fun v t => ∃ e, IMU.Event.tick e ∈ evs ∧ v = IMU.magOf e ∧ t = e.micros) m := by
      unfold IMU.Lockstep
      rw [m1, m2, m3, m4, m5, m6]
      exact ⟨List.Forall₂.nil, List.Forall₂.nil, List.Forall₂.nil⟩
    obtain ⟨r1, r2, r3⟩ := IMU.run_lockstep L _ _ _ evs m h0
      (fun e he => ⟨⟨e, he, rfl, rfl⟩, ⟨e, he, rfl, rfl⟩, ⟨e, he, rfl, rfl⟩⟩)
    exact ⟨r1.length_eq, fun v t hvt => List.forall₂_zip r1 hvt,
      r2.length_eq, fun v t hvt => List.forall₂_zip r2 hvt,
      r3.length_eq, fun v t hvt => List.forall₂_zip r3 hvt⟩
  · intro p
    have h0 : ADS1115Driver.Lockstep
        (fun v t => ∃ e, e ∈ es ∧ v = toVoltage e.getValue ∧ t = e.micros) s := by
      intro q
      rw [(hs q).1, (hs q).2]
      exact List.Forall₂.nil
    have r := ADS1115Driver.ticks_lockstep toVoltage _ es s h0 (fun e he => ⟨e, he, rfl, rfl⟩) p
    exact ⟨r.length_eq, fun v t hvt => List.forall₂_zip r hvt⟩

/-- Witness of C7: the sample run of the IMU leaves one gyro sample and two
accelerometer samples, each with its timestamp; three ticks of the fresh ADC driver
leave one sample with its timestamp for pin 0. -/
theorem buffers_in_lockstep_witness :
    ((IMU.run 1000 IMU.sampleRun IMU.sample).gyroFifo.items.length
        = (IMU.run 1000 IMU.sampleRun IMU.sample).gyroTimestampFifo.items.length
      ∧ (IMU.run 1000 IMU.sampleRun IMU.sample).gyroFifo.items.length = 1)
    ∧ ((IMU.run 1000 IMU.sampleRun IMU.sample).accelFifo.items.length
        = (IMU.run 1000 IMU.sampleRun IMU.sample).accelTimestampFifo.items.length
      ∧ (IMU.run 1000 IMU.sampleRun IMU.sample).accelFifo.items.length = 2)
    ∧ (((ADS1115Driver.ticks (fun v => v)
          [ADCTick.good 0 10, ADCTick.good 5 20, ADCTick.good 6 30]
          ADS1115Driver.sample).voltageFifo_ 0).items.length
        = ((ADS1115Driver.ticks (fun v => v)
          [ADCTick.good 0 10, ADCTick.good 5 20, ADCTick.good 6 30]
          ADS1115Driver.sample).voltageTimestampFifo_ 0).items.length
      ∧ ((ADS1115Driver.ticks (fun v => v)
          [ADCTick.good 0 10, ADCTick.good 5 20, ADCTick.good 6 30]
          ADS1115Driver.sample).voltageFifo_ 0).items.length = 1) :=
  have h := buffers_in_lockstep 1000 IMU.sampleRun IMU.sample (fun v => v)
    [ADCTick.good 0 10, ADCTick.good 5 20, ADCTick.good 6 30] ADS1115Driver.sample
    ⟨rfl, rfl, rfl, rfl, rfl, rfl⟩ (fun _ => ⟨rfl, rfl⟩)
  ⟨⟨h.1.1, by decide⟩, ⟨h.1.2.2.1, by decide⟩, ⟨(h.2 0).1, by decide⟩⟩

/-- C8 fails on a reachable list: after `addItem(1)` and `removeItemEnd()` the list
has length 0 but `_chainStart` still holds the address of the deleted node while
`_chainEnd` is null, and the following `addItem(2)` dereferences the null `_chainEnd`
(line 60), so the `removeItem(2)` after it is never reached. -/
theorem c8_addItem_after_removeItemEnd_faults :
    ChainBuffer.build [ChainOp.addItem (1 : Nat), ChainOp.removeItemEnd]
        = .ok (⟨[none]⟩, ⟨some 0, none, 0⟩)
      ∧ ChainBuffer.addItem (2 : Nat) ⟨[none]⟩ ⟨some 0, none, 0⟩ = .error Fault.nullDeref
      ∧ ChainBuffer.build [ChainOp.addItem (1 : Nat), ChainOp.removeItemEnd, ChainOp.addItem 2,
          ChainOp.removeItem 2] = .error Fault.nullDeref := by
  decide

/-- On a list whose `_chainStart` and `_chainEnd` are null, as after construction,
`removeItem` returns false and `removeItem`, `removeItemStart` and `removeItemEnd`
change neither the store nor the list. -/
theorem ChainBuffer.remove_on_null_ends {T : Type} [BEq T] (v : T) (h : Heap T) (n : Nat) :
    ChainBuffer.removeItem v h ⟨none, none, n⟩ = .ok (h, ⟨none, none, n⟩, false)
      ∧ ChainBuffer.removeItemStart h ⟨none, none, n⟩ = .ok (h, ⟨none, none, n⟩)
      ∧ ChainBuffer.removeItemEnd h ⟨none, none, n⟩ = .ok (h, ⟨none, none, n⟩) := by
  refine ⟨?_, rfl, rfl⟩
  cases hc : h.cells <;>
    simp [ChainBuffer.removeItem, ChainBuffer._searchForItem, ChainBuffer._searchForItemLoop,
      ChainBuffer._removeObject, hc, bind, Except.bind, pure, Except.pure]

/-- C9 fails on a list emptied by removing its item: after `addItem(1)` and
`removeItemStart()` (or `removeItem(1)`) the list has length 0 but `_chainEnd` still
holds the address of the deleted node, and `removeItemEnd()` reads that deleted node
(line 108); after `addItem(1)` and `removeItemEnd()` it is `_chainStart` that
dangles, and `removeItemStart()` and `removeItem(5)` read the deleted node. -/
theorem c9_remove_on_emptied_list_faults :
    ChainBuffer.build [ChainOp.addItem (1 : Nat), ChainOp.removeItemStart]
        = .ok (⟨[none]⟩, ⟨none, some 0, 0⟩)
      ∧ ChainBuffer.removeItemEnd (⟨[none]⟩ : Heap Nat) ⟨none, some 0, 0⟩
        = .error Fault.useAfterFree
      ∧ ChainBuffer.build [ChainOp.addItem (1 : Nat), ChainOp.removeItem 1]
        = .ok (⟨[none]⟩, ⟨none, some 0, 0⟩)
      ∧ ChainBuffer.build [ChainOp.addItem (1 : Nat), ChainOp.removeItemEnd]
        = .ok (⟨[none]⟩, ⟨some 0, none, 0⟩)
      ∧ ChainBuffer.removeItemStart (⟨[none]⟩ : Heap Nat) ⟨some 0, none, 0⟩
        = .error Fault.useAfterFree
      ∧ ChainBuffer.removeItem (5 : Nat) ⟨[none]⟩ ⟨some 0, none, 0⟩
        = .error Fault.useAfterFree := by
  decide

/-- C10 fails on every list that is not empty: after `addItem(7)` and `clear()` the
node is deleted and the length is 0, but `_chainStart` and `_chainEnd` still hold
its address; `operator[](0)` then returns a pointer into the deleted node instead
of null, and `searchForItem(7)` reads the deleted node. -/
theorem c10_clear_keeps_head_and_tail :
    ChainBuffer.build [ChainOp.addItem (7 : Nat), ChainOp.clear]
        = .ok (⟨[none]⟩, ⟨some 0, some 0, 0⟩)
      ∧ ChainBuffer.index 0 (⟨[none]⟩ : Heap Nat) ⟨some 0, some 0, 0⟩ = .ok (some 0)
      ∧ ChainBuffer.index 1 (⟨[none]⟩ : Heap Nat) ⟨some 0, some 0, 0⟩
        = .error Fault.useAfterFree
      ∧ ChainBuffer.searchForItem (7 : Nat) ⟨[none]⟩ ⟨some 0, some 0, 0⟩
        = .error Fault.useAfterFree := by
  decide

/-! ### Rate accounting and the acquisition step (claims C18 to C20) -/

namespace ADS1115Driver

variable {V : Type} {N : Nat}

/-- The lifecycle fields and counters after the body of one unblocked tick in status
`Running` with a free bus, and the rate accounting that follows it. -/
theorem thread_acquire_step (toVoltage : Int → V) (e : ADCTick) (s : ADS1115Driver V N)
    (hb : s.block_ = false) (hst : s.moduleStatus_ = eModuleStatus_t.eModuleStatus_Running)
    (hbusy : e.isBusy = false) :
    (thread toVoltage e s).moduleStatus_ = s.moduleStatus_
      ∧ (thread toVoltage e s).startAttempts_ = s.startAttempts_
      ∧ (thread toVoltage e s).block_ = false
      ∧ (thread toVoltage e s).currentPin_ =
          (if 4 ≤ (s.currentPin_ + 1) % UINT8 then 0 else (s.currentPin_ + 1) % UINT8)
      ∧ (thread toVoltage e s).adc_ =
          { s.adc_ with requests :=
              (if 4 ≤ (s.currentPin_ + 1) % UINT8 then 0 else (s.currentPin_ + 1) % UINT8)
                :: s.adc_.requests }
      ∧ (thread toVoltage e s).adcCounter_ =
          (if (s._rateCalcInterval.isTimeToRun e.microsRateCalc).1 = true then 0
           else (s.adcCounter_ + 1) % UINT32)
      ∧ (thread toVoltage e s).adcRate_ =
          (if (s._rateCalcInterval.isTimeToRun e.microsRateCalc).1 = true
           then (s.adcCounter_ + 1) % UINT32 else s.adcRate_)
      ∧ (thread toVoltage e s).loopCounter_ =
          (if (s._rateCalcInterval.isTimeToRun e.microsRateCalc).1 = true then 0
           else (s.loopCounter_ + 1) % UINT32)
      ∧ (thread toVoltage e s).loopRate_ =
          (if (s._rateCalcInterval.isTimeToRun e.microsRateCalc).1 = true
           then (s.loopCounter_ + 1) % UINT32 else s.loopRate_) := by
  by_cases h4 : 4 ≤ (s.currentPin_ + 1) % UINT8 <;>
    by_cases hr : (s._rateCalcInterval.isTimeToRun e.microsRateCalc).1 = true <;>
    simp [thread, _getData, hb, hst, hbusy, h4, hr]

/-- The counters and rates after one unblocked tick in which no acquisition is made
(status not `Running`, or the bus busy). -/
theorem thread_idle_rates (toVoltage : Int → V) (e : ADCTick) (s : ADS1115Driver V N)
    (hb : s.block_ = false)
    (hidle : s.moduleStatus_ ≠ eModuleStatus_t.eModuleStatus_Running ∨ e.isBusy = true) :
    (thread toVoltage e s).adcCounter_ =
          (if (s._rateCalcInterval.isTimeToRun e.microsRateCalc).1 = true then 0
           else s.adcCounter_)
      ∧ (thread toVoltage e s).adcRate_ =
          (if (s._rateCalcInterval.isTimeToRun e.microsRateCalc).1 = true
           then s.adcCounter_ else s.adcRate_)
      ∧ (thread toVoltage e s).loopCounter_ =
          (if (s._rateCalcInterval.isTimeToRun e.microsRateCalc).1 = true then 0
           else (s.loopCounter_ + 1) % UINT32)
      ∧ ((s._rateCalcInterval.isTimeToRun e.microsRateCalc).1 = true →
          (thread toVoltage e s).loopRate_ = (s.loopCounter_ + 1) % UINT32) := by
  by_cases hr : (s._rateCalcInterval.isTimeToRun e.microsRateCalc).1 = true <;>
  by_cases hst : s.moduleStatus_ = eModuleStatus_t.eModuleStatus_Running
  · have hbusy : e.isBusy = true := by
      rcases hidle with h | h
      · exact absurd hst h
      · exact h
    simp [thread, _getData, hb, hst, hbusy, hr]
  · by_cases h2 : s.moduleStatus_ = eModuleStatus_t.eModuleStatus_NotStarted
        ∨ s.moduleStatus_ = eModuleStatus_t.eModuleStatus_RestartAttempt <;>
      by_cases hc : 0 < e.startCode <;>
      by_cases h5 : 5 ≤ (s.startAttempts_ + 1) % UINT8 <;>
      simp [thread, init, hb, hst, h2, hc, h5, hr]
  · have hbusy : e.isBusy = true := by
      rcases hidle with h | h
      · exact absurd hst h
      · exact h
    simp [thread, _getData, hb, hst, hbusy, hr]
  · by_cases h2 : s.moduleStatus_ = eModuleStatus_t.eModuleStatus_NotStarted
        ∨ s.moduleStatus_ = eModuleStatus_t.eModuleStatus_RestartAttempt <;>
      by_cases hc : 0 < e.startCode <;>
      by_cases h5 : 5 ≤ (s.startAttempts_ + 1) % UINT8 <;>
      simp [thread, init, hb, hst, h2, hc, h5, hr]

end ADS1115Driver

namespace IMU

open DeviceStatus

variable {T : Type}

/-- The start branch leaves the counters, the rates and the rate calculation interval
as they are. -/
theorem start_counters (L : Nat) (e : IMUTick T) (s : IMU T) :
    (start L e s).gyroCounter = s.gyroCounter
      ∧ (start L e s).rateCalcInterval = s.rateCalcInterval
      ∧ (start L e s).loopCounter = s.loopCounter
      ∧ (start L e s).gyroRate = s.gyroRate
      ∧ (start L e s).loopRate = s.loopRate := by
  unfold start
  by_cases hc : 0 < e.startCode
  · simp only [hc, if_true]
    split <;> exact ⟨rfl, rfl, rfl, rfl, rfl⟩
  · simp only [hc, if_false]
    split <;> exact ⟨rfl, rfl, rfl, rfl, rfl⟩

/-- The counters and rates after the rate accounting. -/
theorem rateCalc_fields (now : Nat) (s : IMU T) :
    (rateCalc now s).gyroCounter =
        (if (s.rateCalcInterval.isTimeToRun now).1 = true then 0 else s.gyroCounter)
      ∧ (rateCalc now s).gyroRate =
        (if (s.rateCalcInterval.isTimeToRun now).1 = true then s.gyroCounter else s.gyroRate)
      ∧ (rateCalc now s).loopCounter =
        (if (s.rateCalcInterval.isTimeToRun now).1 = true then 0 else s.loopCounter)
      ∧ (rateCalc now s).loopRate =
        (if (s.rateCalcInterval.isTimeToRun now).1 = true then s.loopCounter else s.loopRate)
      ∧ (rateCalc now s).imuStatus = s.imuStatus
      ∧ (rateCalc now s).imuInterval = s.imuInterval := by
  unfold rateCalc
  by_cases hq : (s.rateCalcInterval.isTimeToRun now).1 = true <;> simp [hq]

variable [BEq T] [Neg T]

/-- Reading the sensor counts a gyro sample exactly when the data pending flag is
set and the reading differs from `lastGyro`; it leaves the loop counter, the rates
and the rate calculation interval as they are. -/
theorem readData_counters (e : IMUTick T) (s : IMU T) :
    (readData e s).gyroCounter =
        (if s.newDataInterrupt = true ∧ s.lastGyro.ne (gyroOf e) = true
         then (s.gyroCounter + 1) % UINT32 else s.gyroCounter)
      ∧ (readData e s).rateCalcInterval = s.rateCalcInterval
      ∧ (readData e s).loopCounter = s.loopCounter
      ∧ (readData e s).gyroRate = s.gyroRate
      ∧ (readData e s).loopRate = s.loopRate := by
  unfold readData gyroOf
  by_cases hn : s.newDataInterrupt = true
  · by_cases hg : s.lastGyro.ne ⟨-e.getGyroX_rads, -e.getGyroY_rads, e.getGyroZ_rads⟩ = true
    · simp only [hn, hg, if_true, true_and]
      split_ifs <;> exact ⟨rfl, rfl, rfl, rfl, rfl⟩
    · simp only [hn, hg, if_true, true_and]
      split_ifs <;> exact ⟨rfl, rfl, rfl, rfl, rfl⟩
  · simp only [hn, false_and, if_false]
    exact ⟨rfl, rfl, rfl, rfl, rfl⟩

/-- A tick that runs is the gate, the branch on the status and the rate accounting,
one after the other. -/
theorem deviceThread_eq_parts (L : Nat) (e : IMUTick T) (s : IMU T) (hr : runs e s = true) :
    deviceThread L e s =
      rateCalc e.microsRateCalc (body L e
        { s with imuInterval := (s.imuInterval.isTimeToRun e.microsInterval).2,
                 loopCounter := (s.loopCounter + 1) % UINT32 }) := by
  unfold runs at hr
  simp only [deviceThread, rateCalc, body, hr]
  rfl

/-- The counters after the branch on the status. -/
theorem body_counters (L : Nat) (e : IMUTick T) (s : IMU T) :
    (body L e s).gyroCounter =
        (if s.imuStatus = DEVICE_RUNNING ∧ s.newDataInterrupt = true
            ∧ s.lastGyro.ne (gyroOf e) = true
         then (s.gyroCounter + 1) % UINT32 else s.gyroCounter)
      ∧ (body L e s).rateCalcInterval = s.rateCalcInterval
      ∧ (body L e s).loopCounter = s.loopCounter
      ∧ (body L e s).gyroRate = s.gyroRate := by
  unfold body
  by_cases hst : s.imuStatus = DEVICE_RUNNING
  · obtain ⟨r1, r2, r3, r4, _⟩ := readData_counters e s
    simp only [hst, if_true, true_and]
    exact ⟨r1, r2, r3, r4⟩
  · by_cases h2 : s.imuStatus = DEVICE_NOT_STARTED ∨ s.imuStatus = DEVICE_RESTARTATTEMPT
    · obtain ⟨r1, r2, r3, r4, _⟩ := start_counters L e s
      simp only [hst, h2, if_true, if_false, false_and]
      exact ⟨r1, r2, r3, r4⟩
    · by_cases h3 : s.imuStatus = DEVICE_CALIBRATING
      · simp [hst, h2, h3]
      · simp [hst, h2, h3]

end IMU

open eModuleStatus_t DeviceStatus in
/-- C18: on every unblocked tick of `ADS1115Driver::thread` (and every tick of
`IMU::deviceThread` that its interval lets run) at whose end the rate calculation
interval fires, the loop rate is set to the loop counter's value (counting this
tick), the data rate is set to the acquisition counter's value (counting an
acquisition made in this tick), and both counters are reset to 0; on a tick where
the interval does not fire, the data rate is unchanged and neither counter is
reset. -/
theorem rate_accounting {V T : Type} {N : Nat} [BEq T] [Neg T]
    (toVoltage : Int → V) (e : ADCTick) (s : ADS1115Driver V N)
    (L : Nat) (i : IMUTick T) (m : IMU T)
    (hb : s.block_ = false) (hr : IMU.runs i m = true) :
    (((s._rateCalcInterval.isTimeToRun e.microsRateCalc).1 = true →
        (ADS1115Driver.thread toVoltage e s).loopRate_ = (s.loopCounter_ + 1) % UINT32
        ∧ (ADS1115Driver.thread toVoltage e s).adcRate_ =
            (if s.moduleStatus_ = eModuleStatus_Running ∧ e.isBusy = false
             then (s.adcCounter_ + 1) % UINT32 else s.adcCounter_)
        ∧ (ADS1115Driver.thread toVoltage e s).adcCounter_ = 0
        ∧ (ADS1115Driver.thread toVoltage e s).loopCounter_ = 0)
      ∧ ((s._rateCalcInterval.isTimeToRun e.microsRateCalc).1 = false →
        (ADS1115Driver.thread toVoltage e s).adcRate_ = s.adcRate_
        ∧ (ADS1115Driver.thread toVoltage e s).adcCounter_ =
            (if s.moduleStatus_ = eModuleStatus_Running ∧ e.isBusy = false
             then (s.adcCounter_ + 1) % UINT32 else s.adcCounter_)
        ∧ (ADS1115Driver.thread toVoltage e s).loopCounter_ = (s.loopCounter_ + 1) % UINT32))
    ∧ (((m.rateCalcInterval.isTimeToRun i.microsRateCalc).1 = true →
        (IMU.deviceThread L i m).loopRate = (m.loopCounter + 1) % UINT32
        ∧ (IMU.deviceThread L i m).gyroRate =
            (if m.imuStatus = DEVICE_RUNNING ∧ m.newDataInterrupt = true
                ∧ m.lastGyro.ne (IMU.gyroOf i) = true
             then (m.gyroCounter + 1) % UINT32 else m.gyroCounter)
        ∧ (IMU.deviceThread L i m).gyroCounter = 0
        ∧ (IMU.deviceThread L i m).loopCounter = 0)
      ∧ ((m.rateCalcInterval.isTimeToRun i.microsRateCalc).1 = false →
        (IMU.deviceThread L i m).gyroRate = m.gyroRate
        ∧ (IMU.deviceThread L i m).gyroCounter =
            (if m.imuStatus = DEVICE_RUNNING ∧ m.newDataInterrupt = true
                ∧ m.lastGyro.ne (IMU.gyroOf i) = true
             then (m.gyroCounter + 1) % UINT32 else m.gyroCounter)
        ∧ (IMU.deviceThread L i m).loopCounter = (m.loopCounter + 1) % UINT32)) := by
  constructor
  · by_cases hacq : s.moduleStatus_ = eModuleStatus_Running ∧ e.isBusy = false
    · obtain ⟨_, _, _, _, _, a1, a2, a3, a4⟩ :=
        ADS1115Driver.thread_acquire_step toVoltage e s hb hacq.1 hacq.2
      rw [a1, a2, a3, a4, if_pos hacq]
      exact ⟨fun hf => by simp [hf], fun hf => by simp [hf]⟩
    · have hidle : s.moduleStatus_ ≠ eModuleStatus_Running ∨ e.isBusy = true := by
        by_cases h1 : s.moduleStatus_ = eModuleStatus_Running
        · right
          cases hbz : e.isBusy
          · exact absurd ⟨h1, hbz⟩ hacq
          · rfl
        · exact Or.inl h1
      obtain ⟨a1, a2, a3, a4⟩ := ADS1115Driver.thread_idle_rates toVoltage e s hb hidle
      rw [a1, a2, a3, if_neg hacq]
      exact ⟨fun hf => ⟨a4 hf, by simp [hf]⟩, fun hf => by simp [hf]⟩
  · rw [IMU.deviceThread_eq_parts L i m hr]
    obtain ⟨b1, b2, b3, b4⟩ := IMU.body_counters L i
      { m with imuInterval := (m.imuInterval.isTimeToRun i.microsInterval).2,
               loopCounter := (m.loopCounter + 1) % UINT32 }
    obtain ⟨r1, r2, r3, r4, _⟩ := IMU.rateCalc_fields i.microsRateCalc (IMU.body L i
      { m with imuInterval := (m.imuInterval.isTimeToRun i.microsInterval).2,
               loopCounter := (m.loopCounter + 1) % UINT32 })
    rw [r1, r2, r3, r4, b1, b2, b3, b4]
    exact ⟨fun hf => by simp [hf], fun hf => by simp [hf]⟩

/-- Witness of C18: an acquisition tick of the running sample driver on which the
rate calculation interval fires, and a tick of the fresh IMU on which it does not. -/
theorem rate_accounting_witness :
    ((ADS1115Driver.thread (fun v => v) (ADCTick.good 9 1000000)
          ADS1115Driver.sampleRunning).loopRate_ = 4
      ∧ (ADS1115Driver.thread (fun v => v) (ADCTick.good 9 1000000)
          ADS1115Driver.sampleRunning).adcRate_ = 3
      ∧ (ADS1115Driver.thread (fun v => v) (ADCTick.good 9 1000000)
          ADS1115Driver.sampleRunning).adcCounter_ = 0
      ∧ (ADS1115Driver.thread (fun v => v) (ADCTick.good 9 1000000)
          ADS1115Driver.sampleRunning).loopCounter_ = 0)
    ∧ ((IMU.deviceThread 1000 IMUTick.failing IMU.sample).gyroRate = 0
      ∧ (IMU.deviceThread 1000 IMUTick.failing IMU.sample).gyroCounter = 0
      ∧ (IMU.deviceThread 1000 IMUTick.failing IMU.sample).loopCounter = 1) :=
  have h := rate_accounting (fun v => v) (ADCTick.good 9 1000000) ADS1115Driver.sampleRunning
    1000 IMUTick.failing IMU.sample (by decide) (by decide)
  ⟨h.1.1 (by decide), h.2.2 (by decide)⟩

/-- The items of a `Fifo` after `placeFront` with `overwrite` set: the new value in
front of the old items, cut to the capacity. -/
theorem Fifo.placeFront_items {A : Type} {N : Nat} (f : Fifo A N) (x : A) :
    (f.placeFront x true).items = (x :: f.items).take N := by
  unfold Fifo.placeFront
  by_cases hl : f.items.length < N
  · simp only [hl, if_true]
    exact (List.take_of_length_le (by simpa using hl)).symm
  · simp [hl]

open eModuleStatus_t in
/-- C19 as stated fails: on the running sample driver (`adcCounter_ = 2`) an
acquisition tick on which the rate calculation interval fires leaves `adcCounter_`
at 0, not at 3; and a driver in status `Running` whose `block_` is set (a state no
run of the driver reaches) ignores the tick. -/
theorem c19_acquisition_tick_resets_adcCounter :
    ADS1115Driver.sampleRunning.moduleStatus_ = eModuleStatus_Running
      ∧ ADS1115Driver.sampleRunning.currentPin_ = 2
      ∧ ADS1115Driver.sampleRunning.adcCounter_ = 2
      ∧ (ADCTick.good 9 1000000).isBusy = false
      ∧ (ADS1115Driver.thread (fun v => v) (ADCTick.good 9 1000000)
          ADS1115Driver.sampleRunning).adcCounter_ = 0
      ∧ (ADS1115Driver.thread (fun v => v) (ADCTick.good 9 40)
          { ADS1115Driver.sampleRunning with block_ := true }).adcCounter_ = 2
      ∧ (ADS1115Driver.thread (fun v => v) (ADCTick.good 9 40)
          { ADS1115Driver.sampleRunning with block_ := true }).currentPin_ = 2 := by
  decide

open eModuleStatus_t in
/-- C19 (amended): for every unblocked `ADS1115Driver` state with status `Running`,
`currentPin_ = p < 4` and the bus not busy, one tick pushes exactly one timestamp
(the current clock value) into channel `p`'s timestamp buffer and exactly one
voltage (the conversion of the device's read value) into channel `p`'s value buffer
(the oldest entry leaves a full buffer), leaves the buffers of every other channel
unchanged, sets `currentPin_` to `(p+1) mod 4` and requests a conversion of that new
pin; the status and `startAttempts_` are unchanged and `currentPin_` stays below 4.
The acquisition is counted: `adcCounter_` becomes `adcCounter_ + 1` (modulo `2^32`)
when the rate calculation interval does not fire on that tick; when it fires, that
count goes to `adcRate_` and `adcCounter_` is reset to 0. -/
theorem running_acquisition_step {V : Type} {N : Nat} (toVoltage : Int → V) (e : ADCTick)
    (s : ADS1115Driver V N) (p : Nat)
    (hb : s.block_ = false) (hst : s.moduleStatus_ = eModuleStatus_Running)
    (hp : s.currentPin_ = p) (hp4 : p < 4) (hbusy : e.isBusy = false) :
    ((ADS1115Driver.thread toVoltage e s).voltageTimestampFifo_ p).items
        = (e.micros :: (s.voltageTimestampFifo_ p).items).take N
      ∧ ((ADS1115Driver.thread toVoltage e s).voltageFifo_ p).items
        = (toVoltage e.getValue :: (s.voltageFifo_ p).items).take N
      ∧ (∀ q, q ≠ p →
          (ADS1115Driver.thread toVoltage e s).voltageTimestampFifo_ q
            = s.voltageTimestampFifo_ q
          ∧ (ADS1115Driver.thread toVoltage e s).voltageFifo_ q = s.voltageFifo_ q)
      ∧ (ADS1115Driver.thread toVoltage e s).currentPin_ = (p + 1) % 4
      ∧ (ADS1115Driver.thread toVoltage e s).currentPin_ < 4
      ∧ (ADS1115Driver.thread toVoltage e s).adc_.requests = (p + 1) % 4 :: s.adc_.requests
      ∧ (ADS1115Driver.thread toVoltage e s).adc_.beginCalls = s.adc_.beginCalls
      ∧ (ADS1115Driver.thread toVoltage e s).moduleStatus_ = eModuleStatus_Running
      ∧ (ADS1115Driver.thread toVoltage e s).startAttempts_ = s.startAttempts_
      ∧ (ADS1115Driver.thread toVoltage e s).adcCounter_ =
          (if (s._rateCalcInterval.isTimeToRun e.microsRateCalc).1 = true then 0
           else (s.adcCounter_ + 1) % UINT32)
      ∧ (ADS1115Driver.thread toVoltage e s).adcRate_ =
          (if (s._rateCalcInterval.isTimeToRun e.microsRateCalc).1 = true
           then (s.adcCounter_ + 1) % UINT32 else s.adcRate_) := by
  obtain ⟨a1, a2, _, a4, a5, a6, a7, _, _⟩ :=
    ADS1115Driver.thread_acquire_step toVoltage e s hb hst hbusy
  obtain ⟨f1, f2⟩ := ADS1115Driver.thread_fifos toVoltage e s
  have hcond : s.block_ = false ∧ s.moduleStatus_ = eModuleStatus_Running ∧ e.isBusy = false :=
    ⟨hb, hst, hbusy⟩
  rw [if_pos hcond] at f1 f2
  have hpin : (if 4 ≤ (s.currentPin_ + 1) % UINT8 then 0 else (s.currentPin_ + 1) % UINT8)
      = (p + 1) % 4 := by
    rw [hp]
    have h4 : p = 0 ∨ p = 1 ∨ p = 2 ∨ p = 3 := by omega
    rcases h4 with h | h | h | h <;> subst h <;> decide
  rw [hpin] at a4 a5
  refine ⟨?_, ?_, fun q hq => ?_, a4, ?_, ?_, ?_, by rw [a1, hst], a2, a6, a7⟩
  · rw [f2, hp, Function.update_same, Fifo.placeFront_items]
  · rw [f1, hp, Function.update_same, Fifo.placeFront_items]
  · rw [f1, f2, hp, Function.update_noteq hq, Function.update_noteq hq]
    exact ⟨rfl, rfl⟩
  · rw [a4]
    exact Nat.mod_lt _ (by decide)
  · rw [a5]
  · rw [a5]

/-- Witness of C19 (amended): an acquisition tick of the running sample driver, on
pin 2. -/
theorem running_acquisition_step_witness :
    ((ADS1115Driver.thread (fun v => v) (ADCTick.good 9 40)
          ADS1115Driver.sampleRunning).voltageTimestampFifo_ 2).items
        = ((ADCTick.good 9 40).micros
            :: (ADS1115Driver.sampleRunning.voltageTimestampFifo_ 2).items).take 10
      ∧ ((ADS1115Driver.thread (fun v => v) (ADCTick.good 9 40)
          ADS1115Driver.sampleRunning).voltageFifo_ 2).items
        = ((ADCTick.good 9 40).getValue
            :: (ADS1115Driver.sampleRunning.voltageFifo_ 2).items).take 10
      ∧ (ADS1115Driver.thread (fun v => v) (ADCTick.good 9 40)
          ADS1115Driver.sampleRunning).currentPin_ = (2 + 1) % 4
      ∧ ((ADS1115Driver.thread (fun v => v) (ADCTick.good 9 40)
          ADS1115Driver.sampleRunning).voltageFifo_ 2).items = [9] :=
  have h := running_acquisition_step (fun v => v) (ADCTick.good 9 40)
    ADS1115Driver.sampleRunning 2 (by decide) (by decide) (by decide) (by decide) (by decide)
  ⟨h.1, h.2.1, h.2.2.2.1, by decide⟩

open eModuleStatus_t DeviceStatus in
/-- C20 fails when the rate calculation interval fires on the tick that handles the
failure: the unblocked sample driver in status `Failure` (`loopCounter_ = 5`) sets
`loopRate_ = 0` in the failure branch, and the rate accounting of the same tick
overwrites it with `loopCounter_ = 6`; the driver is blocked from then on and
`loopRate_` stays 6 (on a tick on which the interval does not fire, `loopRate_` is
0).  The same holds for `IMU::deviceThread`. -/
theorem c20_loop_rate_overwritten_in_failure :
    ADS1115Driver.sampleFailed.moduleStatus_ = eModuleStatus_Failure
      ∧ ADS1115Driver.sampleFailed.block_ = false
      ∧ (ADS1115Driver.thread (fun v => v) (ADCTick.busy 1000000)
          ADS1115Driver.sampleFailed).loopRate_ = 6
      ∧ (ADS1115Driver.thread (fun v => v) (ADCTick.busy 1000000)
          ADS1115Driver.sampleFailed).block_ = true
      ∧ (ADS1115Driver.thread (fun v => v) (ADCTick.busy 500)
          ADS1115Driver.sampleFailed).loopRate_ = 0
      ∧ (ADS1115Driver.ticks (fun v => v)
          [ADCTick.busy 1000000, ADCTick.busy 3000000, ADCTick.good 1 5000000]
          ADS1115Driver.sampleFailed).loopRate_ = 6
      ∧ IMU.sampleFailed.imuStatus = DEVICE_FAILURE
      ∧ IMU.sampleFailed.imuInterval.blocked = false
      ∧ (IMU.deviceThread 1000 (IMUTick.good 0 1000000) IMU.sampleFailed).loopRate = 6
      ∧ (IMU.deviceThread 1000 (IMUTick.good 0 1000000)
          IMU.sampleFailed).imuInterval.blocked = true
      ∧ (IMU.ticks 1000 [IMUTick.good 0 1000000, IMUTick.good 0 3000000,
          IMUTick.good 0 5000000] IMU.sampleFailed).loopRate = 6 := by
  decide

/-! ### Vectors and guidance (claims C15 to C17) -/

/-- The square root of 25 in `ℚ`. -/
theorem rat_sqrt_25 : Rat.sqrt 25 = 5 := by
  rw [show (25 : ℚ) = 5 * 5 by norm_num, Rat.sqrt_eq]
  norm_num

/-- C15: `normalize()` applied to the vector (0,0,0) yields (0,0,0) and performs no
division; more generally every division `normalize()` performs has the magnitude as
its divisor and that magnitude is non-zero.  The scalar type is any type on which
the square root of `0*0 + 0*0 + 0*0` is 0 and `0 == 0` holds, as for `float`. -/
theorem normalize_zero_safe {T : Type} [Zero T] [Add T] [Mul T] [Div T] [BEq T]
    (sqrt : T → T) (v : Vector T)
    (hsqrt : sqrt (0 * 0 + 0 * 0 + 0 * 0) = 0) (hrefl : ((0 : T) == 0) = true) :
    Vector.normalize sqrt (⟨0, 0, 0⟩ : Vector T) = (⟨0, 0, 0⟩, [])
      ∧ (∀ d ∈ (Vector.normalize sqrt v).2,
          d = Vector.magnitude sqrt v ∧ (d != 0) = true)
      ∧ ((Vector.magnitude sqrt v != 0) = false →
          Vector.normalize sqrt v = (⟨0, 0, 0⟩, [])) := by
  refine ⟨?_, ?_, ?_⟩
  · have hm : Vector.magnitude sqrt (⟨0, 0, 0⟩ : Vector T) = 0 := by
      simp only [Vector.magnitude, hsqrt, hrefl, if_true]
    simp only [Vector.normalize, hm, bne, hrefl, Bool.not_true]
    rfl
  · intro d hd
    unfold Vector.normalize at hd
    by_cases hz : (Vector.magnitude sqrt v != 0) = true
    · simp only [hz, if_true, List.mem_cons, List.mem_singleton, or_self,
        List.not_mem_nil, or_false] at hd
      rw [hd]
      exact ⟨rfl, hz⟩
    · simp only [hz] at hd
      simp at hd
  · intro hz
    simp [Vector.normalize, hz]

/-- Witness of C15 over the rationals, at the vector (3,4,0) of magnitude 5. -/
theorem normalize_zero_safe_witness :
    Vector.normalize Rat.sqrt (⟨0, 0, 0⟩ : Vector ℚ) = (⟨0, 0, 0⟩, [])
      ∧ (Vector.normalize Rat.sqrt (⟨3, 4, 0⟩ : Vector ℚ)).2 = [5, 5, 5]
      ∧ ((5 : ℚ) = Vector.magnitude Rat.sqrt (⟨3, 4, 0⟩ : Vector ℚ) ∧ ((5 : ℚ) != 0) = true) :=
  have hl : (Vector.normalize Rat.sqrt (⟨3, 4, 0⟩ : Vector ℚ)).2 = [5, 5, 5] := by
    norm_num [Vector.normalize, Vector.magnitude, rat_sqrt_25]
  have h := normalize_zero_safe Rat.sqrt (⟨3, 4, 0⟩ : Vector ℚ) (by simp) (by simp)
  ⟨h.1, hl, h.2.1 5 (by rw [hl]; simp)⟩

/-- C16 fails: `getProjectionOn` multiplies component by component.  Projecting
(1,0,0) onto (1,1,0) over the reals gives (1/2, 0, 0), not (1/2, 1/2, 0); over the
rationals, projecting (1,0,0) onto (3,4,0) gives (9/25, 0, 0), while
`((a·b)/(b·b))·b` is (9/25, 12/25, 0). -/
theorem c16_projection_is_componentwise :
    (Vector.getProjectionOn Real.sqrt (⟨1, 0, 0⟩ : Vector ℝ) ⟨1, 1, 0⟩).y = 0
      ∧ (Vector.getProjectionOn Real.sqrt (⟨1, 0, 0⟩ : Vector ℝ) ⟨1, 1, 0⟩).x = 1 / 2
      ∧ Vector.getProjectionOn Rat.sqrt (⟨1, 0, 0⟩ : Vector ℚ) ⟨3, 4, 0⟩ = ⟨9 / 25, 0, 0⟩
      ∧ (⟨3, 4, 0⟩ : Vector ℚ).scale
          (Vector.dot (⟨1, 0, 0⟩ : Vector ℚ) ⟨3, 4, 0⟩ / Vector.dot (⟨3, 4, 0⟩ : Vector ℚ) ⟨3, 4, 0⟩)
          = ⟨9 / 25, 12 / 25, 0⟩ := by
  have h2 : Real.sqrt 2 ≠ 0 := by positivity
  have hmag : Vector.magnitude Real.sqrt (⟨1, 1, 0⟩ : Vector ℝ) = Real.sqrt 2 := by
    norm_num [Vector.magnitude]
  refine ⟨?_, ?_, ?_, ?_⟩
  · simp [Vector.getProjectionOn, Vector.mul]
  · simp only [Vector.getProjectionOn, Vector.normalize, hmag, Vector.mul]
    have hne : (Real.sqrt 2 != 0) = true := by simp
    simp only [hne, if_true]
    field_simp
  · norm_num [Vector.getProjectionOn, Vector.normalize, Vector.magnitude, Vector.mul,
      rat_sqrt_25]
  · norm_num [Vector.scale, Vector.dot]

/-- C17: for every mode `m`, `setFlightMode(m)` writes `m` into the external
location supplied at init and changes nothing else (neither in `Guidance` nor at any
other address), a following `getFlightMode()` returns `m`, and `getFlightMode()`
always returns the current content of that shared location, whoever wrote it. -/
theorem flight_mode_through_shared_reference {K : Type} (g : Guidance K) (a : Nat)
    (mem : Nat → FLIGHT_MODE) (m : FLIGHT_MODE) :
    Guidance.setFlightMode m (Guidance.guidanceInit (some a) g) mem
        = .ok (Guidance.guidanceInit (some a) g, Function.update mem a m)
      ∧ (Function.update mem a m) a = m
      ∧ (∀ b, b ≠ a → (Function.update mem a m) b = mem b)
      ∧ Guidance.getFlightMode (Guidance.guidanceInit (some a) g) (Function.update mem a m)
        = .ok m
      ∧ (∀ mem2 : Nat → FLIGHT_MODE,
          Guidance.getFlightMode (Guidance.guidanceInit (some a) g) mem2 = .ok (mem2 a)) := by
  refine ⟨rfl, Function.update_same _ _ _, fun b hb => Function.update_noteq hb _ _, ?_,
    fun _ => rfl⟩
  simp [Guidance.getFlightMode, Guidance.guidanceInit]

/-! ### The chain list (claims C11 to C14) -/

/-- Reading through a pointer to a node that is alive gives that node. -/
theorem Heap.read_of_cell {T : Type} (h : Heap T) (a : Nat) (o : ChainObject T)
    (hc : h.cells[a]? = some (some o)) : h.read (some a) = .ok o := by
  simp [Heap.read, hc]

/-- Writing through a pointer to a node that is alive replaces that node. -/
theorem Heap.write_of_cell {T : Type} (h : Heap T) (a : Nat) (o o1 : ChainObject T)
    (hc : h.cells[a]? = some (some o)) :
    h.write (some a) o1 = .ok ⟨h.cells.set a (some o1)⟩ := by
  simp [Heap.write, hc]

namespace ChainBuffer

variable {T : Type}

/-- The addresses of a chain are addresses of cells of the store. -/
theorem IsChain.lt {h : Heap T} : ∀ {nodes : List (Nat × T)} {prev : Option Nat},
    IsChain h prev nodes → ∀ a ∈ nodes.map Prod.fst, a < h.cells.length := by
  intro nodes
  induction nodes with
  | nil => intro _ _ a ha; simp at ha
  | cons n rest ih =>
    intro prev hch a ha
    obtain ⟨a0, x0⟩ := n
    obtain ⟨h1, h2⟩ := hch
    simp only [List.map_cons, List.mem_cons] at ha
    rcases ha with ha | ha
    · subst ha
      exact (List.getElem?_eq_some.mp h1).1
    · exact ih h2 a ha

/-- A chain only depends on the cells at its addresses. -/
theorem IsChain.congr {h h1 : Heap T} : ∀ {nodes : List (Nat × T)} {prev : Option Nat},
    (∀ a ∈ nodes.map Prod.fst, h1.cells[a]? = h.cells[a]?) →
    IsChain h prev nodes → IsChain h1 prev nodes := by
  intro nodes
  induction nodes with
  | nil => intro _ _ _; trivial
  | cons n rest ih =>
    intro prev hsame hch
    obtain ⟨a0, x0⟩ := n
    obtain ⟨c1, c2⟩ := hch
    refine ⟨?_, ih (fun a ha => hsame a (by simp [ha])) c2⟩
    rw [hsame a0 (by simp)]
    exact c1

/-- The node at position `i` of a chain is alive and holds the item at position
`i`. -/
theorem IsChain.get {h : Heap T} : ∀ {nodes : List (Nat × T)} {prev : Option Nat},
    IsChain h prev nodes → ∀ (i : Nat) (hi : i < nodes.length),
      ∃ o, h.cells[(nodes.get ⟨i, hi⟩).1]? = some (some o)
        ∧ o.item = (nodes.get ⟨i, hi⟩).2 := by
  intro nodes
  induction nodes with
  | nil => intro _ _ i hi; simp at hi
  | cons n rest ih =>
    intro prev hch i hi
    obtain ⟨a0, x0⟩ := n
    obtain ⟨c1, c2⟩ := hch
    cases i with
    | zero => exact ⟨_, c1, rfl⟩
    | succ j => exact ih c2 j (by simpa using hi)

/-- Appending a node to a chain: when the cell at the new address `k` holds the new
node, the last node of the chain points to `k`, and the other cells of the chain are
as before, the longer list of nodes is a chain. -/
theorem IsChain.append {h h1 : Heap T} (k : Nat) (x : T) :
    ∀ {nodes : List (Nat × T)} {prev : Option Nat} (aL : Nat) (xL : T),
    nodes.getLast? = some (aL, xL) →
    IsChain h prev nodes →
    (nodes.map Prod.fst).Nodup →
    h1.cells[k]? = some (some ⟨x, none, some aL⟩) →
    (∀ o, h.cells[aL]? = some (some o) →
      h1.cells[aL]? = some (some { o with nextObject := some k })) →
    (∀ a ∈ nodes.map Prod.fst, a ≠ aL → h1.cells[a]? = h.cells[a]?) →
    IsChain h1 prev (nodes ++ [(k, x)]) := by
  intro nodes
  induction nodes with
  | nil => intro _ _ _ hl; simp at hl
  | cons n rest ih =>
    intro prev aL xL hl hch hnd hk hlast hsame
    obtain ⟨a0, x0⟩ := n
    obtain ⟨c1, c2⟩ := hch
    cases rest with
    | nil =>
      simp only [List.getLast?_singleton, Option.some.injEq, Prod.mk.injEq] at hl
      obtain ⟨rfl, rfl⟩ := hl
      refine ⟨?_, hk, trivial⟩
      have := hlast _ c1
      simpa using this
    | cons n2 rest2 =>
      obtain ⟨a2, x2⟩ := n2
      rw [List.getLast?_cons_cons] at hl
      have hmem : aL ∈ ((a2, x2) :: rest2).map Prod.fst := by
        have := List.mem_of_getLast?_eq_some hl
        exact List.mem_map_of_mem Prod.fst this
      have hne : a0 ≠ aL := by
        intro heq
        rw [List.map_cons, List.nodup_cons] at hnd
        exact hnd.1 (heq ▸ hmem)
      refine ⟨?_, ih aL xL hl c2 ?_ hk hlast (fun a ha hna => hsame a (by simp at ha ⊢; tauto) hna)⟩
      · rw [hsame a0 (by simp) hne]
        simpa using c1
      · rw [List.map_cons, List.nodup_cons] at hnd
        exact hnd.2

/-- The last node of a chain is alive, holds the last item and has no successor. -/
theorem IsChain.last_cell {h : Heap T} : ∀ {nodes : List (Nat × T)} {prev : Option Nat}
    (aL : Nat) (xL : T), nodes.getLast? = some (aL, xL) → IsChain h prev nodes →
    ∃ o, h.cells[aL]? = some (some o) ∧ o.item = xL ∧ o.nextObject = none := by
  intro nodes
  induction nodes with
  | nil => intro _ _ _ hl; simp at hl
  | cons n rest ih =>
    intro prev aL xL hl hch
    obtain ⟨a0, x0⟩ := n
    obtain ⟨c1, c2⟩ := hch
    cases rest with
    | nil =>
      simp only [List.getLast?_singleton, Option.some.injEq, Prod.mk.injEq] at hl
      obtain ⟨rfl, rfl⟩ := hl
      exact ⟨_, c1, rfl, rfl⟩
    | cons n2 rest2 =>
      rw [List.getLast?_cons_cons] at hl
      exact ih aL xL hl c2

/-- `addItem` on a list whose `_chainStart` is null: the new node becomes the head
and the tail. -/
theorem addItem_of_null_start (x : T) (h : Heap T) (b : ChainBuffer)
    (hs : b._chainStart = none) :
    addItem x h b = .ok (⟨h.cells ++ [some ⟨x, none, none⟩]⟩,
      { b with _chainStart := some h.cells.length, _chainEnd := some h.cells.length,
               _numObjects := (b._numObjects + 1) % UINT32 }, some h.cells.length) := by
  simp [addItem, Heap.alloc, hs, pure, Except.pure]

/-- `addItem` on a list whose `_chainStart` is not null and whose `_chainEnd` points
to a node that is alive: the new node is linked behind that node. -/
theorem addItem_of_live_end (x : T) (h : Heap T) (b : ChainBuffer) (a0 aL : Nat)
    (oL : ChainObject T) (hs : b._chainStart = some a0) (he : b._chainEnd = some aL)
    (hc : h.cells[aL]? = some (some oL)) :
    addItem x h b = .ok
      (⟨((h.cells ++ [some (ChainObject.mk x none none)]).set aL
            (some { oL with nextObject := some h.cells.length })).set h.cells.length
          (some (ChainObject.mk x none (some aL)))⟩,
        { b with _chainEnd := some h.cells.length,
                 _numObjects := (b._numObjects + 1) % UINT32 }, some h.cells.length) := by
  have hlt : aL < h.cells.length := (List.getElem?_eq_some.mp hc).1
  have hne : aL ≠ h.cells.length := Nat.ne_of_lt hlt
  have r1 : (⟨h.cells ++ [some (ChainObject.mk x none none)]⟩ : Heap T).cells[aL]? = some (some oL) := by
    show (h.cells ++ [some (ChainObject.mk x none none)])[aL]? = _
    rw [List.getElem?_append_left hlt]; exact hc
  have r2 : (⟨(h.cells ++ [some (ChainObject.mk x none none)]).set aL
      (some { oL with nextObject := some h.cells.length })⟩ : Heap T).cells[h.cells.length]?
      = some (some (ChainObject.mk x none none)) := by
    show ((h.cells ++ [some (ChainObject.mk x none none)]).set aL _)[h.cells.length]? = _
    rw [List.getElem?_set_ne hne, List.getElem?_concat_length]
  simp only [addItem, Heap.alloc, hs, he, ne_eq, not_false_eq_true, if_true, reduceCtorEq,
    bind, Except.bind, Heap.read_of_cell _ _ _ r1, Heap.write_of_cell _ _ _ _ r1,
    Heap.read_of_cell _ _ _ r2, Heap.write_of_cell _ _ _ _ r2, pure, Except.pure]

/-- `addItem` on a well formed list succeeds, returns the address of a new cell, and
leaves a well formed list that holds the old nodes followed by the new one. -/
theorem addItem_wellFormed (x : T) (h : Heap T) (b : ChainBuffer) (nodes : List (Nat × T))
    (hwf : WellFormed h b nodes) :
    ∃ h1 b1, addItem x h b = .ok (h1, b1, some h.cells.length)
      ∧ WellFormed h1 b1 (nodes ++ [(h.cells.length, x)])
      ∧ h1.cells.length = h.cells.length + 1 := by
  obtain ⟨hch, hs, he, hn, hnd⟩ := hwf
  have hlt := IsChain.lt hch
  have hfresh : h.cells.length ∉ nodes.map Prod.fst := fun hm => Nat.lt_irrefl _ (hlt _ hm)
  have hnd2 : ((nodes ++ [(h.cells.length, x)]).map Prod.fst).Nodup := by
    rw [List.map_append, List.map_singleton]
    exact List.nodup_append.mpr ⟨hnd, List.nodup_singleton _, fun a ha hk => by
      rw [List.mem_singleton] at hk
      have hk2 : a = h.cells.length := hk
      rw [hk2] at ha
      exact hfresh ha⟩
  have hnum : (b._numObjects + 1) % UINT32 = (nodes ++ [(h.cells.length, x)]).length % UINT32 := by
    rw [hn, List.length_append, List.length_singleton, Nat.mod_add_mod]
  rcases List.eq_nil_or_concat nodes with hnil | ⟨init, last, hcat⟩
  · subst hnil
    have hs0 : b._chainStart = none := by simpa using hs
    refine ⟨_, _, addItem_of_null_start x h b hs0, ⟨?_, rfl, rfl, hnum, hnd2⟩, by simp⟩
    exact ⟨by simp, trivial⟩
  · obtain ⟨aL, xL⟩ := last
    have hl : nodes.getLast? = some (aL, xL) := by rw [hcat]; simp
    have hne : nodes ≠ [] := by rw [hcat]; simp
    obtain ⟨oL, hc, _, _⟩ := IsChain.last_cell aL xL hl hch
    have haL : aL < h.cells.length := (List.getElem?_eq_some.mp hc).1
    obtain ⟨a0, ha0⟩ : ∃ a0, b._chainStart = some a0 := by
      rw [hs]
      cases nodes with
      | nil => exact absurd rfl hne
      | cons n _ => exact ⟨n.1, rfl⟩
    have he1 : b._chainEnd = some aL := by rw [he, hl]; rfl
    refine ⟨_, _, addItem_of_live_end x h b a0 aL oL ha0 he1 hc, ⟨?_, ?_, ?_, hnum, hnd2⟩,
      by simp⟩
    · refine IsChain.append h.cells.length x aL xL hl hch hnd ?_ ?_ ?_
      · show (((h.cells ++ [some (ChainObject.mk x none none)]).set aL _).set
            h.cells.length _)[h.cells.length]? = _
        rw [List.getElem?_set_self (by simp)]
      · intro o ho
        rw [hc] at ho
        simp only [Option.some.injEq] at ho
        subst ho
        show (((h.cells ++ [some (ChainObject.mk x none none)]).set aL _).set
            h.cells.length _)[aL]? = _
        rw [List.getElem?_set_ne (Nat.ne_of_gt haL), List.getElem?_set_self (by simp; omega)]
      · intro a ha hna
        have hak : a < h.cells.length := hlt a ha
        show (((h.cells ++ [some (ChainObject.mk x none none)]).set aL _).set
            h.cells.length _)[a]? = _
        rw [List.getElem?_set_ne (Nat.ne_of_gt hak), List.getElem?_set_ne (Ne.symm hna),
          List.getElem?_append_left hak]
    · show b._chainStart = _
      rw [hs, List.head?_append_of_ne_nil _ hne]
    · show some h.cells.length = _
      rw [List.getLast?_concat]
      rfl

/-- A freshly constructed list is well formed in every store and holds no node. -/
theorem wellFormed_new (h : Heap T) : WellFormed h {} ([] : List (Nat × T)) :=
  ⟨trivial, rfl, rfl, rfl, List.nodup_nil⟩

/-- Any number of `addItem` on a well formed list succeed and leave a well formed
list that holds the old items followed by the added ones. -/
theorem addItems_wellFormed [BEq T] (xs : List T) :
    ∀ (h : Heap T) (b : ChainBuffer) (nodes : List (Nat × T)), WellFormed h b nodes →
    ∃ h1 b1 nodes1,
      (xs.map ChainOp.addItem).foldlM (fun st op => apply op st.1 st.2) (h, b) = .ok (h1, b1)
      ∧ WellFormed h1 b1 nodes1
      ∧ nodes1.map Prod.snd = nodes.map Prod.snd ++ xs := by
  induction xs with
  | nil => intro h b nodes hwf; exact ⟨h, b, nodes, rfl, hwf, by simp⟩
  | cons x xs ih =>
    intro h b nodes hwf
    obtain ⟨h1, b1, hadd, hwf1, _⟩ := addItem_wellFormed x h b nodes hwf
    obtain ⟨h2, b2, nodes2, hrun, hwf2, hitems⟩ := ih h1 b1 _ hwf1
    refine ⟨h2, b2, nodes2, ?_, hwf2, by simp [hitems]⟩
    simp only [List.map_cons, List.foldlM_cons, apply, hadd, bind, Except.bind, pure,
      Except.pure]
    exact hrun

/-- The loop of `operator[]` on a chain: after `i` turns the pointer is at the node
at position `i`, or null when the chain has no such position. -/
theorem indexLoop_of_chain {h : Heap T} : ∀ (i : Nat) {nodes : List (Nat × T)}
    {prev : Option Nat}, IsChain h prev nodes →
    indexLoop h i (nodes.head?.map Prod.fst) = .ok (nodes[i]?.map Prod.fst) := by
  intro i
  induction i with
  | zero =>
    intro nodes prev _
    cases nodes with
    | nil => rfl
    | cons n rest => simp [indexLoop]
  | succ j ih =>
    intro nodes prev hch
    cases nodes with
    | nil => rfl
    | cons n rest =>
      obtain ⟨a0, x0⟩ := n
      obtain ⟨c1, c2⟩ := hch
      simp only [List.head?_cons, Option.map_some', indexLoop, Heap.read_of_cell _ _ _ c1,
        bind, Except.bind, List.getElem?_cons_succ]
      exact ih c2

/-- `operator[]` on a well formed list: the pointer to the node at position `i`, or
null when `i` is not a position of the list. -/
theorem index_of_wellFormed (i : Nat) (h : Heap T) (b : ChainBuffer)
    (nodes : List (Nat × T)) (hwf : WellFormed h b nodes) :
    index i h b = .ok (nodes[i]?.map Prod.fst) := by
  unfold index
  rw [hwf.2.1]
  exact indexLoop_of_chain i hwf.1

/-- A well formed list has at most as many nodes as the store has cells. -/
theorem WellFormed.length_le {h : Heap T} {b : ChainBuffer} {nodes : List (Nat × T)}
    (hwf : WellFormed h b nodes) : nodes.length ≤ h.cells.length := by
  have hsub : nodes.map Prod.fst ⊆ List.range h.cells.length :=
    fun a ha => List.mem_range.mpr (IsChain.lt hwf.1 a ha)
  have := (List.subperm_of_subset hwf.2.2.2.2 hsub).length_le
  simpa using this

/-- The loop of `_searchForItem` on a chain none of whose items equals `item`: it
ends at the null pointer after one turn for each node. -/
theorem searchLoop_no_match [BEq T] {h : Heap T} (item : T) :
    ∀ {nodes : List (Nat × T)} {prev : Option Nat} (fuel idx : Nat),
    IsChain h prev nodes → nodes.length ≤ fuel → idx < UINT32 →
    (∀ n ∈ nodes, (n.2 == item) = false) →
    _searchForItemLoop item h fuel (nodes.head?.map Prod.fst) idx
      = .ok (none, (idx + nodes.length) % UINT32) := by
  intro nodes
  induction nodes with
  | nil =>
    intro prev fuel idx _ _ hidx _
    cases fuel <;> simp [_searchForItemLoop, Nat.mod_eq_of_lt hidx]
  | cons n rest ih =>
    intro prev fuel idx hch hfuel hidx hno
    obtain ⟨a0, x0⟩ := n
    obtain ⟨c1, c2⟩ := hch
    cases fuel with
    | zero => simp at hfuel
    | succ f =>
      have hx : (x0 == item) = false := hno (a0, x0) (List.mem_cons_self _ _)
      simp only [List.head?_cons, Option.map_some', _searchForItemLoop,
        Heap.read_of_cell _ _ _ c1, bind, Except.bind, hx]
      rw [if_neg (by simp)]
      rw [ih f ((idx + 1) % UINT32) c2 (by simpa using hfuel)
        (Nat.mod_lt _ (by decide)) (fun n hn => hno n (List.mem_cons_of_mem _ hn))]
      simp only [List.length_cons, Nat.mod_add_mod]
      rw [show idx + 1 + rest.length = idx + (rest.length + 1) by omega]

/-- The loop of `_searchForItem` on a chain whose first node with an item equal to
`item` comes after the nodes `pre`: it ends at that node, after one turn for each
node of `pre`. -/
theorem searchLoop_first_match [BEq T] {h : Heap T} (item : T) (a : Nat) (x : T)
    (post : List (Nat × T)) (hx : (x == item) = true) :
    ∀ {pre : List (Nat × T)} {prev : Option Nat} (fuel idx : Nat),
    IsChain h prev (pre ++ (a, x) :: post) → pre.length < fuel → idx < UINT32 →
    (∀ n ∈ pre, (n.2 == item) = false) →
    _searchForItemLoop item h fuel ((pre ++ (a, x) :: post).head?.map Prod.fst) idx
      = .ok (some a, (idx + pre.length) % UINT32) := by
  intro pre
  induction pre with
  | nil =>
    intro prev fuel idx hch hfuel hidx _
    obtain ⟨c1, _⟩ := hch
    cases fuel with
    | zero => simp at hfuel
    | succ f =>
      simp [_searchForItemLoop, Heap.read_of_cell _ _ _ c1, bind, Except.bind, hx,
        Nat.mod_eq_of_lt hidx, pure, Except.pure]
  | cons n rest ih =>
    intro prev fuel idx hch hfuel hidx hno
    obtain ⟨a0, x0⟩ := n
    have hch2 : IsChain h prev ((a0, x0) :: (rest ++ (a, x) :: post)) := hch
    obtain ⟨c1, c2⟩ := hch2
    cases fuel with
    | zero => simp at hfuel
    | succ f =>
      have hx0 : (x0 == item) = false := hno (a0, x0) (List.mem_cons_self _ _)
      simp only [List.cons_append, List.head?_cons, Option.map_some', _searchForItemLoop,
        Heap.read_of_cell _ _ _ c1, bind, Except.bind, hx0]
      rw [if_neg (by simp)]
      rw [ih f ((idx + 1) % UINT32) c2 (by simpa using hfuel)
        (Nat.mod_lt _ (by decide)) (fun n hn => hno n (List.mem_cons_of_mem _ hn))]
      simp only [List.length_cons, Nat.mod_add_mod]
      rw [show idx + 1 + rest.length = idx + (rest.length + 1) by omega]

/-- A list with an element on which `p` holds splits at the first such element. -/
theorem exists_first {A : Type} (p : A → Bool) : ∀ (l : List A), (∃ n ∈ l, p n = true) →
    ∃ pre x post, l = pre ++ x :: post ∧ p x = true ∧ ∀ y ∈ pre, p y = false := by
  intro l
  induction l with
  | nil => intro ⟨n, hn, _⟩; simp at hn
  | cons y rest ih =>
    intro ⟨n, hn, hpn⟩
    by_cases hy : p y = true
    · exact ⟨[], y, rest, rfl, hy, by simp⟩
    · have hrest : ∃ n ∈ rest, p n = true := by
        rcases List.mem_cons.mp hn with h | h
        · subst h; exact absurd hpn hy
        · exact ⟨n, h, hpn⟩
      obtain ⟨pre, x, post, hsplit, hpx, hpre⟩ := ih hrest
      refine ⟨y :: pre, x, post, by rw [hsplit]; rfl, hpx, ?_⟩
      intro z hz
      rcases List.mem_cons.mp hz with h | h
      · subst h; simpa using hy
      · exact hpre z h

/-- `searchForItem` on a well formed list whose first node with an item equal to
`item` comes after the nodes `pre`. -/
theorem searchForItem_first_match [BEq T] (item : T) (h : Heap T) (b : ChainBuffer)
    (pre post : List (Nat × T)) (a : Nat) (x : T)
    (hwf : WellFormed h b (pre ++ (a, x) :: post)) (hx : (x == item) = true)
    (hno : ∀ n ∈ pre, (n.2 == item) = false) (hlen : pre.length < 2 ^ 31) :
    searchForItem item h b = .ok ((pre.length : Int), true) := by
  have hfuel : pre.length < h.cells.length := by
    have := hwf.length_le
    simp only [List.length_append, List.length_cons] at this
    omega
  unfold searchForItem _searchForItem
  rw [hwf.2.1, searchLoop_first_match item a x post hx h.cells.length 0 hwf.1 hfuel
    (by decide) hno]
  have hU : pre.length < UINT32 := Nat.lt_trans hlen (by decide)
  simp only [Nat.zero_add, Nat.mod_eq_of_lt hU, bind, Except.bind, reduceCtorEq, if_false,
    pure, Except.pure, toInt32, hlen, if_true]

end ChainBuffer

/-- C11 fails on reachable lists: after `addItem(1)` and `removeItemEnd()` the length
is 0 but the head is present and points to a deleted node while the tail is absent;
after `addItem(1)` and `removeItem(1)` (or `removeItemStart()`) the head is absent
but the tail points to the deleted node; after `addItem(1)`, `addItem(2)` and
`clear()` the length is 0 and head and tail point to deleted nodes. -/
theorem c11_end_pointers_dangle :
    ChainBuffer.build [ChainOp.addItem (1 : Nat), ChainOp.removeItemEnd]
        = .ok (⟨[none]⟩, ⟨some 0, none, 0⟩)
      ∧ Heap.live (⟨[none]⟩ : Heap Nat) 0 = false
      ∧ ChainBuffer.build [ChainOp.addItem (1 : Nat), ChainOp.removeItem 1]
        = .ok (⟨[none]⟩, ⟨none, some 0, 0⟩)
      ∧ ChainBuffer.build [ChainOp.addItem (1 : Nat), ChainOp.removeItemStart]
        = .ok (⟨[none]⟩, ⟨none, some 0, 0⟩)
      ∧ ChainBuffer.build [ChainOp.addItem (1 : Nat), ChainOp.addItem 2, ChainOp.clear]
        = .ok (⟨[none, none]⟩, ⟨some 0, some 1, 0⟩)
      ∧ Heap.live (⟨[none, none]⟩ : Heap Nat) 1 = false := by
  decide

/-- C12: for a list built from the empty list by `addItem(x0)`, ...,
`addItem(x(n-1))` (in any store), `operator[](i)` returns a pointer to a stored item that is `xi`
for every `i < n` (insertion order, index 0 the first appended), and returns null
for every `i >= n`, including every `i` on the empty list. -/
theorem indexed_lookup {T : Type} [BEq T] (h0 : Heap T) (xs : List T) :
    ∃ h b, ChainBuffer.buildIn h0 (xs.map ChainOp.addItem) = .ok (h, b)
      ∧ (∀ (i : Nat) (hi : i < xs.length),
          ∃ a o, ChainBuffer.index i h b = .ok (some a)
            ∧ h.read (some a) = .ok o ∧ o.item = xs.get ⟨i, hi⟩)
      ∧ (∀ i, xs.length ≤ i → ChainBuffer.index i h b = .ok none) := by
  obtain ⟨h, b, nodes, hrun, hwf, hitems⟩ :=
    ChainBuffer.addItems_wellFormed xs h0 {} [] (ChainBuffer.wellFormed_new _)
  have hlen : nodes.length = xs.length := by
    have := congrArg List.length hitems
    simpa using this
  refine ⟨h, b, hrun, fun i hi => ?_, fun i hi => ?_⟩
  · have hi2 : i < nodes.length := by rw [hlen]; exact hi
    obtain ⟨o, ho, hitem⟩ := ChainBuffer.IsChain.get hwf.1 i hi2
    refine ⟨(nodes.get ⟨i, hi2⟩).1, o, ?_, Heap.read_of_cell _ _ _ ho, ?_⟩
    · rw [ChainBuffer.index_of_wellFormed i h b nodes hwf, List.getElem?_eq_getElem hi2]
      rfl
    · rw [hitem]
      have h1 : (nodes.map Prod.snd)[i]? = xs[i]? := by rw [hitems]; rfl
      rw [List.getElem?_map, List.getElem?_eq_getElem hi2, List.getElem?_eq_getElem hi] at h1
      simpa using h1
  · rw [ChainBuffer.index_of_wellFormed i h b nodes hwf,
      List.getElem?_eq_none (by rw [hlen]; exact hi)]
    rfl

/-- C14 fails for every target that is not empty: with the target list holding 1 and
the source list holding 2 in one store, `target = source` runs `clear()`, which
deletes the node of the target but leaves `_chainStart` and `_chainEnd` pointing to
it, and the first `addItem` then writes through `_chainEnd` into the deleted node.
With an empty source the assignment ends, but index 0 of the target is a pointer
into the deleted node, not null.  On a freshly constructed target the assignment
copies the items into new nodes. -/
theorem c14_assign_to_nonempty_target_faults :
    ChainBuffer.addItem (1 : Nat) Heap.empty {}
        = .ok (⟨[some ⟨1, none, none⟩]⟩, ⟨some 0, some 0, 1⟩, some 0)
      ∧ ChainBuffer.addItem (2 : Nat) ⟨[some ⟨1, none, none⟩]⟩ {}
        = .ok (⟨[some ⟨1, none, none⟩, some ⟨2, none, none⟩]⟩, ⟨some 1, some 1, 1⟩, some 1)
      ∧ ChainBuffer.assign (⟨[some ⟨1, none, none⟩, some ⟨2, none, none⟩]⟩ : Heap Nat)
          ⟨some 0, some 0, 1⟩ ⟨some 1, some 1, 1⟩ = .error Fault.useAfterFree
      ∧ ChainBuffer.assign (⟨[some ⟨1, none, none⟩]⟩ : Heap Nat) ⟨some 0, some 0, 1⟩ {}
        = .ok (⟨[none]⟩, ⟨some 0, some 0, 0⟩)
      ∧ ChainBuffer.index 0 (⟨[none]⟩ : Heap Nat) ⟨some 0, some 0, 0⟩ = .ok (some 0)
      ∧ ChainBuffer.assign (⟨[some ⟨1, none, none⟩, some ⟨2, none, none⟩]⟩ : Heap Nat)
          {} ⟨some 1, some 1, 1⟩
        = .ok (⟨[some ⟨1, none, none⟩, some ⟨2, none, none⟩, some ⟨2, none, none⟩]⟩,
            ⟨some 2, some 2, 1⟩) := by
  decide

/-! ### Vector angle and cross product (claims C24 and C27) -/

set_option maxRecDepth 100000 in
/-- The `float` arithmetic at some known values: 1 is `2^23 * 2^-23`; 16777217 is half
way between two values and goes to the even one, 16777216; 16777219 goes up to
16777220; 2 / 3 is `11184811 * 2^-24` (0.666666687); the square root of 4 is 2 and
that of 2 is `11863283 * 2^-23` (1.41421354); 0 / 0 is NaN and 1 / 0 is infinite. -/
theorem F32.known_values :
    F32.ofNat 1 = F32.fin false 8388608 (-23)
      ∧ F32.ofNat 16777217 = F32.fin false 8388608 1
      ∧ F32.ofNat 16777219 = F32.fin false 8388610 1
      ∧ F32.ofNat 2 / F32.ofNat 3 = F32.fin false 11184811 (-24)
      ∧ F32.sqrt (F32.ofNat 4) = F32.ofNat 2
      ∧ F32.sqrt (F32.ofNat 2) = F32.fin false 11863283 (-23)
      ∧ F32.ofNat 0 / F32.ofNat 0 = F32.nan
      ∧ F32.ofNat 1 / F32.ofNat 0 = F32.inf false := by
  decide

/-- C27: over exact arithmetic (any commutative ring), for all vectors `a` and `b`
the dot product (operator `^`) of `a.cross(b)` with `a` is 0 and with `b` is 0, and
`a.cross(b)` equals the negation of `b.cross(a)`; `a.cross(a)` is the zero vector. -/
theorem cross_product_orthogonal {T : Type} [CommRing T] (a b : Vector T) :
    (a.cross b).dot a = 0
      ∧ (a.cross b).dot b = 0
      ∧ a.cross b = (b.cross a).neg
      ∧ a.cross a = ⟨0, 0, 0⟩ := by
  refine ⟨?_, ?_, ?_, ?_⟩
  · simp only [Vector.cross, Vector.dot]; ring
  · simp only [Vector.cross, Vector.dot]; ring
  · simp only [Vector.cross, Vector.neg, Vector.mk.injEq]
    exact ⟨by ring, by ring, by ring⟩
  · simp only [Vector.cross, Vector.mk.injEq]
    exact ⟨by ring, by ring, by ring⟩

/-! ### Retry counter bound (claim C25) -/

namespace ADS1115Driver

open eModuleStatus_t

variable {V : Type} {N : Nat}

/-- One tick keeps the relation between the status and the number of start
attempts. -/
theorem thread_lifecycleInv (toVoltage : Int → V) (e : ADCTick) (s : ADS1115Driver V N)
    (h : LifecycleInv s) : LifecycleInv (thread toVoltage e s) := by
  by_cases hb : s.block_ = true
  · rw [thread_of_blocked toVoltage e s hb]; exact h
  have hb : s.block_ = false := by simpa using hb
  rcases h with ⟨hst, h0⟩ | ⟨hst, h1, h4⟩ | ⟨hst, h1, h5⟩ | ⟨hst, h5⟩
  · obtain ⟨a1, a2, _⟩ := thread_start_step toVoltage e s hb (Or.inl hst)
    rw [h0] at a1 a2
    have ha : (thread toVoltage e s).startAttempts_ = 1 := by rw [a2]; decide
    by_cases hc : 0 < e.startCode
    · rw [if_pos hc] at a1
      exact Or.inr (Or.inr (Or.inl ⟨a1, by omega, by omega⟩))
    · rw [if_neg hc, if_neg (by decide)] at a1
      exact Or.inr (Or.inl ⟨a1, by omega, by omega⟩)
  · obtain ⟨a1, a2, _⟩ := thread_start_step toVoltage e s hb (Or.inr hst)
    have hmod : (s.startAttempts_ + 1) % UINT8 = s.startAttempts_ + 1 :=
      Nat.mod_eq_of_lt (by simp only [UINT8]; omega)
    rw [hmod] at a1 a2
    by_cases hc : 0 < e.startCode
    · rw [if_pos hc] at a1
      exact Or.inr (Or.inr (Or.inl ⟨a1, by omega, by omega⟩))
    · rw [if_neg hc] at a1
      by_cases h55 : 5 ≤ s.startAttempts_ + 1
      · rw [if_pos h55] at a1
        exact Or.inr (Or.inr (Or.inr ⟨a1, by omega⟩))
      · rw [if_neg h55] at a1
        exact Or.inr (Or.inl ⟨a1, by omega, by omega⟩)
  · cases hbusy : e.isBusy
    · obtain ⟨a1, a2, _⟩ := thread_acquire_step toVoltage e s hb hst hbusy
      exact Or.inr (Or.inr (Or.inl ⟨by rw [a1, hst], by rw [a2]; exact h1, by rw [a2]; exact h5⟩))
    · obtain ⟨a1, a2, _⟩ := thread_busy_step toVoltage e s hst hbusy
      exact Or.inr (Or.inr (Or.inl ⟨by rw [a1, hst], by rw [a2]; exact h1, by rw [a2]; exact h5⟩))
  · obtain ⟨a1, a2, _⟩ := thread_in_failure toVoltage e s hst
    exact Or.inr (Or.inr (Or.inr ⟨a1, by rw [a2]; exact h5⟩))

/-- Any number of ticks keeps the relation between the status and the number of
start attempts. -/
theorem ticks_lifecycleInv (toVoltage : Int → V) (es : List ADCTick) :
    ∀ s : ADS1115Driver V N, LifecycleInv s → LifecycleInv (ticks toVoltage es s) := by
  induction es with
  | nil => intro s h; exact h
  | cons e es ih => intro s h; exact ih _ (thread_lifecycleInv toVoltage e s h)

end ADS1115Driver

open eModuleStatus_t in
/-- C25: in every `ADS1115Driver` state reachable from the initial state (status
`NotStarted`, `startAttempts_ = 0`, unblocked) under any sequence of ticks with any
init codes and busy flags, `startAttempts_ <= 5`; moreover status `Failure` implies
`startAttempts_ = 5`, status `Running` implies `1 <= startAttempts_ <= 5`, and status
`RestartAttempt` implies `1 <= startAttempts_ <= 4`, so the 8-bit counter never
wraps (it stays below 256). -/
theorem retry_counter_bound {V : Type} {N : Nat} (toVoltage : Int → V) (es : List ADCTick)
    (s : ADS1115Driver V N)
    (hst : s.moduleStatus_ = eModuleStatus_NotStarted) (h0 : s.startAttempts_ = 0)
    (hb : s.block_ = false) :
    (ADS1115Driver.ticks toVoltage es s).startAttempts_ ≤ 5
      ∧ (ADS1115Driver.ticks toVoltage es s).startAttempts_ < UINT8
      ∧ ((ADS1115Driver.ticks toVoltage es s).moduleStatus_ = eModuleStatus_Failure →
          (ADS1115Driver.ticks toVoltage es s).startAttempts_ = 5)
      ∧ ((ADS1115Driver.ticks toVoltage es s).moduleStatus_ = eModuleStatus_Running →
          1 ≤ (ADS1115Driver.ticks toVoltage es s).startAttempts_
            ∧ (ADS1115Driver.ticks toVoltage es s).startAttempts_ ≤ 5)
      ∧ ((ADS1115Driver.ticks toVoltage es s).moduleStatus_ = eModuleStatus_RestartAttempt →
          1 ≤ (ADS1115Driver.ticks toVoltage es s).startAttempts_
            ∧ (ADS1115Driver.ticks toVoltage es s).startAttempts_ ≤ 4) := by
  have _ := hb
  have hinv := ADS1115Driver.ticks_lifecycleInv toVoltage es s (Or.inl ⟨hst, h0⟩)
  have hU : (5 : Nat) < UINT8 := by decide
  rcases hinv with ⟨h1, h2⟩ | ⟨h1, h2, h3⟩ | ⟨h1, h2, h3⟩ | ⟨h1, h2⟩
  · refine ⟨by omega, by omega, ?_, ?_, ?_⟩ <;> intro hh <;> rw [h1] at hh <;> cases hh
  · refine ⟨by omega, by omega, ?_, ?_, ?_⟩
    · intro hh; rw [h1] at hh; cases hh
    · intro hh; rw [h1] at hh; cases hh
    · intro _; exact ⟨h2, h3⟩
  · refine ⟨by omega, by omega, ?_, ?_, ?_⟩
    · intro hh; rw [h1] at hh; cases hh
    · intro _; exact ⟨h2, h3⟩
    · intro hh; rw [h1] at hh; cases hh
  · refine ⟨by omega, by omega, ?_, ?_, ?_⟩
    · intro _; exact h2
    · intro hh; rw [h1] at hh; cases hh
    · intro hh; rw [h1] at hh; cases hh

open eModuleStatus_t in
/-- Witness of C25: the fresh sample driver after two failed starts, a successful
start, an acquisition and a busy tick is running with 3 start attempts. -/
theorem retry_counter_bound_witness :
    (ADS1115Driver.ticks (fun v => v)
        [ADCTick.failing, ADCTick.failing, ADCTick.good 0 10, ADCTick.good 7 20, ADCTick.busy 30]
        ADS1115Driver.sample).startAttempts_ ≤ 5
      ∧ (ADS1115Driver.ticks (fun v => v)
        [ADCTick.failing, ADCTick.failing, ADCTick.good 0 10, ADCTick.good 7 20, ADCTick.busy 30]
        ADS1115Driver.sample).moduleStatus_ = eModuleStatus_Running
      ∧ 1 ≤ (ADS1115Driver.ticks (fun v => v)
        [ADCTick.failing, ADCTick.failing, ADCTick.good 0 10, ADCTick.good 7 20, ADCTick.busy 30]
        ADS1115Driver.sample).startAttempts_ :=
  have h := retry_counter_bound (fun v => v)
    [ADCTick.failing, ADCTick.failing, ADCTick.good 0 10, ADCTick.good 7 20, ADCTick.busy 30]
    ADS1115Driver.sample (by decide) (by decide) (by decide)
  ⟨h.1, by decide, (h.2.2.2.1 (by decide)).1⟩

/-! ### Removal at the ends and self-assignment in the chain list (claims C22 and C23) -/

/-- C22 fails for `n = 1` and `removeItemEnd()`: after `addItem(1)` and
`removeItemEnd()` the length is 0 but `_chainStart` still points to the deleted
node, so index 0 is a pointer into the deleted node instead of null, `searchForItem`
reads the deleted node, and the following `addItem(2)` dereferences the null
`_chainEnd`.  After `addItem(1)` and `removeItemStart()` the following `addItem(2)`
gives a list of length 1 whose only node holds 2; and on the list holding 1, 2 each
of the two removals followed by `addItem(3)` gives the list expected. -/
theorem c22_removeItemEnd_of_only_item_breaks_list :
    ChainBuffer.build [ChainOp.addItem (1 : Nat), ChainOp.removeItemEnd]
        = .ok (⟨[none]⟩, ⟨some 0, none, 0⟩)
      ∧ ChainBuffer.index 0 (⟨[none]⟩ : Heap Nat) ⟨some 0, none, 0⟩ = .ok (some 0)
      ∧ ChainBuffer.searchForItem (1 : Nat) ⟨[none]⟩ ⟨some 0, none, 0⟩
        = .error Fault.useAfterFree
      ∧ ChainBuffer.addItem (2 : Nat) ⟨[none]⟩ ⟨some 0, none, 0⟩ = .error Fault.nullDeref
      ∧ ChainBuffer.build [ChainOp.addItem (1 : Nat), ChainOp.removeItemStart, ChainOp.addItem 2]
        = .ok (⟨[none, some ⟨2, none, none⟩]⟩, ⟨some 1, some 1, 1⟩)
      ∧ ChainBuffer.build [ChainOp.addItem (1 : Nat), ChainOp.addItem 2, ChainOp.removeItemEnd,
          ChainOp.addItem 3]
        = .ok (⟨[some ⟨1, some 2, none⟩, none, some ⟨3, none, some 0⟩]⟩, ⟨some 0, some 2, 2⟩)
      ∧ ChainBuffer.build [ChainOp.addItem (1 : Nat), ChainOp.addItem 2, ChainOp.removeItemStart,
          ChainOp.addItem 3]
        = .ok (⟨[none, some ⟨2, some 2, none⟩, some ⟨3, none, some 1⟩]⟩, ⟨some 1, some 2, 2⟩) := by
  decide

/-- C23 fails for every list that is not empty: on the list holding 1, 2 the
assignment `L = L` runs `clear()`, which deletes both nodes and sets the length to
0; the loop bound `original.length()` is then 0, no item is added back, and the list
is left with the length 0 and with `_chainStart` and `_chainEnd` pointing to the
deleted nodes. -/
theorem c23_self_assignment_empties_list :
    ChainBuffer.build [ChainOp.addItem (1 : Nat), ChainOp.addItem 2]
        = .ok (⟨[some ⟨1, some 1, none⟩, some ⟨2, none, some 0⟩]⟩, ⟨some 0, some 1, 2⟩)
      ∧ ChainBuffer.assignSelf (⟨[some ⟨1, some 1, none⟩, some ⟨2, none, some 0⟩]⟩ : Heap Nat)
          ⟨some 0, some 1, 2⟩
        = .ok (⟨[none, none]⟩, ⟨some 0, some 1, 0⟩)
      ∧ ChainBuffer.length ⟨some 0, some 1, 0⟩ = 0
      ∧ ChainBuffer.index 0 (⟨[none, none]⟩ : Heap Nat) ⟨some 0, some 1, 0⟩ = .ok (some 0)
      ∧ ChainBuffer.index 1 (⟨[none, none]⟩ : Heap Nat) ⟨some 0, some 1, 0⟩
        = .error Fault.useAfterFree := by
  decide

/-! ### Removal of the first match (claim C21) -/

/-- Deleting a node that is alive frees its cell. -/
theorem Heap.delete_of_cell {T : Type} (h : Heap T) (a : Nat) (o : ChainObject T)
    (hc : h.cells[a]? = some (some o)) : h.delete (some a) = .ok ⟨h.cells.set a none⟩ := by
  simp [Heap.delete, hc]

namespace ChainBuffer

variable {T : Type}

/-- The last address of a list with at least one node. -/
theorem lastAddr_of_ne_nil : ∀ (nodes : List (Nat × T)) (prev : Option Nat), nodes ≠ [] →
    lastAddr prev nodes = nodes.getLast?.map Prod.fst := by
  intro nodes
  induction nodes with
  | nil => intro _ hne; exact absurd rfl hne
  | cons n rest ih =>
    intro prev _
    obtain ⟨a0, x0⟩ := n
    cases rest with
    | nil => rfl
    | cons m rest2 =>
      rw [List.getLast?_cons_cons]
      exact ih (some a0) (by simp)

/-- A well formed list holds its nodes. -/
theorem WellFormed.holds {h : Heap T} {b : ChainBuffer} {nodes : List (Nat × T)}
    (hwf : WellFormed h b nodes) : Holds h b nodes :=
  ⟨hwf.1, hwf.2.1, fun _ => hwf.2.2.1, hwf.2.2.2.1, hwf.2.2.2.2⟩

/-- A chain without a repeated address has at most as many nodes as the store has
cells. -/
theorem IsChain.nodes_le {h : Heap T} {nodes : List (Nat × T)} {prev : Option Nat}
    (hch : IsChain h prev nodes) (hnd : (nodes.map Prod.fst).Nodup) :
    nodes.length ≤ h.cells.length := by
  have hsub : nodes.map Prod.fst ⊆ List.range h.cells.length :=
    fun a ha => List.mem_range.mpr (IsChain.lt hch a ha)
  have := (List.subperm_of_subset hnd hsub).length_le
  simpa using this

/-- The cell of a node inside a chain: its successor is the next node of the chain
and its predecessor the node before it. -/
theorem IsChain.mid_cell {h : Heap T} (a : Nat) (x : T) (post : List (Nat × T)) :
    ∀ {pre : List (Nat × T)} {prev : Option Nat}, IsChain h prev (pre ++ (a, x) :: post) →
    h.cells[a]? = some (some ⟨x, post.head?.map Prod.fst, lastAddr prev pre⟩) := by
  intro pre
  induction pre with
  | nil => intro prev hch; exact hch.1
  | cons n rest ih =>
    intro prev hch
    obtain ⟨a0, x0⟩ := n
    have hch2 : IsChain h prev ((a0, x0) :: (rest ++ (a, x) :: post)) := hch
    exact ih hch2.2

/-- Unlinking a node from a chain: when the node before it (if any) gets the node
after it as its successor, the node after it (if any) gets the node before it as its
predecessor, and the other cells of the remaining nodes are as before, the remaining
nodes are a chain. -/
theorem IsChain.unlink {h h2 : Heap T} (a : Nat) (x : T) (post : List (Nat × T)) :
    ∀ {pre : List (Nat × T)} {prev : Option Nat},
    IsChain h prev (pre ++ (a, x) :: post) →
    ((pre ++ (a, x) :: post).map Prod.fst).Nodup →
    (∀ c ∈ (pre ++ post).map Prod.fst, pre.getLast?.map Prod.fst ≠ some c →
      post.head?.map Prod.fst ≠ some c → h2.cells[c]? = h.cells[c]?) →
    (∀ (aL : Nat) (xL : T), pre.getLast? = some (aL, xL) →
      ∀ o, h.cells[aL]? = some (some o) →
        h2.cells[aL]? = some (some { o with nextObject := post.head?.map Prod.fst })) →
    (∀ (aN : Nat) (xN : T), post.head? = some (aN, xN) →
      ∀ o, h.cells[aN]? = some (some o) →
        h2.cells[aN]? = some (some { o with lastObject := lastAddr prev pre })) →
    IsChain h2 prev (pre ++ post) := by
  intro pre
  induction pre with
  | nil =>
    intro prev hch hnd hsame _ hnext
    obtain ⟨_, c2⟩ := hch
    cases post with
    | nil => trivial
    | cons m post2 =>
      obtain ⟨aN, xN⟩ := m
      obtain ⟨d1, d2⟩ := c2
      have hnd2 : a ∉ (aN :: post2.map Prod.fst) ∧ aN ∉ post2.map Prod.fst
          ∧ (post2.map Prod.fst).Nodup := by
        simpa [List.nodup_cons] using hnd
      refine ⟨hnext aN xN rfl _ d1, IsChain.congr ?_ d2⟩
      intro c hc
      refine hsame c (by simp [hc]) (by simp) ?_
      simp only [List.head?_cons, Option.map_some', ne_eq, Option.some.injEq]
      intro hEq
      exact hnd2.2.1 (hEq ▸ hc)
  | cons n rest ih =>
    intro prev hch hnd hsame hlast hnext
    obtain ⟨a0, x0⟩ := n
    have hch2 : IsChain h prev ((a0, x0) :: (rest ++ (a, x) :: post)) := hch
    obtain ⟨c1, c2⟩ := hch2
    have hnd2 : a0 ∉ (rest ++ (a, x) :: post).map Prod.fst
        ∧ ((rest ++ (a, x) :: post).map Prod.fst).Nodup := by
      have : (a0 :: (rest ++ (a, x) :: post).map Prod.fst).Nodup := by simpa using hnd
      exact List.nodup_cons.mp this
    have hrec : IsChain h2 (some a0) (rest ++ post) := by
      refine ih c2 hnd2.2 ?_ ?_ ?_
      · intro c hc hl hn
        refine hsame c ?_ ?_ hn
        · simp only [List.cons_append, List.map_cons, List.mem_cons]
          exact Or.inr hc
        · cases rest with
          | nil =>
            simp only [List.getLast?_singleton, Option.map_some', ne_eq, Option.some.injEq]
            intro hEq
            apply hnd2.1
            rw [hEq]
            simp only [List.nil_append, List.map] at hc
            simp [hc]
          | cons m rest2 =>
            rw [List.getLast?_cons_cons]
            exact hl
      · intro aL xL hl o ho
        refine hlast aL xL ?_ o ho
        cases rest with
        | nil => simp at hl
        | cons m rest2 =>
          rw [List.getLast?_cons_cons]
          exact hl
      · intro aN xN hn o ho
        exact hnext aN xN hn o ho
    refine ⟨?_, hrec⟩
    cases rest with
    | nil =>
      have := hlast a0 x0 rfl _ c1
      simpa using this
    | cons m rest2 =>
      obtain ⟨a1, x1⟩ := m
      have hne1 : ((a0, x0) :: (a1, x1) :: rest2).getLast?.map Prod.fst ≠ some a0 := by
        rw [List.getLast?_cons_cons]
        intro hEq
        obtain ⟨q, hq, hq1⟩ := Option.map_eq_some'.mp hEq
        apply hnd2.1
        have hmem : q ∈ (a1, x1) :: rest2 := List.mem_of_mem_getLast? hq
        have : q.1 ∈ ((a1, x1) :: rest2 ++ (a, x) :: post).map Prod.fst :=
          List.mem_map_of_mem Prod.fst (List.mem_append_left _ hmem)
        rw [hq1] at this
        exact this
      have hne2 : post.head?.map Prod.fst ≠ some a0 := by
        intro hEq
        obtain ⟨q, hq, hq1⟩ := Option.map_eq_some'.mp hEq
        apply hnd2.1
        have hmem : q ∈ post := List.mem_of_mem_head? hq
        have : q.1 ∈ ((a1, x1) :: rest2 ++ (a, x) :: post).map Prod.fst :=
          List.mem_map_of_mem Prod.fst
            (List.mem_append_right _ (List.mem_cons_of_mem _ hmem))
        rw [hq1] at this
        exact this
      rw [hsame a0 (by simp) hne1 hne2]
      simpa using c1

/-- `_removeObject` on the head of a list when the head has no successor. -/
theorem removeObject_only (h : Heap T) (b : ChainBuffer) (a : Nat) (o : ChainObject T)
    (hs : b._chainStart = some a) (hc : h.cells[a]? = some (some o))
    (hn : o.nextObject = none) :
    _removeObject (some a) h b = .ok
      (⟨h.cells.set a none⟩,
        { b with _chainStart := none,
                 _numObjects := (b._numObjects + UINT32 - 1) % UINT32 }, true) := by
  simp [_removeObject, hs, bind, Except.bind, Heap.read_of_cell _ _ _ hc, hn,
    Heap.delete_of_cell _ _ _ hc, pure, Except.pure]

/-- `_removeObject` on the head of a list when the head has a successor. -/
theorem removeObject_head (h : Heap T) (b : ChainBuffer) (a aN : Nat)
    (o oN : ChainObject T) (hs : b._chainStart = some a)
    (hc : h.cells[a]? = some (some o)) (hn : o.nextObject = some aN)
    (hcN : h.cells[aN]? = some (some oN)) (hne : aN ≠ a) :
    _removeObject (some a) h b = .ok
      (⟨(h.cells.set aN (some { oN with lastObject := none })).set a none⟩,
        { b with _chainStart := some aN,
                 _numObjects := (b._numObjects + UINT32 - 1) % UINT32 }, true) := by
  have r1 : (⟨h.cells.set aN (some { oN with lastObject := none })⟩ : Heap T).cells[a]?
      = some (some o) := by
    show (h.cells.set aN _)[a]? = _
    rw [List.getElem?_set_ne hne]; exact hc
  simp [_removeObject, hs, bind, Except.bind, Heap.read_of_cell _ _ _ hc, hn,
    Heap.read_of_cell _ _ _ hcN, Heap.write_of_cell _ _ _ _ hcN,
    Heap.delete_of_cell _ _ _ r1, pure, Except.pure]

/-- `_removeObject` on the tail of a list with two nodes or more. -/
theorem removeObject_tail (h : Heap T) (b : ChainBuffer) (a aL : Nat)
    (o oL : ChainObject T) (hs : b._chainStart ≠ some a) (he : b._chainEnd = some a)
    (hc : h.cells[a]? = some (some o)) (hl : o.lastObject = some aL)
    (hcL : h.cells[aL]? = some (some oL)) (hne : aL ≠ a) :
    _removeObject (some a) h b = .ok
      (⟨(h.cells.set aL (some { oL with nextObject := none })).set a none⟩,
        { b with _chainEnd := some aL,
                 _numObjects := (b._numObjects + UINT32 - 1) % UINT32 }, true) := by
  have r1 : (⟨h.cells.set aL (some { oL with nextObject := none })⟩ : Heap T).cells[a]?
      = some (some o) := by
    show (h.cells.set aL _)[a]? = _
    rw [List.getElem?_set_ne hne]; exact hc
  have hs2 : ¬ (some a = b._chainStart) := fun hEq => hs hEq.symm
  simp [_removeObject, hs2, he, bind, Except.bind, Heap.read_of_cell _ _ _ hc, hl,
    Heap.read_of_cell _ _ _ hcL, Heap.write_of_cell _ _ _ _ hcL,
    Heap.delete_of_cell _ _ _ r1, pure, Except.pure]

/-- `_removeObject` on a node that is neither the head nor the tail. -/
theorem removeObject_mid (h : Heap T) (b : ChainBuffer) (a aN aL : Nat)
    (o oN oL : ChainObject T) (hs : b._chainStart ≠ some a) (he : b._chainEnd ≠ some a)
    (hc : h.cells[a]? = some (some o)) (hn : o.nextObject = some aN)
    (hl : o.lastObject = some aL) (hcN : h.cells[aN]? = some (some oN))
    (hcL : h.cells[aL]? = some (some oL)) (hneN : aN ≠ a) (hneL : aL ≠ a)
    (hNL : aN ≠ aL) :
    _removeObject (some a) h b = .ok
      (⟨((h.cells.set aN (some { oN with lastObject := some aL })).set aL
            (some { oL with nextObject := some aN })).set a none⟩,
        { b with _numObjects := (b._numObjects + UINT32 - 1) % UINT32 }, true) := by
  have r1 : (⟨h.cells.set aN (some { oN with lastObject := some aL })⟩ : Heap T).cells[a]?
      = some (some o) := by
    show (h.cells.set aN _)[a]? = _
    rw [List.getElem?_set_ne hneN]; exact hc
  have r2 : (⟨h.cells.set aN (some { oN with lastObject := some aL })⟩ : Heap T).cells[aL]?
      = some (some oL) := by
    show (h.cells.set aN _)[aL]? = _
    rw [List.getElem?_set_ne hNL]; exact hcL
  have r3 : (⟨(h.cells.set aN (some { oN with lastObject := some aL })).set aL
      (some { oL with nextObject := some aN })⟩ : Heap T).cells[a]? = some (some o) := by
    show ((h.cells.set aN _).set aL _)[a]? = _
    rw [List.getElem?_set_ne hneL, List.getElem?_set_ne hneN]; exact hc
  have hs2 : ¬ (some a = b._chainStart) := fun hEq => hs hEq.symm
  have he2 : ¬ (some a = b._chainEnd) := fun hEq => he hEq.symm
  simp [_removeObject, hs2, he2, bind, Except.bind, Heap.read_of_cell _ _ _ hc, hn, hl,
    Heap.read_of_cell _ _ _ hcN, Heap.write_of_cell _ _ _ _ hcN,
    Heap.read_of_cell _ _ _ r1, Heap.read_of_cell _ _ _ r2, Heap.write_of_cell _ _ _ _ r2,
    Heap.delete_of_cell _ _ _ r3, pure, Except.pure]

/-- The `_numObjects--` of a removal, on the count of a list with one node more. -/
theorem numObjects_pred (n : Nat) : ((n + 1) % UINT32 + UINT32 - 1) % UINT32 = n % UINT32 := by
  unfold UINT32
  omega

/-- What a list without a repeated address says about the addresses around one of
its nodes. -/
theorem nodup_split {pre post : List (Nat × T)} {a : Nat} {x : T}
    (hnd : ((pre ++ (a, x) :: post).map Prod.fst).Nodup) :
    a ∉ pre.map Prod.fst ∧ a ∉ post.map Prod.fst
      ∧ (∀ c ∈ pre.map Prod.fst, c ∉ post.map Prod.fst)
      ∧ ((pre ++ post).map Prod.fst).Nodup := by
  rw [List.map_append, List.map_cons] at hnd
  have h1 := List.nodup_middle.mp hnd
  obtain ⟨h2, h3⟩ := List.nodup_cons.mp h1
  rw [← List.map_append] at h2 h3
  refine ⟨fun hm => h2 (by simp [hm]), fun hm => h2 (by simp [hm]), ?_, h3⟩
  intro c hc hc2
  rw [List.map_append] at h3
  exact (List.nodup_append.mp h3).2.2 hc hc2

/-- `_removeObject` on the first node of a list that holds its nodes. -/
theorem removeObject_holds_head (h : Heap T) (b : ChainBuffer) (a : Nat) (x : T)
    (post : List (Nat × T)) (hh : Holds h b ((a, x) :: post)) :
    ∃ h1 b1, _removeObject (some a) h b = .ok (h1, b1, true) ∧ Holds h1 b1 post
      ∧ h1.cells[a]? = some none := by
  obtain ⟨hch, hs, he, hn, hnd⟩ := hh
  have hch0 : IsChain h none ([] ++ (a, x) :: post) := hch
  have hnd0 : (([] ++ (a, x) :: post).map Prod.fst).Nodup := hnd
  have hc := IsChain.mid_cell a x post hch0
  have halt : a < h.cells.length := (List.getElem?_eq_some.mp hc).1
  obtain ⟨_, hpost_a, _, hnd2⟩ := nodup_split hnd0
  have hnum : (b._numObjects + UINT32 - 1) % UINT32 = post.length % UINT32 := by
    rw [hn, List.length_cons, numObjects_pred]
  have hs1 : b._chainStart = some a := hs
  cases post with
  | nil =>
    refine ⟨_, _, removeObject_only h b a _ hs1 hc rfl,
      ⟨trivial, rfl, fun hne => absurd rfl hne, hnum, List.nodup_nil⟩, ?_⟩
    show (h.cells.set a none)[a]? = _
    rw [List.getElem?_set_self halt]
  | cons m post2 =>
    obtain ⟨aN, xN⟩ := m
    have hch1 : IsChain h none ([(a, x)] ++ (aN, xN) :: post2) := hch
    have hcN := IsChain.mid_cell aN xN post2 hch1
    have hNlt : aN < h.cells.length := (List.getElem?_eq_some.mp hcN).1
    have hne : aN ≠ a := fun hEq => hpost_a (by simp [hEq])
    have hnd3 : aN ∉ post2.map Prod.fst := by
      have : (aN :: post2.map Prod.fst).Nodup := by simpa using hnd2
      exact (List.nodup_cons.mp this).1
    refine ⟨_, _, removeObject_head h b a aN _ _ hs1 hc rfl hcN hne,
      ⟨?_, rfl, fun _ => ?_, hnum, hnd2⟩, ?_⟩
    · refine IsChain.unlink a x ((aN, xN) :: post2) hch0 hnd0 ?_ ?_ ?_
      · intro c hc1 _ hc3
        have hca : c ≠ a := fun hEq => hpost_a (hEq ▸ hc1)
        have hcN2 : c ≠ aN := fun hEq => hc3 (by simp [hEq])
        show ((h.cells.set aN _).set a none)[c]? = _
        rw [List.getElem?_set_ne (Ne.symm hca), List.getElem?_set_ne (Ne.symm hcN2)]
      · intro aL xL hl
        simp at hl
      · intro aN2 xN2 hN o ho
        simp only [List.head?_cons, Option.some.injEq, Prod.mk.injEq] at hN
        obtain ⟨rfl, rfl⟩ := hN
        rw [hcN] at ho
        simp only [Option.some.injEq] at ho
        subst ho
        show ((h.cells.set aN _).set a none)[aN]? = _
        rw [List.getElem?_set_ne (Ne.symm hne), List.getElem?_set_self hNlt]
        rfl
    · show b._chainEnd = _
      rw [he (by simp), List.getLast?_cons_cons]
    · show ((h.cells.set aN _).set a none)[a]? = _
      rw [List.getElem?_set_self (by simpa using halt)]

/-- `_removeObject` on a node behind the first one of a list that holds its nodes;
`(aL, xL)` is the node before it. -/
theorem removeObject_holds_later (h : Heap T) (b : ChainBuffer) (a : Nat) (x : T)
    (pre2 post : List (Nat × T)) (aL : Nat) (xL : T)
    (hh : Holds h b ((pre2 ++ [(aL, xL)]) ++ (a, x) :: post)) :
    ∃ h1 b1, _removeObject (some a) h b = .ok (h1, b1, true)
      ∧ Holds h1 b1 ((pre2 ++ [(aL, xL)]) ++ post) ∧ h1.cells[a]? = some none := by
  obtain ⟨hch, hs, he, hn, hnd⟩ := hh
  have hpne : pre2 ++ [(aL, xL)] ≠ [] := by simp
  have hlastA : lastAddr none (pre2 ++ [(aL, xL)]) = some aL := by
    rw [lastAddr_of_ne_nil _ _ hpne, List.getLast?_concat]
    rfl
  have hc := IsChain.mid_cell a x post hch
  rw [hlastA] at hc
  have halt : a < h.cells.length := (List.getElem?_eq_some.mp hc).1
  have hch2 : IsChain h none (pre2 ++ (aL, xL) :: ((a, x) :: post)) := by
    simpa using hch
  have hcL := IsChain.mid_cell aL xL ((a, x) :: post) hch2
  have hLlt : aL < h.cells.length := (List.getElem?_eq_some.mp hcL).1
  obtain ⟨hpre_a, hpost_a, hdisj, hnd2⟩ := nodup_split hnd
  have hLmem : aL ∈ (pre2 ++ [(aL, xL)]).map Prod.fst := by simp
  have hneL : aL ≠ a := fun hEq => hpre_a (hEq ▸ hLmem)
  have hnum : (b._numObjects + UINT32 - 1) % UINT32
      = ((pre2 ++ [(aL, xL)]) ++ post).length % UINT32 := by
    rw [hn]
    simp only [List.length_append, List.length_cons, List.length_nil]
    rw [show pre2.length + (0 + 1) + (post.length + 1) = (pre2.length + (0 + 1) + post.length) + 1
      by omega, numObjects_pred]
  have hs1 : b._chainStart ≠ some a := by
    rw [hs, List.head?_append_of_ne_nil _ hpne]
    intro hEq
    obtain ⟨q, hq, hq1⟩ := Option.map_eq_some'.mp hEq
    apply hpre_a
    have := List.mem_map_of_mem Prod.fst (List.mem_of_mem_head? hq)
    rw [hq1] at this
    exact this
  have hstart : b._chainStart = ((pre2 ++ [(aL, xL)]) ++ post).head?.map Prod.fst := by
    rw [hs, List.head?_append_of_ne_nil _ hpne, List.head?_append_of_ne_nil _ hpne]
  cases post with
  | nil =>
    have he1 : b._chainEnd = some a := by
      rw [he (by simp), List.getLast?_append_cons]
      rfl
    refine ⟨_, _, removeObject_tail h b a aL _ _ hs1 he1 hc rfl hcL hneL,
      ⟨?_, hstart, fun _ => ?_, hnum, hnd2⟩, ?_⟩
    · refine IsChain.unlink a x [] hch hnd ?_ ?_ ?_
      · intro c hc1 hc2 _
        have hca : c ≠ a := fun hEq => hpre_a (by simpa [hEq] using hc1)
        have hcL2 : c ≠ aL := fun hEq => hc2 (by rw [List.getLast?_concat, hEq]; rfl)
        show ((h.cells.set aL _).set a none)[c]? = _
        rw [List.getElem?_set_ne (Ne.symm hca), List.getElem?_set_ne (Ne.symm hcL2)]
      · intro aL2 xL2 hl o ho
        rw [List.getLast?_concat] at hl
        simp only [Option.some.injEq, Prod.mk.injEq] at hl
        obtain ⟨rfl, rfl⟩ := hl
        rw [hcL] at ho
        simp only [Option.some.injEq] at ho
        subst ho
        show ((h.cells.set aL _).set a none)[aL]? = _
        rw [List.getElem?_set_ne (Ne.symm hneL), List.getElem?_set_self hLlt]
        rfl
      · intro aN xN hN
        simp at hN
    · show some aL = _
      rw [List.append_nil, List.getLast?_concat]
      rfl
    · show ((h.cells.set aL _).set a none)[a]? = _
      rw [List.getElem?_set_self (by simpa using halt)]
  | cons m post2 =>
    obtain ⟨aN, xN⟩ := m
    have hch3 : IsChain h none (((pre2 ++ [(aL, xL)]) ++ [(a, x)]) ++ (aN, xN) :: post2) := by
      simpa using hch
    have hcN := IsChain.mid_cell aN xN post2 hch3
    have hlastA2 : lastAddr none (((pre2 ++ [(aL, xL)]) ++ [(a, x)]) : List (Nat × T))
        = some a := by
      rw [lastAddr_of_ne_nil _ _ (by simp), List.getLast?_concat]
      rfl
    rw [hlastA2] at hcN
    have hNlt : aN < h.cells.length := (List.getElem?_eq_some.mp hcN).1
    have hNmem : aN ∈ ((aN, xN) :: post2).map Prod.fst := by simp
    have hneN : aN ≠ a := fun hEq => hpost_a (hEq ▸ hNmem)
    have hNL : aN ≠ aL := fun hEq => hdisj aL hLmem (hEq ▸ hNmem)
    have he1 : b._chainEnd ≠ some a := by
      rw [he (by simp), List.getLast?_append_cons, List.getLast?_cons_cons]
      intro hEq
      obtain ⟨q, hq, hq1⟩ := Option.map_eq_some'.mp hEq
      apply hpost_a
      have := List.mem_map_of_mem Prod.fst (List.mem_of_mem_getLast? hq)
      rw [hq1] at this
      exact this
    refine ⟨_, _, removeObject_mid h b a aN aL _ _ _ hs1 he1 hc rfl rfl hcN hcL hneN hneL hNL,
      ⟨?_, hstart, fun _ => ?_, hnum, hnd2⟩, ?_⟩
    · refine IsChain.unlink a x ((aN, xN) :: post2) hch hnd ?_ ?_ ?_
      · intro c hc1 hc2 hc3
        have hcL2 : c ≠ aL := fun hEq => hc2 (by rw [List.getLast?_concat, hEq]; rfl)
        have hcN2 : c ≠ aN := fun hEq => hc3 (by simp [hEq])
        have hca : a ≠ c := by
          intro hEq
          rw [List.map_append, List.mem_append] at hc1
          rcases hc1 with hm | hm
          · exact hpre_a (hEq ▸ hm)
          · exact hpost_a (hEq ▸ hm)
        show (((h.cells.set aN _).set aL _).set a none)[c]? = _
        rw [List.getElem?_set_ne hca, List.getElem?_set_ne (Ne.symm hcL2),
          List.getElem?_set_ne (Ne.symm hcN2)]
      · intro aL2 xL2 hl o ho
        rw [List.getLast?_concat] at hl
        simp only [Option.some.injEq, Prod.mk.injEq] at hl
        obtain ⟨rfl, rfl⟩ := hl
        rw [hcL] at ho
        simp only [Option.some.injEq] at ho
        subst ho
        show (((h.cells.set aN _).set aL _).set a none)[aL]? = _
        rw [List.getElem?_set_ne (Ne.symm hneL), List.getElem?_set_self (by simpa using hLlt)]
        rfl
      · intro aN2 xN2 hN o ho
        simp only [List.head?_cons, Option.some.injEq, Prod.mk.injEq] at hN
        obtain ⟨rfl, rfl⟩ := hN
        rw [hcN] at ho
        simp only [Option.some.injEq] at ho
        subst ho
        show (((h.cells.set aN _).set aL _).set a none)[aN]? = _
        rw [List.getElem?_set_ne (Ne.symm hneN), List.getElem?_set_ne (Ne.symm hNL),
          List.getElem?_set_self hNlt, hlastA]
    · show b._chainEnd = _
      rw [he (by simp), List.getLast?_append_cons, List.getLast?_append_cons,
        List.getLast?_cons_cons]
    · show (((h.cells.set aN _).set aL _).set a none)[a]? = _
      rw [List.getElem?_set_self (by simpa using halt)]

/-- `_removeObject` on a node of a list that holds its nodes: the node is unlinked
and deleted, and the list holds the other nodes in their order. -/
theorem removeObject_holds (h : Heap T) (b : ChainBuffer) (a : Nat) (x : T)
    (pre post : List (Nat × T)) (hh : Holds h b (pre ++ (a, x) :: post)) :
    ∃ h1 b1, _removeObject (some a) h b = .ok (h1, b1, true) ∧ Holds h1 b1 (pre ++ post)
      ∧ h1.cells[a]? = some none := by
  rcases List.eq_nil_or_concat pre with hnil | ⟨pre2, last, hcat⟩
  · subst hnil
    exact removeObject_holds_head h b a x post hh
  · obtain ⟨aL, xL⟩ := last
    rw [List.concat_eq_append] at hcat
    subst hcat
    exact removeObject_holds_later h b a x pre2 post aL xL hh

/-- `operator[]` on a list that holds its nodes: the pointer to the node at position
`i`, or null when `i` is not a position of the list. -/
theorem index_of_holds (i : Nat) (h : Heap T) (b : ChainBuffer) (nodes : List (Nat × T))
    (hh : Holds h b nodes) : index i h b = .ok (nodes[i]?.map Prod.fst) := by
  unfold index
  rw [hh.2.1]
  exact indexLoop_of_chain i hh.1

/-- `removeItem` on a list that holds its nodes, none of whose items equals `item`:
nothing changes and the result is `false`. -/
theorem removeItem_no_match [BEq T] (item : T) (h : Heap T) (b : ChainBuffer)
    (nodes : List (Nat × T)) (hh : Holds h b nodes)
    (hno : ∀ n ∈ nodes, (n.2 == item) = false) :
    removeItem item h b = .ok (h, b, false) := by
  unfold removeItem _searchForItem
  rw [hh.2.1, searchLoop_no_match item h.cells.length 0 hh.1
    (IsChain.nodes_le hh.1 hh.2.2.2.2) (by decide) hno]
  rfl

/-- `removeItem` on a list that holds its nodes, whose first node with an item equal
to `item` comes after the nodes `pre`: that node is removed. -/
theorem removeItem_first_match [BEq T] (item : T) (h : Heap T) (b : ChainBuffer)
    (pre post : List (Nat × T)) (a : Nat) (x : T)
    (hh : Holds h b (pre ++ (a, x) :: post)) (hx : (x == item) = true)
    (hno : ∀ n ∈ pre, (n.2 == item) = false) :
    ∃ h1 b1, removeItem item h b = .ok (h1, b1, true) ∧ Holds h1 b1 (pre ++ post)
      ∧ h1.cells[a]? = some none := by
  have hfuel : pre.length < h.cells.length := by
    have := IsChain.nodes_le hh.1 hh.2.2.2.2
    simp only [List.length_append, List.length_cons] at this
    omega
  obtain ⟨h1, b1, e1, e2, e3⟩ := removeObject_holds h b a x pre post hh
  refine ⟨h1, b1, ?_, e2, e3⟩
  unfold removeItem _searchForItem
  rw [hh.2.1, searchLoop_first_match item a x post hx h.cells.length 0 hh.1 hfuel
    (by decide) hno]
  exact e1

end ChainBuffer

/-- Claim C21.  On a list that holds the nodes `nodes` (items in index order
`nodes.map Prod.snd`): when no item equals `v`, `removeItem(v)` returns `false` and
changes neither the store nor the list object; when some item equals `v`, it returns
`true` and the list afterwards holds the nodes of `nodes` without the first one whose
item equals `v`, the others in their order with their items, so its items are the
old items with the first occurrence of `v` erased, its length is one less, and
`operator[]` gives at every position the node of the remaining list, alive and with
its item.  The match may be the head, the tail, an interior node or the only node. -/
theorem remove_first_match {T : Type} [BEq T] (v : T) (h : Heap T) (b : ChainBuffer)
    (nodes : List (Nat × T)) (hh : ChainBuffer.Holds h b nodes) :
    ((∀ n ∈ nodes, (n.2 == v) = false) → ChainBuffer.removeItem v h b = .ok (h, b, false))
      ∧ ((∃ n ∈ nodes, (n.2 == v) = true) →
        ∃ h1 b1, ChainBuffer.removeItem v h b = .ok (h1, b1, true)
          ∧ ChainBuffer.Holds h1 b1 (nodes.eraseP (fun n => n.2 == v))
          ∧ (nodes.eraseP (fun n => n.2 == v)).map Prod.snd
              = (nodes.map Prod.snd).eraseP (fun y => y == v)
          ∧ b1.length = (nodes.length - 1) % UINT32
          ∧ (∀ i : Nat, ChainBuffer.index i h1 b1
              = .ok ((nodes.eraseP (fun n => n.2 == v))[i]?.map Prod.fst))
          ∧ (∀ (i : Nat) (hi : i < (nodes.eraseP (fun n => n.2 == v)).length),
              ∃ o, h1.cells[((nodes.eraseP (fun n => n.2 == v)).get ⟨i, hi⟩).1]?
                    = some (some o)
                ∧ o.item = ((nodes.eraseP (fun n => n.2 == v)).get ⟨i, hi⟩).2)) := by
  refine ⟨ChainBuffer.removeItem_no_match v h b nodes hh, ?_⟩
  intro hex
  obtain ⟨pre, n, post, hsplit, hpx, hpre⟩ :=
    ChainBuffer.exists_first (fun n : Nat × T => n.2 == v) nodes hex
  obtain ⟨a, x⟩ := n
  subst hsplit
  have hpx2 : (x == v) = true := hpx
  have her : (pre ++ (a, x) :: post).eraseP (fun n => n.2 == v) = pre ++ post := by
    rw [List.eraseP_append_right _ (fun n hn => by simp [hpre n hn])]
    simp [List.eraseP_cons, hpx2]
  have hmap : (pre ++ post).map Prod.snd
      = ((pre ++ (a, x) :: post).map Prod.snd).eraseP (fun y => y == v) := by
    rw [List.map_append, List.map_append, List.map_cons,
      List.eraseP_append_right _ (fun y hy => by
        obtain ⟨n, hn, hn2⟩ := List.mem_map.mp hy
        rw [← hn2]
        simp [hpre n hn])]
    simp [List.eraseP_cons, hpx2]
  obtain ⟨h1, b1, e1, e2, _⟩ :=
    ChainBuffer.removeItem_first_match v h b pre post a x hh hpx hpre
  rw [her]
  refine ⟨h1, b1, e1, e2, hmap, ?_, fun i => ChainBuffer.index_of_holds i h1 b1 _ e2,
    ChainBuffer.IsChain.get e2.1⟩
  show b1._numObjects = _
  rw [e2.2.2.2.1]
  simp

/-- Claim C21 on the list built by `addItem(4)`, `addItem(5)`, `addItem(5)`:
`removeItem(5)` returns `true`, the length is 2, index 0 is the node with 4 and
index 1 the node that was at index 2, index 2 is null; nothing equals 9 and
`removeItem(9)` changes nothing. -/
theorem remove_first_match_witness :
    (∃ h1 b1, ChainBuffer.removeItem (5 : Nat) ChainBuffer.sampleHeap ChainBuffer.sampleList
          = .ok (h1, b1, true)
        ∧ b1.length = 2
        ∧ ChainBuffer.index 0 h1 b1 = .ok (some 0)
        ∧ ChainBuffer.index 1 h1 b1 = .ok (some 2)
        ∧ ChainBuffer.index 2 h1 b1 = .ok none)
      ∧ ChainBuffer.removeItem (9 : Nat) ChainBuffer.sampleHeap ChainBuffer.sampleList
          = .ok (ChainBuffer.sampleHeap, ChainBuffer.sampleList, false) :=
  have h := remove_first_match (5 : Nat) ChainBuffer.sampleHeap ChainBuffer.sampleList
    [(0, 4), (1, 5), (2, 5)] ⟨⟨rfl, rfl, rfl, trivial⟩, rfl, fun _ => rfl, rfl, by decide⟩
  have h9 := remove_first_match (9 : Nat) ChainBuffer.sampleHeap ChainBuffer.sampleList
    [(0, 4), (1, 5), (2, 5)] ⟨⟨rfl, rfl, rfl, trivial⟩, rfl, fun _ => rfl, rfl, by decide⟩
  ⟨(h.2 ⟨(1, 5), by decide, rfl⟩).elim fun h1 hb =>
      hb.elim fun b1 hr =>
        ⟨h1, b1, hr.1, hr.2.2.2.1, hr.2.2.2.2.1 0, hr.2.2.2.2.1 1, hr.2.2.2.2.1 2⟩,
    h9.1 (by decide)⟩

/-! ### Duplicate suppression in the IMU (claim C26) -/

namespace IMU

open DeviceStatus

variable {T : Type}

/-- The rate accounting leaves the buffers, the last-reading registers and the data
pending flag as they are. -/
theorem rateCalc_channels (now : Nat) (s : IMU T) :
    (rateCalc now s).gyroFifo = s.gyroFifo
      ∧ (rateCalc now s).gyroTimestampFifo = s.gyroTimestampFifo
      ∧ (rateCalc now s).lastGyro = s.lastGyro
      ∧ (rateCalc now s).accelFifo = s.accelFifo
      ∧ (rateCalc now s).accelTimestampFifo = s.accelTimestampFifo
      ∧ (rateCalc now s).lastAccel = s.lastAccel
      ∧ (rateCalc now s).magFifo = s.magFifo
      ∧ (rateCalc now s).magTimestampFifo = s.magTimestampFifo
      ∧ (rateCalc now s).lastMag = s.lastMag
      ∧ (rateCalc now s).newDataInterrupt = s.newDataInterrupt := by
  unfold rateCalc
  by_cases hq : (s.rateCalcInterval.isTimeToRun now).1 = true <;> simp [hq]

/-- The steps other than ticks leave the three last-reading registers alone. -/
theorem registers_of_other_steps (s : IMU T) :
    ((interruptRoutine s).lastGyro = s.lastGyro
        ∧ (getGyro s).2.2.2.lastGyro = s.lastGyro ∧ (getAccel s).2.2.2.lastGyro = s.lastGyro
        ∧ (getMag s).2.2.2.lastGyro = s.lastGyro)
      ∧ ((interruptRoutine s).lastAccel = s.lastAccel
        ∧ (getGyro s).2.2.2.lastAccel = s.lastAccel
        ∧ (getAccel s).2.2.2.lastAccel = s.lastAccel
        ∧ (getMag s).2.2.2.lastAccel = s.lastAccel)
      ∧ ((interruptRoutine s).lastMag = s.lastMag
        ∧ (getGyro s).2.2.2.lastMag = s.lastMag ∧ (getAccel s).2.2.2.lastMag = s.lastMag
        ∧ (getMag s).2.2.2.lastMag = s.lastMag) := by
  unfold interruptRoutine getGyro getAccel getMag
  refine ⟨⟨rfl, ?_, ?_, ?_⟩, ⟨rfl, ?_, ?_, ?_⟩, ⟨rfl, ?_, ?_, ?_⟩⟩ <;> split <;> rfl

variable [BEq T] [Neg T]

/-- Reading the sensor with the data pending flag set: the flag is cleared, and each
channel gets the new reading and the timestamp exactly when the reading differs from
the channel's last-reading register. -/
theorem readData_channels (e : IMUTick T) (s : IMU T) (hn : s.newDataInterrupt = true) :
    (readData e s).newDataInterrupt = false
      ∧ (readData e s).gyroFifo =
          (if s.lastGyro.ne (gyroOf e) = true then s.gyroFifo.unshift (gyroOf e)
           else s.gyroFifo)
      ∧ (readData e s).gyroTimestampFifo =
          (if s.lastGyro.ne (gyroOf e) = true then s.gyroTimestampFifo.unshift e.micros
           else s.gyroTimestampFifo)
      ∧ (readData e s).lastGyro =
          (if s.lastGyro.ne (gyroOf e) = true then gyroOf e else s.lastGyro)
      ∧ (readData e s).accelFifo =
          (if s.lastAccel.ne (accelOf e) = true then s.accelFifo.unshift (accelOf e)
           else s.accelFifo)
      ∧ (readData e s).accelTimestampFifo =
          (if s.lastAccel.ne (accelOf e) = true then s.accelTimestampFifo.unshift e.micros
           else s.accelTimestampFifo)
      ∧ (readData e s).lastAccel =
          (if s.lastAccel.ne (accelOf e) = true then accelOf e else s.lastAccel)
      ∧ (readData e s).magFifo =
          (if s.lastMag.ne (magOf e) = true then s.magFifo.unshift (magOf e)
           else s.magFifo)
      ∧ (readData e s).magTimestampFifo =
          (if s.lastMag.ne (magOf e) = true then s.magTimestampFifo.unshift e.micros
           else s.magTimestampFifo)
      ∧ (readData e s).lastMag =
          (if s.lastMag.ne (magOf e) = true then magOf e else s.lastMag) := by
  unfold readData gyroOf accelOf magOf
  by_cases hg : s.lastGyro.ne ⟨-e.getGyroX_rads, -e.getGyroY_rads, e.getGyroZ_rads⟩ = true <;>
    by_cases ha : s.lastAccel.ne ⟨e.getAccelX_mss, e.getAccelY_mss, -e.getAccelZ_mss⟩ = true <;>
    by_cases hm : s.lastMag.ne ⟨-e.getMagX_uT, -e.getMagY_uT, e.getMagZ_uT⟩ = true <;>
    simp [hn, hg, ha, hm]

/-- Reading the sensor with no data pending changes nothing. -/
theorem readData_of_not_pending (e : IMUTick T) (s : IMU T)
    (hn : s.newDataInterrupt = false) : readData e s = s := by
  simp [readData, hn]

/-- A tick that runs in `DEVICE_RUNNING` is the sensor read followed by the rate
accounting. -/
theorem deviceThread_running (L : Nat) (e : IMUTick T) (s : IMU T)
    (hr : runs e s = true) (hst : s.imuStatus = DEVICE_RUNNING) :
    deviceThread L e s =
      rateCalc e.microsRateCalc (readData e
        { s with imuInterval := (s.imuInterval.isTimeToRun e.microsInterval).2,
                 loopCounter := (s.loopCounter + 1) % UINT32 }) := by
  rw [deviceThread_eq_parts L e s hr]
  simp [body, hst]

/-- The branch on the status leaves the channels alone when the status is not
`DEVICE_RUNNING`. -/
theorem body_channels_of_not_running (L : Nat) (e : IMUTick T) (s : IMU T)
    (hst : s.imuStatus ≠ DEVICE_RUNNING) :
    (body L e s).gyroFifo = s.gyroFifo
      ∧ (body L e s).gyroTimestampFifo = s.gyroTimestampFifo
      ∧ (body L e s).lastGyro = s.lastGyro
      ∧ (body L e s).accelFifo = s.accelFifo
      ∧ (body L e s).accelTimestampFifo = s.accelTimestampFifo
      ∧ (body L e s).lastAccel = s.lastAccel
      ∧ (body L e s).magFifo = s.magFifo
      ∧ (body L e s).magTimestampFifo = s.magTimestampFifo
      ∧ (body L e s).lastMag = s.lastMag := by
  unfold body
  rw [if_neg hst]
  by_cases h2 : s.imuStatus = DEVICE_NOT_STARTED ∨ s.imuStatus = DEVICE_RESTARTATTEMPT
  · rw [if_pos h2]
    unfold start
    by_cases hc : 0 < e.startCode
    · simp only [hc, if_true]
      split <;> exact ⟨rfl, rfl, rfl, rfl, rfl, rfl, rfl, rfl, rfl⟩
    · simp only [hc, if_false]
      split <;> exact ⟨rfl, rfl, rfl, rfl, rfl, rfl, rfl, rfl, rfl⟩
  · rw [if_neg h2]
    split <;> exact ⟨rfl, rfl, rfl, rfl, rfl, rfl, rfl, rfl, rfl⟩

/-- One tick in any state, channel by channel: the value buffer and the timestamp
buffer get the reading and the timestamp of the tick, and the reading becomes the
last-reading register, exactly when the tick stores a reading of the channel; they
are left alone otherwise. -/
theorem deviceThread_channels (L : Nat) (e : IMUTick T) (s : IMU T) :
    (deviceThread L e s).gyroFifo =
        (if storesGyro e s = true then s.gyroFifo.unshift (gyroOf e) else s.gyroFifo)
      ∧ (deviceThread L e s).gyroTimestampFifo =
        (if storesGyro e s = true then s.gyroTimestampFifo.unshift e.micros
         else s.gyroTimestampFifo)
      ∧ (deviceThread L e s).lastGyro =
        (if storesGyro e s = true then gyroOf e else s.lastGyro)
      ∧ (deviceThread L e s).accelFifo =
        (if storesAccel e s = true then s.accelFifo.unshift (accelOf e) else s.accelFifo)
      ∧ (deviceThread L e s).accelTimestampFifo =
        (if storesAccel e s = true then s.accelTimestampFifo.unshift e.micros
         else s.accelTimestampFifo)
      ∧ (deviceThread L e s).lastAccel =
        (if storesAccel e s = true then accelOf e else s.lastAccel)
      ∧ (deviceThread L e s).magFifo =
        (if storesMag e s = true then s.magFifo.unshift (magOf e) else s.magFifo)
      ∧ (deviceThread L e s).magTimestampFifo =
        (if storesMag e s = true then s.magTimestampFifo.unshift e.micros
         else s.magTimestampFifo)
      ∧ (deviceThread L e s).lastMag =
        (if storesMag e s = true then magOf e else s.lastMag) := by
  by_cases hr : runs e s = true
  · by_cases hst : s.imuStatus = DEVICE_RUNNING
    · rw [deviceThread_running L e s hr hst]
      obtain ⟨c1, c2, c3, c4, c5, c6, c7, c8, c9, _⟩ :=
        rateCalc_channels e.microsRateCalc (readData e
          { s with imuInterval := (s.imuInterval.isTimeToRun e.microsInterval).2,
                   loopCounter := (s.loopCounter + 1) % UINT32 })
      rw [c1, c2, c3, c4, c5, c6, c7, c8, c9]
      by_cases hn : s.newDataInterrupt = true
      · obtain ⟨_, r2, r3, r4, r5, r6, r7, r8, r9, r10⟩ :=
          readData_channels e
            { s with imuInterval := (s.imuInterval.isTimeToRun e.microsInterval).2,
                     loopCounter := (s.loopCounter + 1) % UINT32 } hn
        rw [r2, r3, r4, r5, r6, r7, r8, r9, r10]
        simp [storesGyro, storesAccel, storesMag, hr, hst, hn]
      · have hn2 : s.newDataInterrupt = false := by simpa using hn
        have hrd := readData_of_not_pending e
          ({ s with imuInterval := (s.imuInterval.isTimeToRun e.microsInterval).2,
                    loopCounter := (s.loopCounter + 1) % UINT32 } : IMU T) hn2
        rw [hrd]
        simp [storesGyro, storesAccel, storesMag, hn2]
    · rw [deviceThread_eq_parts L e s hr]
      obtain ⟨c1, c2, c3, c4, c5, c6, c7, c8, c9, _⟩ :=
        rateCalc_channels e.microsRateCalc (body L e
          { s with imuInterval := (s.imuInterval.isTimeToRun e.microsInterval).2,
                   loopCounter := (s.loopCounter + 1) % UINT32 })
      obtain ⟨b1, b2, b3, b4, b5, b6, b7, b8, b9⟩ :=
        body_channels_of_not_running L e
          { s with imuInterval := (s.imuInterval.isTimeToRun e.microsInterval).2,
                   loopCounter := (s.loopCounter + 1) % UINT32 } hst
      rw [c1, c2, c3, c4, c5, c6, c7, c8, c9, b1, b2, b3, b4, b5, b6, b7, b8, b9]
      simp [storesGyro, storesAccel, storesMag, hst]
  · have hr2 : runs e s = false := by simpa using hr
    rw [deviceThread_of_not_runs L e s hr2]
    simp [storesGyro, storesAccel, storesMag, hr2]

/-- A register that each tick sets to the reading it stores, and that no other step
changes, holds after any steps the last reading stored, or its old value when no
reading was stored. -/
theorem register_is_last_stored (L : Nat) (cond : IMUTick T → IMU T → Bool)
    (reading : IMUTick T → Vector T) (reg : IMU T → Vector T)
    (htick : ∀ (e : IMUTick T) (s : IMU T),
      reg (deviceThread L e s) = (if cond e s = true then reading e else reg s))
    (hother : ∀ s : IMU T, reg (interruptRoutine s) = reg s
      ∧ reg (getGyro s).2.2.2 = reg s ∧ reg (getAccel s).2.2.2 = reg s
      ∧ reg (getMag s).2.2.2 = reg s) :
    ∀ (evs : List (Event T)) (s : IMU T),
      reg (run L evs s) = ((stored L cond reading evs s).getLast?).getD (reg s) := by
  intro evs
  induction evs with
  | nil => intro s; rfl
  | cons ev evs ih =>
    intro s
    have hrun : run L (ev :: evs) s = run L evs (step L ev s) := rfl
    rw [hrun, ih]
    cases ev with
    | tick e =>
      show _ = (((if cond e s = true then [reading e] else [])
        ++ stored L cond reading evs (deviceThread L e s)).getLast?).getD (reg s)
      have hstep : step L (Event.tick e) s = deviceThread L e s := rfl
      rw [hstep, htick e s, List.getLast?_append]
      by_cases hc : cond e s = true
      · simp only [hc, if_true]
        cases (stored L cond reading evs (deviceThread L e s)).getLast? <;> rfl
      · simp only [hc, if_false]
        cases (stored L cond reading evs (deviceThread L e s)).getLast? <;> rfl
    | interrupt =>
      show _ = ((stored L cond reading evs (step L Event.interrupt s)).getLast?).getD (reg s)
      have hstep : step L (Event.interrupt : Event T) s = interruptRoutine s := rfl
      rw [hstep, (hother s).1]
    | getGyro =>
      show _ = ((stored L cond reading evs (step L Event.getGyro s)).getLast?).getD (reg s)
      have hstep : step L (Event.getGyro : Event T) s = (getGyro s).2.2.2 := rfl
      rw [hstep, (hother s).2.1]
    | getAccel =>
      show _ = ((stored L cond reading evs (step L Event.getAccel s)).getLast?).getD (reg s)
      have hstep : step L (Event.getAccel : Event T) s = (getAccel s).2.2.2 := rfl
      rw [hstep, (hother s).2.2.1]
    | getMag =>
      show _ = ((stored L cond reading evs (step L Event.getMag s)).getLast?).getD (reg s)
      have hstep : step L (Event.getMag : Event T) s = (getMag s).2.2.2 := rfl
      rw [hstep, (hother s).2.2.2]

/-- After any steps, each last-reading register holds the last reading stored in its
channel during these steps, or its old value when none was stored. -/
theorem registers_hold_last_stored (L : Nat) (evs : List (Event T)) (s : IMU T) :
    (run L evs s).lastGyro
        = ((stored L storesGyro gyroOf evs s).getLast?).getD s.lastGyro
      ∧ (run L evs s).lastAccel
        = ((stored L storesAccel accelOf evs s).getLast?).getD s.lastAccel
      ∧ (run L evs s).lastMag
        = ((stored L storesMag magOf evs s).getLast?).getD s.lastMag :=
  ⟨register_is_last_stored L storesGyro gyroOf (fun s => s.lastGyro)
      (fun e s => (deviceThread_channels L e s).2.2.1)
      (fun s => (registers_of_other_steps s).1) evs s,
    register_is_last_stored L storesAccel accelOf (fun s => s.lastAccel)
      (fun e s => (deviceThread_channels L e s).2.2.2.2.2.1)
      (fun s => (registers_of_other_steps s).2.1) evs s,
    register_is_last_stored L storesMag magOf (fun s => s.lastMag)
      (fun e s => (deviceThread_channels L e s).2.2.2.2.2.2.2.2)
      (fun s => (registers_of_other_steps s).2.2) evs s⟩

end IMU

/-- Claim C26, counterexample.  From the running IMU with data pending, empty
buffers and `gyroCounter = 0`, the tick at 1000000 microseconds reads a gyro value
that differs from the last one: the value is stored in the gyro buffer, yet
`gyroCounter` is 0 after the tick and not 1, because the rate accounting of the same
tick moves the count into `gyroRate` and resets the counter.  And from the same
state, where no reading was stored yet, the tick at 2000 microseconds that reads the
gyro value (0, 0, 0) stores nothing: the reading is compared with the last-reading
register, which starts at (0, 0, 0). -/
theorem c26_gyroCounter_reset_on_storing_tick :
    IMU.samplePending.imuStatus = DeviceStatus.DEVICE_RUNNING
      ∧ IMU.samplePending.newDataInterrupt = true
      ∧ IMU.samplePending.gyroCounter = 0
      ∧ IMU.samplePending.gyroFifo.items = []
      ∧ IMU.runs (IMUTick.good 2 1000000) IMU.samplePending = true
      ∧ IMU.samplePending.lastGyro.ne (IMU.gyroOf (IMUTick.good 2 1000000)) = true
      ∧ (IMU.deviceThread 1000 (IMUTick.good 2 1000000) IMU.samplePending).gyroFifo.items
          = [⟨-2, -2, 2⟩]
      ∧ (IMU.deviceThread 1000 (IMUTick.good 2 1000000) IMU.samplePending).gyroCounter = 0
      ∧ (IMU.deviceThread 1000 (IMUTick.good 2 1000000) IMU.samplePending).gyroRate = 1
      ∧ IMU.runs (IMUTick.good 0 2000) IMU.samplePending = true
      ∧ (IMU.deviceThread 1000 (IMUTick.good 0 2000) IMU.samplePending).gyroFifo.items = []
      ∧ (IMU.deviceThread 1000 (IMUTick.good 0 2000) IMU.samplePending).newDataInterrupt
          = false := by
  decide

open DeviceStatus in
/-- Claim C26, amended.  On a tick that runs in `DEVICE_RUNNING`: with the data
pending flag set the flag is cleared, and in each of the three channels the reading
and the timestamp of the tick are stored, and the reading becomes the channel's
last-reading register, exactly when the reading differs (operator `!=`) from that
register, the buffers and the register being left alone otherwise; the gyro counter
after the tick is 0 when the rate calculation interval fires on it, and otherwise
the old counter plus one (32 bit) if the gyro reading was stored and the old counter
if not, and when the interval fires that count is the new `gyroRate`.  With the flag
clear no buffer and no register changes.  After any steps
(ticks, interrupts, `getGyro`, `getAccel`, `getMag`) from the initial state, the
last-reading register of each channel holds the last reading stored in the channel,
or (0, 0, 0) when none was stored; a tick in any state stores a reading of a channel,
in both of its buffers, exactly when `storesGyro`, `storesAccel`, `storesMag` say
so. -/
theorem duplicate_suppression {T : Type} [BEq T] [Neg T] [Zero T] (L : Nat)
    (e : IMUTick T) (s : IMU T) (evs : List (IMU.Event T)) (ic rc : IntervalControl)
    (hr : IMU.runs e s = true) (hst : s.imuStatus = DEVICE_RUNNING) :
    (s.newDataInterrupt = true →
        (IMU.deviceThread L e s).newDataInterrupt = false
        ∧ (IMU.deviceThread L e s).gyroFifo =
            (if s.lastGyro.ne (IMU.gyroOf e) = true then s.gyroFifo.unshift (IMU.gyroOf e)
             else s.gyroFifo)
        ∧ (IMU.deviceThread L e s).gyroTimestampFifo =
            (if s.lastGyro.ne (IMU.gyroOf e) = true
             then s.gyroTimestampFifo.unshift e.micros else s.gyroTimestampFifo)
        ∧ (IMU.deviceThread L e s).lastGyro =
            (if s.lastGyro.ne (IMU.gyroOf e) = true then IMU.gyroOf e else s.lastGyro)
        ∧ (IMU.deviceThread L e s).accelFifo =
            (if s.lastAccel.ne (IMU.accelOf e) = true
             then s.accelFifo.unshift (IMU.accelOf e) else s.accelFifo)
        ∧ (IMU.deviceThread L e s).accelTimestampFifo =
            (if s.lastAccel.ne (IMU.accelOf e) = true
             then s.accelTimestampFifo.unshift e.micros else s.accelTimestampFifo)
        ∧ (IMU.deviceThread L e s).lastAccel =
            (if s.lastAccel.ne (IMU.accelOf e) = true then IMU.accelOf e else s.lastAccel)
        ∧ (IMU.deviceThread L e s).magFifo =
            (if s.lastMag.ne (IMU.magOf e) = true then s.magFifo.unshift (IMU.magOf e)
             else s.magFifo)
        ∧ (IMU.deviceThread L e s).magTimestampFifo =
            (if s.lastMag.ne (IMU.magOf e) = true
             then s.magTimestampFifo.unshift e.micros else s.magTimestampFifo)
        ∧ (IMU.deviceThread L e s).lastMag =
            (if s.lastMag.ne (IMU.magOf e) = true then IMU.magOf e else s.lastMag)
        ∧ (IMU.deviceThread L e s).gyroCounter =
            (if (s.rateCalcInterval.isTimeToRun e.microsRateCalc).1 = true then 0
             else if s.lastGyro.ne (IMU.gyroOf e) = true then (s.gyroCounter + 1) % UINT32
             else s.gyroCounter)
        ∧ (IMU.deviceThread L e s).gyroRate =
            (if (s.rateCalcInterval.isTimeToRun e.microsRateCalc).1 = true then
               (if s.lastGyro.ne (IMU.gyroOf e) = true then (s.gyroCounter + 1) % UINT32
                else s.gyroCounter)
             else s.gyroRate))
      ∧ (s.newDataInterrupt = false →
        (IMU.deviceThread L e s).newDataInterrupt = false
        ∧ (IMU.deviceThread L e s).gyroFifo = s.gyroFifo
        ∧ (IMU.deviceThread L e s).gyroTimestampFifo = s.gyroTimestampFifo
        ∧ (IMU.deviceThread L e s).lastGyro = s.lastGyro
        ∧ (IMU.deviceThread L e s).accelFifo = s.accelFifo
        ∧ (IMU.deviceThread L e s).accelTimestampFifo = s.accelTimestampFifo
        ∧ (IMU.deviceThread L e s).lastAccel = s.lastAccel
        ∧ (IMU.deviceThread L e s).magFifo = s.magFifo
        ∧ (IMU.deviceThread L e s).magTimestampFifo = s.magTimestampFifo
        ∧ (IMU.deviceThread L e s).lastMag = s.lastMag
        ∧ (IMU.deviceThread L e s).gyroCounter =
            (if (s.rateCalcInterval.isTimeToRun e.microsRateCalc).1 = true then 0
             else s.gyroCounter)
        ∧ (IMU.deviceThread L e s).gyroRate =
            (if (s.rateCalcInterval.isTimeToRun e.microsRateCalc).1 = true
             then s.gyroCounter else s.gyroRate))
      ∧ ((IMU.run L evs (IMU.fresh T ic rc)).lastGyro
            = ((IMU.stored L IMU.storesGyro IMU.gyroOf evs (IMU.fresh T ic rc)).getLast?).getD
                ⟨0, 0, 0⟩
        ∧ (IMU.run L evs (IMU.fresh T ic rc)).lastAccel
            = ((IMU.stored L IMU.storesAccel IMU.accelOf evs (IMU.fresh T ic rc)).getLast?).getD
                ⟨0, 0, 0⟩
        ∧ (IMU.run L evs (IMU.fresh T ic rc)).lastMag
            = ((IMU.stored L IMU.storesMag IMU.magOf evs (IMU.fresh T ic rc)).getLast?).getD
                ⟨0, 0, 0⟩)
      ∧ (∀ (e1 : IMUTick T) (s1 : IMU T),
        (IMU.deviceThread L e1 s1).gyroFifo =
            (if IMU.storesGyro e1 s1 = true then s1.gyroFifo.unshift (IMU.gyroOf e1)
             else s1.gyroFifo)
          ∧ (IMU.deviceThread L e1 s1).gyroTimestampFifo =
            (if IMU.storesGyro e1 s1 = true then s1.gyroTimestampFifo.unshift e1.micros
             else s1.gyroTimestampFifo)
          ∧ (IMU.deviceThread L e1 s1).lastGyro =
            (if IMU.storesGyro e1 s1 = true then IMU.gyroOf e1 else s1.lastGyro)
          ∧ (IMU.deviceThread L e1 s1).accelFifo =
            (if IMU.storesAccel e1 s1 = true then s1.accelFifo.unshift (IMU.accelOf e1)
             else s1.accelFifo)
          ∧ (IMU.deviceThread L e1 s1).accelTimestampFifo =
            (if IMU.storesAccel e1 s1 = true then s1.accelTimestampFifo.unshift e1.micros
             else s1.accelTimestampFifo)
          ∧ (IMU.deviceThread L e1 s1).lastAccel =
            (if IMU.storesAccel e1 s1 = true then IMU.accelOf e1 else s1.lastAccel)
          ∧ (IMU.deviceThread L e1 s1).magFifo =
            (if IMU.storesMag e1 s1 = true then s1.magFifo.unshift (IMU.magOf e1)
             else s1.magFifo)
          ∧ (IMU.deviceThread L e1 s1).magTimestampFifo =
            (if IMU.storesMag e1 s1 = true then s1.magTimestampFifo.unshift e1.micros
             else s1.magTimestampFifo)
          ∧ (IMU.deviceThread L e1 s1).lastMag =
            (if IMU.storesMag e1 s1 = true then IMU.magOf e1 else s1.lastMag)) := by
  refine ⟨?_, ?_, IMU.registers_hold_last_stored L evs (IMU.fresh T ic rc),
    fun e1 s1 => IMU.deviceThread_channels L e1 s1⟩
  all_goals rw [IMU.deviceThread_running L e s hr hst]
  all_goals generalize hs1 :
    ({ s with imuInterval := (s.imuInterval.isTimeToRun e.microsInterval).2,
              loopCounter := (s.loopCounter + 1) % UINT32 } : IMU T) = s1
  all_goals have e1 : s1.newDataInterrupt = s.newDataInterrupt := by rw [← hs1]
  all_goals have e2 : s1.gyroFifo = s.gyroFifo := by rw [← hs1]
  all_goals have e3 : s1.gyroTimestampFifo = s.gyroTimestampFifo := by rw [← hs1]
  all_goals have e4 : s1.lastGyro = s.lastGyro := by rw [← hs1]
  all_goals have e5 : s1.accelFifo = s.accelFifo := by rw [← hs1]
  all_goals have e6 : s1.accelTimestampFifo = s.accelTimestampFifo := by rw [← hs1]
  all_goals have e7 : s1.lastAccel = s.lastAccel := by rw [← hs1]
  all_goals have e8 : s1.magFifo = s.magFifo := by rw [← hs1]
  all_goals have e9 : s1.magTimestampFifo = s.magTimestampFifo := by rw [← hs1]
  all_goals have e10 : s1.lastMag = s.lastMag := by rw [← hs1]
  all_goals have e11 : s1.gyroCounter = s.gyroCounter := by rw [← hs1]
  all_goals have e12 : s1.rateCalcInterval = s.rateCalcInterval := by rw [← hs1]
  all_goals have e13 : s1.gyroRate = s.gyroRate := by rw [← hs1]
  all_goals obtain ⟨c1, c2, c3, c4, c5, c6, c7, c8, c9, c10⟩ :=
    IMU.rateCalc_channels e.microsRateCalc (IMU.readData e s1)
  all_goals obtain ⟨f1, f2, _, _, _, _⟩ :=
    IMU.rateCalc_fields e.microsRateCalc (IMU.readData e s1)
  all_goals obtain ⟨g1, g2, _, g4, _⟩ := IMU.readData_counters e s1
  all_goals rw [c1, c2, c3, c4, c5, c6, c7, c8, c9, c10, f1, f2, g1, g2, g4, e12, e13]
  · intro hn
    obtain ⟨r1, r2, r3, r4, r5, r6, r7, r8, r9, r10⟩ :=
      IMU.readData_channels e s1 (e1.trans hn)
    rw [r1, r2, r3, r4, r5, r6, r7, r8, r9, r10, e1, e2, e3, e4, e5, e6, e7, e8, e9, e10,
      e11]
    refine ⟨rfl, rfl, rfl, rfl, rfl, rfl, rfl, rfl, rfl, rfl, ?_, ?_⟩ <;> simp [hn]
  · intro hn
    rw [IMU.readData_of_not_pending e s1 (e1.trans hn), e1, e2, e3, e4, e5, e6, e7, e8,
      e9, e10, e11]
    refine ⟨hn, rfl, rfl, rfl, rfl, rfl, rfl, rfl, rfl, rfl, ?_, ?_⟩ <;> simp [hn]

/-- Claim C26, the amended statement at a concrete tick: the running IMU with data
pending reads a new gyro value at 2000 microseconds, where the rate calculation
interval does not fire; the value and the timestamp are stored and the counter goes
from 0 to 1.  And after a start, an interrupt, that tick, a second interrupt and a
tick with the same reading, one gyro reading was stored and `lastGyro` holds it. -/
theorem duplicate_suppression_witness :
    (IMU.deviceThread 1000 (IMUTick.good 2 2000) IMU.samplePending).newDataInterrupt = false
      ∧ (IMU.deviceThread 1000 (IMUTick.good 2 2000) IMU.samplePending).gyroFifo =
          IMU.samplePending.gyroFifo.unshift (IMU.gyroOf (IMUTick.good 2 2000))
      ∧ (IMU.deviceThread 1000 (IMUTick.good 2 2000) IMU.samplePending).gyroTimestampFifo =
          IMU.samplePending.gyroTimestampFifo.unshift 2000
      ∧ (IMU.deviceThread 1000 (IMUTick.good 2 2000) IMU.samplePending).gyroCounter = 1
      ∧ IMU.stored 1000 IMU.storesGyro IMU.gyroOf
          [.tick (IMUTick.good 1 10), .interrupt, .tick (IMUTick.good 2 2000), .interrupt,
            .tick (IMUTick.good 2 4000)] IMU.sample = [⟨-2, -2, 2⟩]
      ∧ (IMU.run 1000
          [.tick (IMUTick.good 1 10), .interrupt, .tick (IMUTick.good 2 2000), .interrupt,
            .tick (IMUTick.good 2 4000)] IMU.sample).lastGyro = ⟨-2, -2, 2⟩ :=
  have h := duplicate_suppression 1000 (IMUTick.good 2 2000) IMU.samplePending
    [.tick (IMUTick.good 1 10), .interrupt, .tick (IMUTick.good 2 2000), .interrupt,
      .tick (IMUTick.good 2 4000)] ⟨0, 0, false⟩ ⟨1000000, 0, false⟩ (by decide) (by decide)
  have h1 := h.1 (by decide)
  ⟨h1.1, h1.2.1.trans (by decide), h1.2.2.1.trans (by decide),
    h1.2.2.2.2.2.2.2.2.2.2.1.trans (by decide), by decide, h.2.2.1.1.trans (by decide)⟩

end FlightSystem
